import Mathlib

/-!
# SpellGems: persistent store, slot assignment and slot activation

A shallow embedding of `Serialization.{h,cpp}`, `Config.{h,cpp}` and
`SpellGemManager.{h,cpp}`.

Modelling conventions.

* `RE::FormID` (`uint32`) and `uniqueId` (`uint16`) are natural numbers; the
  16-bit counter `nextUniqueId_` and the 32-bit record count written by `Save`
  wrap explicitly (`% 65536`, `% 4294967296`), and the 64-bit focus token wraps
  `% 2 ^ 64`.
* `float` values: the arithmetic and the comparisons that decide what the code
  does (the cooldown gate of `ActivateStoredGemSlot`, the clamps of the two
  duration setters, the test `duration <= 0.0f`) are computed in single
  precision (`Float32`: rounding to nearest, infinities, NaN). Values that the
  program only stores or passes on (game time, time scale, tier cooldown, spell
  cost, health, the cast multipliers) are finite values held as the exact
  rationals they denote.
* `std::unordered_map<GemKey, StoredSpellData>` is an association list; the
  order of the list is the (unspecified) enumeration order of the map.
* The engine (form lookup, calendar, player, casting) is data passed to the
  operations; what the code does to the engine is appended to an event log.
-/

namespace SpellGems

/-! ## Data model (`Config.h`, `Serialization.h`) -/

/-- The five tiers of `enum class SpellTier : std::uint8_t` (`Total` is their number). -/
inductive SpellTier where
  | Novice
  | Apprentice
  | Adept
  | Expert
  | Master
deriving DecidableEq, Repr

/-- Numeric value of a tier, as in the `enum`. -/
def SpellTier.toNat : SpellTier → Nat
  | .Novice => 0
  | .Apprentice => 1
  | .Adept => 2
  | .Expert => 3
  | .Master => 4

/-- The key `struct GemKey` with its `operator==` (field-wise equality). -/
structure GemKey where
  baseId : Nat
  uniqueId : Nat
deriving DecidableEq, Repr

/-- The record `struct StoredSpellData`. -/
structure StoredSpellData where
  spellId : Nat
  tier : SpellTier
  usesRemaining : Int
  lastUsedGameTime : ℚ
  isReusableStar : Bool
  isBlackSoulGem : Bool
deriving DecidableEq, Repr

/-- A value-initialised `GemKey{}`. -/
def GemKey.zero : GemKey := { baseId := 0, uniqueId := 0 }

/-- A value-initialised `StoredSpellData{}`. -/
def StoredSpellData.zero : StoredSpellData :=
  { spellId := 0, tier := .Novice, usesRemaining := 0, lastUsedGameTime := 0,
    isReusableStar := false, isBlackSoulGem := false }

/-! ## `std::unordered_map<GemKey, StoredSpellData, GemKeyHash>` -/

/-- The map is a list of entries in enumeration order. -/
abbrev StoredSpells := List (GemKey × StoredSpellData)

/-- Member `find`: the record stored under `key`, if any. -/
def mapFind : StoredSpells → GemKey → Option StoredSpellData
  | [], _ => none
  | (k, d) :: rest, key => if k = key then some d else mapFind rest key

/-- Member `contains`. -/
def mapContains (m : StoredSpells) (key : GemKey) : Bool :=
  (mapFind m key).isSome

/-- Assignment `m[key] = data`: overwrite in place, or insert a new entry. -/
def mapAssign : StoredSpells → GemKey → StoredSpellData → StoredSpells
  | [], key, data => [(key, data)]
  | (k, d) :: rest, key, data =>
    if k = key then (k, data) :: rest else (k, d) :: mapAssign rest key data

/-- Member `erase(key)`. -/
def mapErase (m : StoredSpells) (key : GemKey) : StoredSpells :=
  m.filter (fun e => !decide (e.1 = key))

/-- Member `emplace(key, data)`: inserts only when `key` is not yet present. -/
def mapEmplace (m : StoredSpells) (key : GemKey) (data : StoredSpellData) : StoredSpells :=
  if mapContains m key then m else m ++ [(key, data)]

/-! ## Single-precision values (`float`)

The program keeps game times, time scales and the two duration settings in
variables of type `float` and compares the results of `float` arithmetic.
`Float32` holds such a value: not-a-number, an infinity, or a finite value as
the exact rational it denotes. Every arithmetic result is rounded to the
nearest representable value, ties to even (24-bit significand, least exponent
-126 with gradual underflow, overflow to an infinity). The two zeros are not
told apart. -/

/-- A value of the C++ type `float` (IEEE-754 binary32). -/
inductive Float32 where
  | nan
  | negInf
  | finite (value : ℚ)
  | posInf
deriving DecidableEq, Repr

namespace Float32

/-- The power `2 ^ e` for an integer exponent. -/
def pow2 (e : Int) : ℚ :=
  if 0 ≤ e then (2 : ℚ) ^ e.toNat else 1 / (2 : ℚ) ^ (-e).toNat

/-- The number of halvings that bring `n` below 2, at most `bound` of them. -/
def halvings : Nat → Nat → Nat
  | 0, _ => 0
  | bound + 1, n => if n < 2 then 0 else halvings bound (n / 2) + 1

/-- The position of the leading bit of `n`, `⌊log₂ n⌋` for positive `n`
(`n` halvings always suffice). -/
def log2 (n : Nat) : Nat := halvings n n

/-- The exponent `e` with `2 ^ e ≤ a < 2 ^ (e + 1)` of a positive rational. -/
def exponent (a : ℚ) : Int :=
  let e0 : Int := (log2 a.num.natAbs : Int) - (log2 a.den : Int)
  if pow2 e0 ≤ a then e0 else e0 - 1

/-- Rounding of a non-negative rational to the nearest integer, ties to even. -/
def roundHalfEven (x : ℚ) : Int :=
  let f : Int := Rat.floor x
  let r : ℚ := x - f
  if r < 1 / 2 then f else if 1 / 2 < r then f + 1 else if f % 2 = 0 then f else f + 1

/-- Rounding of a non-negative rational to the nearest magnitude a `float` can
hold: a multiple of `2 ^ (e - 23)` where `e` is the exponent of the value and
at least -126; `none` when the rounded magnitude reaches `2 ^ 128` (overflow). -/
def roundMagnitude (a : ℚ) : Option ℚ :=
  if a = 0 then some 0
  else
    let e := max (exponent a) (-126)
    let ulp := pow2 (e - 23)
    let r : ℚ := (roundHalfEven (a / ulp) : ℚ) * ulp
    if r < pow2 128 then some r else none

/-- The `float` nearest to a rational (round to nearest, ties to even). -/
def ofRat (q : ℚ) : Float32 :=
  if 0 ≤ q then
    match roundMagnitude q with
    | some r => finite r
    | none => posInf
  else
    match roundMagnitude (-q) with
    | some r => finite (-r)
    | none => negInf

/-- The operator `-` of `float`. -/
def sub : Float32 → Float32 → Float32
  | nan, _ => nan
  | _, nan => nan
  | finite x, finite y => ofRat (x - y)
  | finite _, posInf => negInf
  | finite _, negInf => posInf
  | posInf, posInf => nan
  | posInf, _ => posInf
  | negInf, negInf => nan
  | negInf, _ => negInf

/-- The operator `*` of `float`. -/
def mul : Float32 → Float32 → Float32
  | nan, _ => nan
  | _, nan => nan
  | finite x, finite y => ofRat (x * y)
  | finite x, posInf => if x = 0 then nan else if 0 < x then posInf else negInf
  | finite x, negInf => if x = 0 then nan else if 0 < x then negInf else posInf
  | posInf, finite y => if y = 0 then nan else if 0 < y then posInf else negInf
  | negInf, finite y => if y = 0 then nan else if 0 < y then negInf else posInf
  | posInf, posInf => posInf
  | posInf, negInf => negInf
  | negInf, posInf => negInf
  | negInf, negInf => posInf

/-- The operator `/` of `float` (a zero divisor is taken as positive zero). -/
def div : Float32 → Float32 → Float32
  | nan, _ => nan
  | _, nan => nan
  | finite x, finite y =>
    if y = 0 then (if x = 0 then nan else if 0 < x then posInf else negInf)
    else ofRat (x / y)
  | finite _, posInf => finite 0
  | finite _, negInf => finite 0
  | posInf, finite y => if 0 ≤ y then posInf else negInf
  | negInf, finite y => if 0 ≤ y then negInf else posInf
  | posInf, posInf => nan
  | posInf, negInf => nan
  | negInf, posInf => nan
  | negInf, negInf => nan

/-- The operator `<` of `float`: false whenever an operand is not-a-number. -/
def lt : Float32 → Float32 → Bool
  | nan, _ => false
  | _, nan => false
  | finite x, finite y => decide (x < y)
  | finite _, posInf => true
  | finite _, negInf => false
  | negInf, negInf => false
  | negInf, _ => true
  | posInf, _ => false

/-- The operator `<=` of `float`: false whenever an operand is not-a-number. -/
def le : Float32 → Float32 → Bool
  | nan, _ => false
  | _, nan => false
  | finite x, finite y => decide (x ≤ y)
  | finite _, posInf => true
  | finite _, negInf => false
  | negInf, _ => true
  | posInf, posInf => true
  | posInf, _ => false

/-- The function `std::clamp(v, lo, hi)`: `(v < lo) ? lo : (hi < v) ? hi : v`. -/
def clamp (v lo hi : Float32) : Float32 :=
  if lt v lo then lo else if lt hi v then hi else v

end Float32

/-! ## The save channel (`SKSE::SerializationInterface`)

The channel is modelled at the granularity of its typed read/write primitives:
a record is a type tag, a version and the sequence of fields written into it. -/

/-- One value passed to `WriteRecordData`. -/
inductive Field where
  | u32 (v : Nat)
  | u16 (v : Nat)
  | tier (v : SpellTier)
  | i32 (v : Int)
  | f32 (v : ℚ)
  | bool (v : Bool)
deriving DecidableEq, Repr

/-- A record of the co-save: what `OpenRecord` starts and `GetNextRecordInfo` reports. -/
structure Record where
  type : Nat
  version : Nat
  data : List Field
deriving DecidableEq, Repr

/-- The interface handed to the callbacks: the records to read, `ResolveFormID`,
and whether `OpenRecord` succeeds for a record type. -/
structure SerializationInterface where
  records : List Record
  ResolveFormID : Nat → Option Nat
  OpenRecord : Nat → Bool

/-- The constant `kSerializationVersion`. -/
def kSerializationVersion : Nat := 3

/-- The constant `kRecordSpells = 'SPEL'`. -/
def kRecordSpells : Nat := 0x5350454C

/-- The constant `kRecordState = 'STAT'`. -/
def kRecordState : Nat := 0x53544154

/-- `ReadRecordData(std::uint32_t&)`: a read always advances the stream. It
yields the next field when that field is a `u32`; a field of another type is
consumed all the same (the bytes are taken whatever wrote them) and its
reinterpreted value is not modelled, the destination keeping its value. At
the end of the record nothing is read. -/
def readU32 (old : Nat) : List Field → Nat × List Field
  | Field.u32 v :: rest => (v, rest)
  | _ :: rest => (old, rest)
  | [] => (old, [])

/-- `ReadRecordData(std::uint16_t&)`, with the same convention as `readU32`. -/
def readU16 (old : Nat) : List Field → Nat × List Field
  | Field.u16 v :: rest => (v, rest)
  | _ :: rest => (old, rest)
  | [] => (old, [])

/-- `ReadRecordData(SpellTier&)`. -/
def readTier (old : SpellTier) : List Field → SpellTier × List Field
  | Field.tier v :: rest => (v, rest)
  | _ :: rest => (old, rest)
  | [] => (old, [])

/-- `ReadRecordData(std::int32_t&)`. -/
def readI32 (old : Int) : List Field → Int × List Field
  | Field.i32 v :: rest => (v, rest)
  | _ :: rest => (old, rest)
  | [] => (old, [])

/-- `ReadRecordData(float&)`. -/
def readF32 (old : ℚ) : List Field → ℚ × List Field
  | Field.f32 v :: rest => (v, rest)
  | _ :: rest => (old, rest)
  | [] => (old, [])

/-- `ReadRecordData(bool&)`: as `readU32`, the next field is consumed whatever
its type, so a read that the writer did not match with a write shifts every
later read of the record. -/
def readBool (old : Bool) : List Field → Bool × List Field
  | Field.bool v :: rest => (v, rest)
  | _ :: rest => (old, rest)
  | [] => (old, [])

/-! ## `class Serialization` -/

/-- The state of the `Serialization` singleton. -/
structure Serialization where
  storedSpells_ : StoredSpells
  nextUniqueId_ : Nat
deriving DecidableEq, Repr

namespace Serialization

/-- A freshly constructed store: no records, `nextUniqueId_{ 1 }`. -/
def fresh : Serialization := { storedSpells_ := [], nextUniqueId_ := 1 }

/-- The fields `Save` writes for one entry of the map (the body of its loop). -/
def saveEntry (e : GemKey × StoredSpellData) : List Field :=
  [Field.u32 e.1.baseId, Field.u16 e.1.uniqueId, Field.u32 e.2.spellId, Field.tier e.2.tier,
   Field.i32 e.2.usesRemaining, Field.f32 e.2.lastUsedGameTime,
   Field.bool e.2.isReusableStar, Field.bool e.2.isBlackSoulGem]

/-- `Serialization::Save`: the records written to the co-save. -/
def Save (s : Serialization) : Option SerializationInterface → List Record
  | none => []
  | some intfc =>
    (if intfc.OpenRecord kRecordState then
      [{ type := kRecordState, version := kSerializationVersion,
         data := [Field.u16 s.nextUniqueId_] }]
     else []) ++
    (if intfc.OpenRecord kRecordSpells then
      [{ type := kRecordSpells, version := kSerializationVersion,
         data := Field.u32 (s.storedSpells_.length % 4294967296) ::
           s.storedSpells_.flatMap saveEntry }]
     else [])

/-- One iteration of the loop of `Load` over the entries of a spell record:
reads the fields of the entry for the record's `version`, resolves both
identities and emplaces the entry; returns the map and the unread fields. -/
def loadEntry (version : Nat) (resolve : Nat → Option Nat)
    (st : StoredSpells × List Field) : StoredSpells × List Field :=
  let key := GemKey.zero
  let data := StoredSpellData.zero
  let (baseId, fs) := readU32 key.baseId st.2
  let (uniqueId, fs) := readU16 key.uniqueId fs
  let (spellId, fs) := readU32 data.spellId fs
  let (tier, fs) := readTier data.tier fs
  let (usesRemaining, fs) := readI32 data.usesRemaining fs
  let (lastUsedGameTime, fs) := readF32 data.lastUsedGameTime fs
  let (isReusableStar, fs) :=
    if version ≥ 2 then readBool data.isReusableStar fs else (false, fs)
  let (isBlackSoulGem, fs) :=
    if version ≥ 3 then readBool data.isBlackSoulGem fs else (false, fs)
  match resolve spellId with
  | none => (st.1, fs)
  | some resolvedSpell =>
    match resolve baseId with
    | none => (st.1, fs)
    | some resolvedGem =>
      (mapEmplace st.1 { baseId := resolvedGem, uniqueId := uniqueId }
        { spellId := resolvedSpell, tier := tier, usesRemaining := usesRemaining,
          lastUsedGameTime := lastUsedGameTime, isReusableStar := isReusableStar,
          isBlackSoulGem := isBlackSoulGem }, fs)

/-- The loop `for (i = 0; i < count; ++i)` of `Load`. -/
def loadEntries (version : Nat) (resolve : Nat → Option Nat) :
    Nat → StoredSpells × List Field → StoredSpells × List Field
  | 0, st => st
  | n + 1, st => loadEntries version resolve n (loadEntry version resolve st)

/-- The body of the `while (GetNextRecordInfo(type, version, length))` loop of `Load`. -/
def loadRecord (resolve : Nat → Option Nat) (s : Serialization) : Record → Serialization
  | { type := type, version := version, data := data } =>
    if type = kRecordState then
      { s with nextUniqueId_ := (readU16 s.nextUniqueId_ data).1 }
    else if type = kRecordSpells then
      let (count, fs) := readU32 0 data
      { s with storedSpells_ := (loadEntries version resolve count (s.storedSpells_, fs)).1 }
    else s

/-- `Serialization::Load`. -/
def Load (s : Serialization) : Option SerializationInterface → Serialization
  | none => s
  | some intfc =>
    intfc.records.foldl (loadRecord intfc.ResolveFormID) { s with storedSpells_ := [] }

/-- `Serialization::Revert`. -/
def Revert (_s : Serialization) : Serialization :=
  { storedSpells_ := [], nextUniqueId_ := 1 }

/-- `Serialization::HasStoredSpell`. -/
def HasStoredSpell (s : Serialization) (key : GemKey) : Bool :=
  mapContains s.storedSpells_ key

/-- `Serialization::GetStoredSpell` (a null pointer is `none`). -/
def GetStoredSpell (s : Serialization) (key : GemKey) : Option StoredSpellData :=
  mapFind s.storedSpells_ key

/-- `Serialization::StoreSpell`. -/
def StoreSpell (s : Serialization) (key : GemKey) (data : StoredSpellData) : Serialization :=
  { s with storedSpells_ := mapAssign s.storedSpells_ key data }

/-- `Serialization::RemoveStoredSpell`. -/
def RemoveStoredSpell (s : Serialization) (key : GemKey) : Serialization :=
  { s with storedSpells_ := mapErase s.storedSpells_ key }

/-- `Serialization::TryGetStoredSpellByBaseId`: the first entry, in enumeration
order, whose key has the given base identity. -/
def TryGetStoredSpellByBaseId (s : Serialization) (baseId : Nat) :
    Option (GemKey × StoredSpellData) :=
  s.storedSpells_.find? (fun e => decide (e.1.baseId = baseId))

/-- `Serialization::GetStoredSpells`. -/
def GetStoredSpells (s : Serialization) : StoredSpells := s.storedSpells_

/-- `Serialization::AllocateUniqueId`: `return nextUniqueId_++` on a `uint16`. -/
def AllocateUniqueId (s : Serialization) : Nat × Serialization :=
  (s.nextUniqueId_, { s with nextUniqueId_ := (s.nextUniqueId_ + 1) % 65536 })

end Serialization

/-! ## `class Config` -/

/-- The pair `struct TierSettings`. -/
structure TierSettings where
  cooldown : ℚ
  uses : Int
deriving DecidableEq, Repr

/-- The state of the `Config` singleton; the two `std::array`s indexed by tier
are functions on `SpellTier`. -/
structure Config where
  tierSettings_ : SpellTier → TierSettings
  storeKey_ : Nat
  activationKeys_ : List Nat
  maxStoredGems_ : Nat
  finiteUse_ : Bool
  showUsesRemaining_ : Bool
  requireFilledSoulGem_ : Bool
  allowAnyGemTier_ : Bool
  blackSoulGemBoosts_ : Bool
  normalGemPenalty_ : Bool
  azurasStarBoost_ : Bool
  focusSpellDuration_ : Float32
  starCooldown_ : Float32
  fragmentFormId_ : Nat
  fragmentCounts_ : SpellTier → Nat

namespace Config

/-- The constructor `Config::Config()` (with the member initialisers of `Config.h`). -/
def defaults : Config :=
  { tierSettings_ := fun t =>
      match t with
      | .Novice => { cooldown := 3, uses := 10 }
      | .Apprentice => { cooldown := 6, uses := 8 }
      | .Adept => { cooldown := 12, uses := 6 }
      | .Expert => { cooldown := 20, uses := 4 }
      | .Master => { cooldown := 30, uses := 3 }
    storeKey_ := 0x4C
    activationKeys_ := [2, 3, 4, 5, 6]
    maxStoredGems_ := 5
    finiteUse_ := true
    showUsesRemaining_ := true
    requireFilledSoulGem_ := true
    allowAnyGemTier_ := false
    blackSoulGemBoosts_ := true
    normalGemPenalty_ := true
    azurasStarBoost_ := true
    focusSpellDuration_ := .finite 2
    starCooldown_ := .finite 3
    fragmentFormId_ := 0x00067181
    fragmentCounts_ := fun _ => 1 }

/-- `Config::GetTierSettings`. -/
def GetTierSettings (c : Config) (tier : SpellTier) : TierSettings := c.tierSettings_ tier

/-- `Config::GetMaxStoredGems`. -/
def GetMaxStoredGems (c : Config) : Nat := c.maxStoredGems_

/-- `Config::SetMaxStoredGems`: `std::clamp<std::uint8_t>(value, 3, 5)`. -/
def SetMaxStoredGems (c : Config) (value : Nat) : Config :=
  { c with maxStoredGems_ := if value < 3 then 3 else if 5 < value then 5 else value }

/-- `Config::BlackSoulGemBoosts`. -/
def BlackSoulGemBoosts (c : Config) : Bool := c.blackSoulGemBoosts_

/-- `Config::NormalGemPenalty`. -/
def NormalGemPenalty (c : Config) : Bool := c.normalGemPenalty_

/-- `Config::AzurasStarBoost`. -/
def AzurasStarBoost (c : Config) : Bool := c.azurasStarBoost_

/-- `Config::GetFocusSpellDuration`. -/
def GetFocusSpellDuration (c : Config) : Float32 := c.focusSpellDuration_

/-- `Config::GetStarCooldown`. -/
def GetStarCooldown (c : Config) : Float32 := c.starCooldown_

/-- `Config::GetFragmentFormId`. -/
def GetFragmentFormId (c : Config) : Nat := c.fragmentFormId_

/-- `Config::GetFragmentCount`. -/
def GetFragmentCount (c : Config) (tier : SpellTier) : Nat := c.fragmentCounts_ tier

/-- `Config::SetFragmentCount`. -/
def SetFragmentCount (c : Config) (tier : SpellTier) (value : Nat) : Config :=
  { c with fragmentCounts_ := fun t => if t = tier then value else c.fragmentCounts_ t }

/-- `Config::SetAllowAnyGemTier`. -/
def SetAllowAnyGemTier (c : Config) (value : Bool) : Config :=
  { c with allowAnyGemTier_ := value }

end Config

/-! ## The engine, as far as the manager uses it -/

/-- Soul sizes `RE::SOUL_LEVEL`. -/
inductive SOUL_LEVEL where
  | kNone
  | kPetty
  | kLesser
  | kCommon
  | kGreater
  | kGrand
deriving DecidableEq, Repr

/-- A soul gem form `RE::TESSoulGem`: its id, `CanHoldNPCSoul()` and `GetMaximumCapacity()`. -/
structure TESSoulGem where
  formID : Nat
  canHoldNPCSoul : Bool
  maximumCapacity : SOUL_LEVEL
deriving DecidableEq, Repr

/-- The magic schools returned by `EffectSetting::GetMagickSkill()` (`kNone` for any other value). -/
inductive ActorValue where
  | kAlteration
  | kConjuration
  | kDestruction
  | kIllusion
  | kRestoration
  | kNone
deriving DecidableEq, Repr

/-- A base effect `RE::EffectSetting`. -/
structure EffectSetting where
  magickSkill : ActorValue
  minimumSkillLevel : Int
deriving DecidableEq, Repr

/-- A spell effect `RE::Effect`; `baseEffect` may be null. -/
structure Effect where
  baseEffect : Option EffectSetting
deriving DecidableEq, Repr

/-- Casting styles `RE::MagicSystem::CastingType`. -/
inductive CastingType where
  | kConstantEffect
  | kFireAndForget
  | kConcentration
  | kScroll
deriving DecidableEq, Repr

/-- Delivery modes `RE::MagicSystem::Delivery`. -/
inductive Delivery where
  | kSelf
  | kTouch
  | kAimed
  | kTargetActor
  | kTargetLocation
deriving DecidableEq, Repr

/-- A spell form `RE::SpellItem`: the list `effects` may hold null entries, and
`costliestEffect` is what `GetCostliestEffectItem()` returns. -/
structure SpellItem where
  formID : Nat
  castingType : CastingType
  delivery : Delivery
  effects : List (Option Effect)
  costliestEffect : Option Effect
deriving DecidableEq, Repr

/-- The casting channels the manager asks for (`RE::MagicSystem::CastingSource`). -/
inductive CastingSource where
  | kLeftHand
  | kRightHand
  | kInstant
deriving DecidableEq, Repr

/-- A casting channel `RE::MagicCaster` with its intrinsic cost `currentSpellCost`. -/
structure MagicCaster where
  currentSpellCost : ℚ
deriving DecidableEq, Repr

/-- The player `RE::PlayerCharacter`: the channels it has, whether
`AsActorValueOwner()` is non-null, the three summands of its maximum health and
its current magicka. -/
structure PlayerCharacter where
  formID : Nat
  rightHand : Option MagicCaster
  leftHand : Option MagicCaster
  instant : Option MagicCaster
  actorValueOwner : Bool
  permanentHealth : ℚ
  healthPermanentModifier : ℚ
  healthTemporaryModifier : ℚ
  magicka : ℚ
deriving DecidableEq, Repr

/-- `Actor::GetMagicCaster`. -/
def PlayerCharacter.GetMagicCaster (p : PlayerCharacter) : CastingSource → Option MagicCaster
  | .kLeftHand => p.leftHand
  | .kRightHand => p.rightHand
  | .kInstant => p.instant

/-- The assignment `caster->currentSpellCost = cost` on the channel of `source`. -/
def PlayerCharacter.setSpellCost (p : PlayerCharacter) (source : CastingSource) (cost : ℚ) :
    PlayerCharacter :=
  match source with
  | .kLeftHand => { p with leftHand := p.leftHand.map fun _ => { currentSpellCost := cost } }
  | .kRightHand => { p with rightHand := p.rightHand.map fun _ => { currentSpellCost := cost } }
  | .kInstant => { p with instant := p.instant.map fun _ => { currentSpellCost := cost } }

/-- The calendar `RE::Calendar`: `GetTimescale()` and `GetCurrentGameTime()`. -/
structure Calendar where
  timescale : ℚ
  currentGameTime : ℚ
deriving DecidableEq, Repr

/-- What the manager reads from the engine during one call: the form tables
behind `LookupByID<T>` and the calendar singleton (possibly null). -/
structure Engine where
  lookupSpell : Nat → Option SpellItem
  lookupSoulGem : Nat → Option TESSoulGem
  lookupMisc : Nat → Bool
  calendar : Option Calendar

/-- What the manager does to the engine, in program order. -/
inductive GameEvent where
  | notification (message : String)
  | restoreHealthDamage (amount : ℚ)
  | animation (name : String)
  | prepareSound (spellId : Nat)
  | castSpellImmediate (spellId : Nat) (source : CastingSource) (targetsPlayer : Bool)
      (effectiveness : ℚ) (magnitudeOverride : ℚ)
  | playReleaseSound (spellId : Nat)
  | startMagickaPoller (focusId : Nat)
  | scheduleFocusExpiry (focusId : Nat) (index : Nat) (duration : Float32)
  | interruptCast (source : CastingSource)
  | removeItem (formId : Nat) (count : Int)
  | addObjectToContainer (formId : Nat) (count : Int)
  | setFullName (formId : Nat) (name : String)
  | addFormToDataHandler (formId : Nat) (registered : Bool)
deriving DecidableEq, Repr

/-! ## `class SpellGemManager` -/

/-- The key `struct StoredGemFormKey` of the cache of duplicated gem forms. -/
structure StoredGemFormKey where
  baseId : Nat
  spellId : Nat
  tier : SpellTier
  usesRemaining : Int
deriving DecidableEq, Repr

/-- The data members of the `SpellGemManager` singleton used by capture and
activation; the cache `storedGemForms_` is a list in insertion order. -/
structure SpellGemManager where
  storedGemForms_ : List (StoredGemFormKey × TESSoulGem)
  storedGemSlots_ : List GemKey
  activeFocusSlot_ : Option Nat
  focusCastId_ : Nat
  focusCasterSource_ : Option CastingSource
  focusPreviousCost_ : ℚ
  focusCostActive_ : Bool
  focusStartMagicka_ : ℚ
deriving DecidableEq, Repr

/-- A default-constructed manager. -/
def SpellGemManager.fresh : SpellGemManager :=
  { storedGemForms_ := [], storedGemSlots_ := [], activeFocusSlot_ := none, focusCastId_ := 0,
    focusCasterSource_ := none, focusPreviousCost_ := 0, focusCostActive_ := false,
    focusStartMagicka_ := 0 }

/-- Everything the manager's operations can change: the three singletons, the
player (null is `none`) and the log of engine calls. -/
structure World where
  serialization : Serialization
  config : Config
  manager : SpellGemManager
  player : Option PlayerCharacter
  events : List GameEvent

/-- Appends an engine call to the log. -/
def World.emit (w : World) (e : GameEvent) : World := { w with events := w.events ++ [e] }

/-- `SpellGemManager::LogMessage`: the on-screen `RE::DebugNotification`. -/
def LogMessage (w : World) (message : String) : World := w.emit (.notification message)

/-- The comparator passed to `std::sort` in `RefreshStoredGemSlots`. -/
def slotLess (a b : GemKey) : Bool :=
  if a.baseId ≠ b.baseId then decide (a.baseId < b.baseId) else decide (a.uniqueId < b.uniqueId)

/-- Insertion of a key in front of the first key it is less than. -/
def sortInsert (x : GemKey) : List GemKey → List GemKey
  | [] => [x]
  | y :: ys => if slotLess x y then x :: y :: ys else y :: sortInsert x ys

/-- The call `std::sort(begin, end, slotLess)`, as an insertion sort. -/
def stdSort : List GemKey → List GemKey
  | [] => []
  | x :: xs => sortInsert x (stdSort xs)

/-- `SpellGemManager::RefreshStoredGemSlots`. -/
def RefreshStoredGemSlots (w : World) : World :=
  let storedSpells := w.serialization.GetStoredSpells
  let slots := stdSort (storedSpells.map fun e => e.1)
  let maxStored := w.config.GetMaxStoredGems
  let slots := if slots.length > maxStored then slots.take maxStored else slots
  { w with manager := { w.manager with storedGemSlots_ := slots } }

/-- `SpellGemManager::IsReusableStar`. -/
def IsReusableStar (formId : Nat) : Bool := formId == 0x00063B27 || formId == 0x00063B29

/-- `SpellGemManager::IsAzurasStar`. -/
def IsAzurasStar (formId : Nat) : Bool := formId == 0x00063B27

/-- `SpellGemManager::IsBlackSoulGem`. -/
def IsBlackSoulGem (gem : TESSoulGem) : Bool := gem.formID == 0x00063B29 || gem.canHoldNPCSoul

/-- `SpellGemManager::GetGemTier`. -/
def GetGemTier (gem : TESSoulGem) : SpellTier :=
  if gem.canHoldNPCSoul then .Master
  else
    match gem.maximumCapacity with
    | .kGrand => .Master
    | .kGreater => .Expert
    | .kCommon => .Adept
    | .kLesser => .Apprentice
    | .kPetty => .Novice
    | .kNone => .Novice

/-- The conversion `static_cast<std::int32_t>(count)` of a `std::uint32_t`. -/
def toInt32 (n : Nat) : Int :=
  if n % 4294967296 < 2147483648 then (n % 4294967296 : Nat) else (n % 4294967296 : Nat) - 4294967296

/-- `SpellGemManager::GrantFragmentsToPlayer`. -/
def GrantFragmentsToPlayer (eng : Engine) (w : World) (tier : SpellTier) : World :=
  let count := w.config.GetFragmentCount tier
  if count = 0 then w
  else if !eng.lookupMisc w.config.GetFragmentFormId then w
  else
    match w.player with
    | none => w
    | some _ => w.emit (.addObjectToContainer w.config.GetFragmentFormId (toInt32 count))

/-- The channel `CastStoredSpell` picks: right hand, else left hand, else instant. -/
def selectCaster (p : PlayerCharacter) : Option (CastingSource × MagicCaster) :=
  match p.GetMagicCaster .kRightHand with
  | some c => some (.kRightHand, c)
  | none =>
    match p.GetMagicCaster .kLeftHand with
    | some c => some (.kLeftHand, c)
    | none =>
      match p.GetMagicCaster .kInstant with
      | some c => some (.kInstant, c)
      | none => none

/-- The loop of `CastStoredSpell` over `spell.effects`, for one school test:
some non-null effect with a base effect whose school satisfies `test`. -/
def hasEffectOfSchool (test : ActorValue → Bool) (effects : List (Option Effect)) : Bool :=
  effects.any fun e =>
    match e with
    | none => false
    | some eff =>
      match eff.baseEffect with
      | none => false
      | some base => test base.magickSkill

/-- The multiplier selection of `CastStoredSpell`: the pair
`(effectiveness, magnitudeOverride)` and whether the self-damage branch ran. -/
def castModifiers (c : Config) (spell : SpellItem)
    (isBlackSoulGem isReusableStar isAzurasStar : Bool) : ℚ × ℚ × Bool :=
  if isAzurasStar && c.AzurasStarBoost then (21 / 20, 21 / 20, false)
  else if !isBlackSoulGem && !isReusableStar && c.NormalGemPenalty then (9 / 10, 9 / 10, false)
  else if isBlackSoulGem && c.BlackSoulGemBoosts then
    let hasDestruction := hasEffectOfSchool (fun s => decide (s = .kDestruction)) spell.effects
    let hasDurationBoost :=
      hasEffectOfSchool (fun s => decide (s = .kConjuration) || decide (s = .kAlteration))
        spell.effects
    (if hasDurationBoost then 11 / 10 else 1, if hasDestruction then 11 / 10 else 0, true)
  else (1, 0, false)

/-- `SpellGemManager::CastStoredSpell`; `player` is the reference passed in. -/
def CastStoredSpell (w : World) (spell : SpellItem) (player : PlayerCharacter)
    (isBlackSoulGem isReusableStar isAzurasStar : Bool) : World :=
  match selectCaster player with
  | none => w
  | some (source, caster) =>
    let targetsPlayer := decide (spell.delivery = .kSelf)
    let (effectiveness, magnitudeOverride, blackBranch) :=
      castModifiers w.config spell isBlackSoulGem isReusableStar isAzurasStar
    let w :=
      if blackBranch && player.actorValueOwner then
        let maxHealth :=
          player.permanentHealth + player.healthPermanentModifier + player.healthTemporaryModifier
        w.emit (.restoreHealthDamage (-(maxHealth * (1 / 20))))
      else w
    let w :=
      if spell.castingType = .kConcentration then w.emit (.animation "MT_BreathExhaleShort")
      else w.emit (.animation "ShoutStart")
    let previousCost := caster.currentSpellCost
    let player := player.setSpellCost source 0
    let w := w.emit (.prepareSound spell.formID)
    let w :=
      w.emit (.castSpellImmediate spell.formID source targetsPlayer effectiveness magnitudeOverride)
    let w := w.emit (.playReleaseSound spell.formID)
    if spell.castingType = .kConcentration then
      let m :=
        { w.manager with
          focusCasterSource_ := some source
          focusPreviousCost_ := previousCost
          focusCostActive_ := true }
      if player.actorValueOwner then
        let m := { m with focusStartMagicka_ := player.magicka }
        ({ w with manager := m, player := some player }).emit (.startMagickaPoller m.focusCastId_)
      else { w with manager := m, player := some player }
    else { w with player := some (player.setSpellCost source previousCost) }

/-- `SpellGemManager::StopFocusSpellCast`. -/
def StopFocusSpellCast (w : World) (index : Nat) : World :=
  if w.manager.activeFocusSlot_ ≠ some index then w
  else
    let m :=
      { w.manager with
        activeFocusSlot_ := none
        focusCastId_ := (w.manager.focusCastId_ + 1) % 2 ^ 64 }
    let w := { w with manager := m }
    let w :=
      match w.player with
      | none => w
      | some pc =>
        let w := if (pc.GetMagicCaster .kRightHand).isSome then w.emit (.interruptCast .kRightHand) else w
        if (pc.GetMagicCaster .kLeftHand).isSome then w.emit (.interruptCast .kLeftHand) else w
    let w :=
      match w.manager.focusCostActive_, w.manager.focusCasterSource_, w.player with
      | true, some source, some pc =>
        { w with player := some (pc.setSpellCost source w.manager.focusPreviousCost_) }
      | _, _, _ => w
    { w with
      manager :=
        { w.manager with
          focusCostActive_ := false
          focusCasterSource_ := none
          focusStartMagicka_ := 0 } }

/-- `SpellGemManager::ConsumeStoredGemUse`. -/
def ConsumeStoredGemUse (eng : Engine) (w : World) (baseGem : TESSoulGem) (key : GemKey)
    (data : StoredSpellData) : World :=
  if data.usesRemaining < 0 then
    { w with serialization := w.serialization.StoreSpell key data }
  else
    match w.player with
    | none => w
    | some _ =>
      match eng.lookupSpell data.spellId with
      | none => w
      | some _ =>
        let newUses := data.usesRemaining - 1
        if newUses ≤ 0 then
          let w := { w with serialization := w.serialization.RemoveStoredSpell key }
          let w := w.emit (.removeItem baseGem.formID 1)
          GrantFragmentsToPlayer eng w (GetGemTier baseGem)
        else
          { w with
            serialization :=
              w.serialization.StoreSpell key { data with usesRemaining := newUses } }

/-- The exit of `ActivateStoredGemSlot` that a call takes. -/
inductive ActivateExit where
  | noSlot
  | entryMissing
  | spellMissing
  | onCooldown
  | noPlayer
  | activated
deriving DecidableEq, Repr

/-- The cooldown of a record in game-time units, as `ActivateStoredGemSlot`
computes it in `float` arithmetic:
`(cooldownSeconds / (60.0f * 60.0f * 24.0f)) * timescale`, the quotient and
the product each rounded to single precision (the constant divisor is 86400
exactly). -/
def cooldownDays (eng : Engine) (c : Config) (stored : StoredSpellData) : Float32 :=
  let cooldownSeconds : Float32 :=
    if stored.isReusableStar then c.GetStarCooldown
    else .finite (c.GetTierSettings stored.tier).cooldown
  let timescale : Float32 := match eng.calendar with
    | some cal => .finite cal.timescale
    | none => .finite 1
  Float32.mul (Float32.div cooldownSeconds (.finite (60 * 60 * 24))) timescale

/-- The value `now` of `ActivateStoredGemSlot`. -/
def gameTimeNow (eng : Engine) : ℚ :=
  match eng.calendar with
  | some cal => cal.currentGameTime
  | none => 0

/-- Lines 148 to 174 of `ActivateStoredGemSlot`: for a channeled spell register
the slot as the focus session under an incremented token, cast, and then end
the channel at once (when `duration <= 0.0f`) or schedule its expiry. -/
def activateCast (w : World) (index : Nat) (key : GemKey) (stored : StoredSpellData)
    (spell : SpellItem) (player : PlayerCharacter) : World :=
  let isConcentration := decide (spell.castingType = .kConcentration)
  let w :=
    if isConcentration then
      { w with
        manager :=
          { w.manager with
            activeFocusSlot_ := some index
            focusCastId_ := (w.manager.focusCastId_ + 1) % 2 ^ 64 } }
    else w
  let focusId := if isConcentration then w.manager.focusCastId_ else 0
  let isAzurasStar := IsAzurasStar key.baseId
  let w :=
    CastStoredSpell w spell player stored.isBlackSoulGem stored.isReusableStar isAzurasStar
  if isConcentration then
    let duration := w.config.GetFocusSpellDuration
    if Float32.le duration (.finite 0) then StopFocusSpellCast w index
    else w.emit (.scheduleFocusExpiry focusId index duration)
  else w

/-- `SpellGemManager::ActivateStoredGemSlot`, with the exit taken. -/
def ActivateStoredGemSlot (eng : Engine) (w : World) (index : Nat) : World × ActivateExit :=
  let w := RefreshStoredGemSlots w
  match w.manager.storedGemSlots_[index]? with
  | none => (w, .noSlot)
  | some key =>
    match w.serialization.GetStoredSpell key with
    | none => (RefreshStoredGemSlots w, .entryMissing)
    | some stored =>
      match eng.lookupSpell stored.spellId with
      | none => (w, .spellMissing)
      | some spell =>
        let cooldown := cooldownDays eng w.config stored
        let now := gameTimeNow eng
        if stored.lastUsedGameTime > 0 ∧
            Float32.lt (Float32.sub (.finite now) (.finite stored.lastUsedGameTime)) cooldown then
          (LogMessage w "Stored spell gem is on cooldown.", .onCooldown)
        else
          match w.player with
          | none => (w, .noPlayer)
          | some player =>
            let w := activateCast w index key stored spell player
            let updated := { stored with lastUsedGameTime := now }
            match eng.lookupSoulGem key.baseId with
            | none => (w, .activated)
            | some baseGem =>
              (RefreshStoredGemSlots (ConsumeStoredGemUse eng w baseGem key updated), .activated)

/-- The reward grants in a log: form and count of every `AddObjectToContainer` call. -/
def rewardGrants (events : List GameEvent) : List (Nat × Int) :=
  events.filterMap fun e =>
    match e with
    | .addObjectToContainer formId count => some (formId, count)
    | _ => none

/-- The casts in a log: the spell of every `CastSpellImmediate` call. -/
def castsMade (events : List GameEvent) : List Nat :=
  events.filterMap fun e =>
    match e with
    | .castSpellImmediate spellId _ _ _ _ => some spellId
    | _ => none

/-- The item removals in a log: form and count of every `RemoveItem` call. -/
def itemsRemoved (events : List GameEvent) : List (Nat × Int) :=
  events.filterMap fun e =>
    match e with
    | .removeItem formId count => some (formId, count)
    | _ => none

/-! ## A small game state for evaluating the operations -/

/-- An aimed fire-and-forget Destruction spell of minimum skill 50. -/
def sampleSpell : SpellItem :=
  { formID := 0x1C789, castingType := .kFireAndForget, delivery := .kAimed,
    effects := [some { baseEffect := some { magickSkill := .kDestruction, minimumSkillLevel := 50 } }],
    costliestEffect :=
      some { baseEffect := some { magickSkill := .kDestruction, minimumSkillLevel := 50 } } }

/-- A gem form of the given capacity that cannot hold an NPC soul. -/
def sampleGem (capacity : SOUL_LEVEL) : TESSoulGem :=
  { formID := 0xFF000800, canHoldNPCSoul := false, maximumCapacity := capacity }

/-- An engine that knows `sampleSpell`, one gem form and the default fragment
item, at timescale 20 and game time `now`. -/
def sampleEngine (gem : TESSoulGem) (now : ℚ) : Engine :=
  { lookupSpell := fun id => if id = sampleSpell.formID then some sampleSpell else none
    lookupSoulGem := fun id => if id = gem.formID then some gem else none
    lookupMisc := fun id => id == 0x00067181
    calendar := some { timescale := 20, currentGameTime := now } }

/-- The engine of `sampleEngine` at a chosen timescale. -/
def sampleEngineAt (gem : TESSoulGem) (timescale now : ℚ) : Engine :=
  { lookupSpell := fun id => if id = sampleSpell.formID then some sampleSpell else none
    lookupSoulGem := fun id => if id = gem.formID then some gem else none
    lookupMisc := fun id => id == 0x00067181
    calendar := some { timescale := timescale, currentGameTime := now } }

/-- A player with all three casting channels. -/
def samplePlayer : PlayerCharacter :=
  { formID := 0x14, rightHand := some { currentSpellCost := 30 },
    leftHand := some { currentSpellCost := 0 }, instant := some { currentSpellCost := 0 },
    actorValueOwner := true, permanentHealth := 100, healthPermanentModifier := 0,
    healthTemporaryModifier := 0, magicka := 100 }

/-- A world whose store holds `record` under the key `(0xFF000800, 1)`. -/
def sampleWorld (c : Config) (record : StoredSpellData) : World :=
  { serialization := { storedSpells_ := [({ baseId := 0xFF000800, uniqueId := 1 }, record)],
                       nextUniqueId_ := 2 }
    config := c
    manager := SpellGemManager.fresh
    player := some samplePlayer
    events := [] }

/-- A record holding `sampleSpell` in an ordinary gem. -/
def sampleRecord (tier : SpellTier) (uses : Int) (lastUsed : ℚ) : StoredSpellData :=
  { spellId := 0x1C789, tier := tier, usesRemaining := uses, lastUsedGameTime := lastUsed,
    isReusableStar := false, isBlackSoulGem := false }

/-! ## Sequences of store operations -/

/-- A store operation other than `Load` and `Revert`. -/
inductive StoreOp where
  | allocate
  | store (key : GemKey) (data : StoredSpellData)
  | remove (key : GemKey)
deriving DecidableEq, Repr

/-- Runs the operations in order on one store; returns the ids that the
`AllocateUniqueId` calls returned, in call order, and the final store. -/
def runStoreOps : List StoreOp → Serialization → List Nat × Serialization
  | [], s => ([], s)
  | .allocate :: ops, s =>
    let r := runStoreOps ops s.AllocateUniqueId.2
    (s.AllocateUniqueId.1 :: r.1, r.2)
  | .store key data :: ops, s => runStoreOps ops (s.StoreSpell key data)
  | .remove key :: ops, s => runStoreOps ops (s.RemoveStoredSpell key)

/-- Number of `AllocateUniqueId` calls in a sequence of operations. -/
def countAllocations : List StoreOp → Nat
  | [] => 0
  | .allocate :: ops => countAllocations ops + 1
  | .store _ _ :: ops => countAllocations ops
  | .remove _ :: ops => countAllocations ops

/-! ## The slot order, in the words of the specification -/

/-- Keys ascending by `baseId` and then by `uniqueId`. -/
def keyAscending (a b : GemKey) : Prop :=
  a.baseId < b.baseId ∨ (a.baseId = b.baseId ∧ a.uniqueId ≤ b.uniqueId)

/-! ## Record streams of the three format versions -/

/-- The fields of one entry in a spell record of the given version, in the
order `Load` reads them: the six common fields, the reusable-star flag from
version 2 on, the black-soul flag from version 3 on. -/
def entryFields (version : Nat) (e : GemKey × StoredSpellData) : List Field :=
  [Field.u32 e.1.baseId, Field.u16 e.1.uniqueId, Field.u32 e.2.spellId, Field.tier e.2.tier,
   Field.i32 e.2.usesRemaining, Field.f32 e.2.lastUsedGameTime] ++
    (if version ≥ 2 then [Field.bool e.2.isReusableStar] else []) ++
    (if version ≥ 3 then [Field.bool e.2.isBlackSoulGem] else [])

/-- A spell record of the given version holding the given entries: the count
followed by the fields of each entry. -/
def spellsRecord (version : Nat) (entries : List (GemKey × StoredSpellData)) : Record :=
  { type := kRecordSpells, version := version,
    data := Field.u32 entries.length :: entries.flatMap (entryFields version) }

/-- What the specification says an entry of a version-`version` stream becomes
on load: nothing when its spell or its gem identity fails to resolve; otherwise
the record under the resolved gem identity, carrying the resolved spell
identity, with a flag the version lacks set to false. -/
def resolveEntry (version : Nat) (resolve : Nat → Option Nat) (e : GemKey × StoredSpellData) :
    Option (GemKey × StoredSpellData) :=
  match resolve e.2.spellId, resolve e.1.baseId with
  | some spell, some gem =>
    some ({ baseId := gem, uniqueId := e.1.uniqueId },
      { e.2 with
        spellId := spell
        isReusableStar := decide (version ≥ 2) && e.2.isReusableStar
        isBlackSoulGem := decide (version ≥ 3) && e.2.isBlackSoulGem })
  | _, _ => none

/-- Emplaces the entries in order (a later entry with a key already present is dropped). -/
def emplaceAll (m : StoredSpells) (entries : List (GemKey × StoredSpellData)) : StoredSpells :=
  entries.foldl (fun acc e => mapEmplace acc e.1 e.2) m

/-- Three entries of a stream; the spell of the second is `0x99`. -/
def sampleEntries : List (GemKey × StoredSpellData) :=
  [({ baseId := 0xFF000800, uniqueId := 1 }, sampleRecord .Adept 6 0),
   ({ baseId := 0xFF000801, uniqueId := 2 },
     { spellId := 0x99, tier := .Novice, usesRemaining := 3, lastUsedGameTime := 0,
       isReusableStar := false, isBlackSoulGem := true }),
   ({ baseId := 0x00063B27, uniqueId := 3 },
     { spellId := 0x1C789, tier := .Adept, usesRemaining := -1, lastUsedGameTime := 5,
       isReusableStar := true, isBlackSoulGem := false })]

/-- A resolver that fails on `0x99` and renumbers the load-order byte `0xFF` to `0xFE`. -/
def sampleResolver (id : Nat) : Option Nat :=
  if id = 0x99 then none
  else if id / 0x1000000 = 0xFF then some (0xFE000000 + id % 0x1000000)
  else some id

/-! ## Classification (`GetSpellTier`, `TryGetSpellTier`) and capture (`TryStoreSelectedSpell`) -/

/-- Numeric value of a soul level, as in the `enum` `RE::SOUL_LEVEL`. -/
def SOUL_LEVEL.toNat : SOUL_LEVEL → Nat
  | .kNone => 0
  | .kPetty => 1
  | .kLesser => 2
  | .kCommon => 3
  | .kGreater => 4
  | .kGrand => 5

/-- The base effect of the spell's costliest effect, as both tier functions
compute it: `effect ? effect->baseEffect : nullptr`. -/
def costliestBaseEffect (spell : SpellItem) : Option EffectSetting :=
  match spell.costliestEffect with
  | some effect => effect.baseEffect
  | none => none

/-- `SpellGemManager::GetSpellTier`. -/
def GetSpellTier (spell : SpellItem) : SpellTier :=
  let minSkill : Int :=
    match costliestBaseEffect spell with
    | some baseEffect => baseEffect.minimumSkillLevel
    | none => 0
  if minSkill ≥ 100 then .Master
  else if minSkill ≥ 75 then .Expert
  else if minSkill ≥ 50 then .Adept
  else if minSkill ≥ 25 then .Apprentice
  else .Novice

/-- `SpellGemManager::TryGetSpellTier`: `none` is the return value `false`,
which leaves the out-parameter untouched. -/
def TryGetSpellTier (spell : SpellItem) : Option SpellTier :=
  match costliestBaseEffect spell with
  | none => none
  | some _ => some (GetSpellTier spell)

/-- `Config::RequireFilledSoulGem`. -/
def Config.RequireFilledSoulGem (c : Config) : Bool := c.requireFilledSoulGem_

/-- `Config::AllowAnyGemTier`. -/
def Config.AllowAnyGemTier (c : Config) : Bool := c.allowAnyGemTier_

/-- `Config::IsFiniteUse`. -/
def Config.IsFiniteUse (c : Config) : Bool := c.finiteUse_

/-- `Config::GetTierName`, the table `kTierNames`. -/
def Config.GetTierName : SpellTier → String
  | .Novice => "Novice"
  | .Apprentice => "Apprentice"
  | .Adept => "Adept"
  | .Expert => "Expert"
  | .Master => "Master"

/-- The entry `RE::ExtraUniqueID` of an extra-data list. -/
structure ExtraUniqueID where
  baseID : Nat
  uniqueID : Nat
deriving DecidableEq, Repr

/-- An `RE::ExtraDataList`, as far as capture uses it: `GetByType<ExtraUniqueID>()`. -/
structure ExtraDataList where
  uniqueData : Option ExtraUniqueID
deriving DecidableEq, Repr

/-- The non-null result of `GetSelectedSoulGem`: the selected inventory entry
(`soulGem` is `GetObject()` cast to a soul gem, `none` when that is null;
`soulLevel` is `GetSoulLevel()`) and its first extra-data list, if any. -/
structure SelectedGem where
  soulGem : Option TESSoulGem
  soulLevel : SOUL_LEVEL
  extraList : Option ExtraDataList
deriving DecidableEq, Repr

/-- What capture reads from the engine during one call: the selection in the
inventory menu (`none` when `GetSelectedSoulGem` yields a null entry), the
spell equipped in the player's right hand, the name of a form, the result of
`CreateDuplicateForm` cast to a soul gem, and the data handler (possibly null)
with the result of `AddFormToDataHandler`. -/
structure CaptureEngine where
  selected : Option SelectedGem
  equippedRightSpell : Option SpellItem
  getName : Nat → String
  createDuplicateForm : TESSoulGem → Option TESSoulGem
  dataHandler : Option (TESSoulGem → Bool)

/-- `SpellGemManager::GetRightHandSpell`. -/
def GetRightHandSpell (ceng : CaptureEngine) (w : World) : Option SpellItem :=
  match w.player with
  | none => none
  | some _ => ceng.equippedRightSpell

/-- `SpellGemManager::BuildDisplayName`; an empty name stands for a null or empty `GetName()`. -/
def BuildDisplayName (ceng : CaptureEngine) (spell : SpellItem) (tier : SpellTier) : String :=
  let name := if ceng.getName spell.formID ≠ "" then ceng.getName spell.formID else "Unknown Spell"
  name ++ " (" ++ Config.GetTierName tier ++ ")"

/-- The lambda `requiredSoul` of `TryStoreSelectedSpell`. -/
def requiredSoul : SpellTier → SOUL_LEVEL
  | .Novice => .kPetty
  | .Apprentice => .kLesser
  | .Adept => .kCommon
  | .Expert => .kGreater
  | .Master => .kGrand

/-- The lambda `requiredName` of `TryStoreSelectedSpell`. -/
def requiredName : SOUL_LEVEL → String
  | .kPetty => "Petty"
  | .kLesser => "Lesser"
  | .kCommon => "Common"
  | .kGreater => "Greater"
  | .kGrand => "Grand"
  | .kNone => "Petty"

/-- The exit of `TryStoreSelectedSpell` that a call takes. -/
inductive StoreExit where
  | noGemSelected
  | notSoulGem
  | mustBeFilled
  | noSpell
  | noSpellTier
  | soulTooWeak
  | tierMismatch
  | formCreationFailed
  | alreadyContainsSpell
  | noPlayer
  | stored
deriving DecidableEq, Repr

/-- The local `isReusableStar` of `TryStoreSelectedSpell`:
`isStarBase || (hasExisting && existingData.isReusableStar)`. -/
def captureIsReusableStar (w : World) (soulGem : TESSoulGem) : Bool :=
  IsReusableStar soulGem.formID ||
    (match w.serialization.TryGetStoredSpellByBaseId soulGem.formID with
     | some existing => existing.2.isReusableStar
     | none => false)

/-- The local `isBlackSoulGem` of `TryStoreSelectedSpell`:
`isBlackGemBase || (hasExisting && existingData.isBlackSoulGem)`. -/
def captureIsBlackSoulGem (w : World) (soulGem : TESSoulGem) : Bool :=
  IsBlackSoulGem soulGem ||
    (match w.serialization.TryGetStoredSpellByBaseId soulGem.formID with
     | some existing => existing.2.isBlackSoulGem
     | none => false)

/-- The condition `isReusableStar && hasExisting && existingData.isReusableStar`
under which capture re-records into the existing key. -/
def captureReusesKey (w : World) (soulGem : TESSoulGem) : Bool :=
  captureIsReusableStar w soulGem &&
    (match w.serialization.TryGetStoredSpellByBaseId soulGem.formID with
     | some existing => existing.2.isReusableStar
     | none => false)

/-- The local `allowAnyGemTier` of `TryStoreSelectedSpell`:
`requireFilled && Config::AllowAnyGemTier()`. -/
def captureAllowAnyGemTier (c : Config) : Bool :=
  c.RequireFilledSoulGem && c.AllowAnyGemTier

/-- The local `requireSoul` of `TryStoreSelectedSpell`:
`!isReusableStar && (requireFilled || allowAnyGemTier)`. -/
def captureRequireSoul (w : World) (soulGem : TESSoulGem) : Bool :=
  !captureIsReusableStar w soulGem &&
    (w.config.RequireFilledSoulGem || captureAllowAnyGemTier w.config)

/-- The record `data` that `TryStoreSelectedSpell` builds (lines 349 to 355). -/
def captureData (w : World) (soulGem : TESSoulGem) (spell : SpellItem) (spellTier : SpellTier) :
    StoredSpellData :=
  { spellId := spell.formID
    tier := spellTier
    usesRemaining :=
      if captureIsReusableStar w soulGem then -1
      else if w.config.IsFiniteUse then (w.config.GetTierSettings spellTier).uses else -1
    lastUsedGameTime := 0
    isReusableStar := captureIsReusableStar w soulGem
    isBlackSoulGem := captureIsBlackSoulGem w soulGem }

/-- `SpellGemManager::GetOrCreateStoredGemForm`: the cached or newly duplicated
form (`none` is a null result), with the cache and the log updated. -/
def GetOrCreateStoredGemForm (ceng : CaptureEngine) (w : World) (baseGem : TESSoulGem)
    (spell : SpellItem) (tier : SpellTier) (usesRemaining : Int) : Option TESSoulGem × World :=
  let key : StoredGemFormKey :=
    { baseId := baseGem.formID, spellId := spell.formID, tier := tier,
      usesRemaining := usesRemaining }
  match w.manager.storedGemForms_.find? (fun e => decide (e.1 = key)) with
  | some cached => (some cached.2, w)
  | none =>
    match ceng.createDuplicateForm baseGem with
    | none => (none, w)
    | some storedGem =>
      let w := w.emit (.setFullName storedGem.formID (BuildDisplayName ceng spell tier))
      let w :=
        match ceng.dataHandler with
        | none => w
        | some addForm => w.emit (.addFormToDataHandler storedGem.formID (addForm storedGem))
      (some storedGem,
        { w with
          manager :=
            { w.manager with
              storedGemForms_ := w.manager.storedGemForms_ ++ [(key, storedGem)] } })

/-- `SpellGemManager::GetOrCreateUniqueId`: the id, the extra-data list as it
is left, and the store (whose counter advances when an id is allocated). -/
def GetOrCreateUniqueId (s : Serialization) (gem : TESSoulGem) (extraList : ExtraDataList) :
    Nat × ExtraDataList × Serialization :=
  match extraList.uniqueData with
  | some uniqueData =>
    (uniqueData.uniqueID,
      { uniqueData := some { baseID := gem.formID, uniqueID := uniqueData.uniqueID } }, s)
  | none =>
    let uniqueId := s.AllocateUniqueId.1
    (uniqueId, { uniqueData := some { baseID := gem.formID, uniqueID := uniqueId } },
      s.AllocateUniqueId.2)

/-- Lines 346 to 401 of `TryStoreSelectedSpell`: everything after the six
checks, for the gem, spell and spell tier that passed them. -/
def storeCaptured (ceng : CaptureEngine) (w : World) (selected : SelectedGem)
    (soulGem : TESSoulGem) (spell : SpellItem) (spellTier : SpellTier) : World × StoreExit :=
  let data := captureData w soulGem spell spellTier
  let reuse := captureReusesKey w soulGem
  let existing := w.serialization.TryGetStoredSpellByBaseId soulGem.formID
  let formResult :=
    if reuse then (some soulGem, w)
    else GetOrCreateStoredGemForm ceng w soulGem spell spellTier data.usesRemaining
  match formResult with
  | (none, w) => (LogMessage w "Failed to create stored spell gem form.", .formCreationFailed)
  | (some storedGemForm, w) =>
    let keyResult : GemKey × World :=
      match reuse, existing with
      | true, some e => (e.1, w)
      | _, _ =>
        match selected.extraList with
        | some extraList =>
          let r := GetOrCreateUniqueId w.serialization storedGemForm extraList
          ({ baseId := storedGemForm.formID, uniqueId := r.1 },
            { w with serialization := r.2.2 })
        | none =>
          ({ baseId := storedGemForm.formID, uniqueId := w.serialization.AllocateUniqueId.1 },
            { w with serialization := w.serialization.AllocateUniqueId.2 })
    let key := keyResult.1
    let w := keyResult.2
    if !reuse && w.serialization.HasStoredSpell key then
      (LogMessage w "Soul gem already contains a spell.", .alreadyContainsSpell)
    else
      match w.player with
      | none => (LogMessage w "Player reference unavailable.", .noPlayer)
      | some _ =>
        let w :=
          if !reuse then
            (w.emit (.removeItem soulGem.formID 1)).emit
              (.addObjectToContainer storedGemForm.formID 1)
          else w
        let w := { w with serialization := w.serialization.StoreSpell key data }
        let w := RefreshStoredGemSlots w
        (LogMessage w "Stored spell in soul gem.", .stored)

/-- `SpellGemManager::TryStoreSelectedSpell`, with the exit taken. -/
def TryStoreSelectedSpell (ceng : CaptureEngine) (w : World) : World × StoreExit :=
  match ceng.selected with
  | none => (LogMessage w "No soul gem selected in inventory.", .noGemSelected)
  | some selected =>
    match selected.soulGem with
    | none => (LogMessage w "Selected item is not a soul gem.", .notSoulGem)
    | some soulGem =>
      let isReusableStar := captureIsReusableStar w soulGem
      let soulLevel := selected.soulLevel
      let allowAnyGemTier := captureAllowAnyGemTier w.config
      let requireSoul := captureRequireSoul w soulGem
      if requireSoul && soulLevel == .kNone then
        (LogMessage w "Soul gem must be filled to store a spell.", .mustBeFilled)
      else
        match GetRightHandSpell ceng w with
        | none => (LogMessage w "No right-hand spell equipped.", .noSpell)
        | some spell =>
          match TryGetSpellTier spell with
          | none =>
            (LogMessage w "Unable to determine spell tier for the selected spell.", .noSpellTier)
          | some spellTier =>
            if requireSoul && soulLevel != .kNone &&
                decide (soulLevel.toNat < (requiredSoul spellTier).toNat) then
              (LogMessage w
                ("Soul gem must contain at least a " ++ requiredName (requiredSoul spellTier) ++
                  " soul."), .soulTooWeak)
            else
              let gemTier := GetGemTier soulGem
              if !isReusableStar && !allowAnyGemTier && gemTier != spellTier then
                (LogMessage w "Soul gem tier must match the spell tier.", .tierMismatch)
              else storeCaptured ceng w selected soulGem spell spellTier

/-- `Config::SetRequireFilledSoulGem`. -/
def Config.SetRequireFilledSoulGem (c : Config) (value : Bool) : Config :=
  { c with requireFilledSoulGem_ := value }

/-- `Config::SetFiniteUse`. -/
def Config.SetFiniteUse (c : Config) (value : Bool) : Config :=
  { c with finiteUse_ := value }

/-- A capture in which `gem`, holding a soul of level `soulLevel` and carrying
no extra data, is selected and `sampleSpell` is equipped; duplication gives the
form `0xFF000900` and registration succeeds. -/
def sampleCapture (gem : TESSoulGem) (soulLevel : SOUL_LEVEL) : CaptureEngine :=
  { selected := some { soulGem := some gem, soulLevel := soulLevel, extraList := none }
    equippedRightSpell := some sampleSpell
    getName := fun _ => "Firebolt"
    createDuplicateForm := fun g => some { g with formID := 0xFF000900 }
    dataHandler := some fun _ => true }

/-- A world with an empty store and the sample player. -/
def emptyWorld (c : Config) : World :=
  { serialization := Serialization.fresh
    config := c
    manager := SpellGemManager.fresh
    player := some samplePlayer
    events := [] }

/-- The form under which a first capture into a reusable star was stored. -/
def sampleStarForm : TESSoulGem :=
  { formID := 0xFF000900, canHoldNPCSoul := false, maximumCapacity := .kGrand }

/-- A world whose store holds one reusable-star record under `(0xFF000900, 1)`. -/
def sampleStarWorld : World :=
  { serialization :=
      { storedSpells_ :=
          [({ baseId := 0xFF000900, uniqueId := 1 },
            { spellId := 0x2B96C, tier := .Novice, usesRemaining := -1, lastUsedGameTime := 0,
              isReusableStar := true, isBlackSoulGem := false })],
        nextUniqueId_ := 2 }
    config := Config.defaults
    manager := SpellGemManager.fresh
    player := some samplePlayer
    events := [] }

/-! ## `Config::Load` and the setters -/

/-- The standard conversions `std::stof`, `std::stoi` and `std::stoul` applied
to the text of a value (their exceptions are outside the model, and `stof`
gives the finite value the text denotes). -/
structure Conversions where
  stof : String → ℚ
  stoi : String → Int
  stoul : String → Nat

/-- A line of the INI file after `Trim` and the splitting done by `Load`:
a line that is skipped (empty, comment, or without `=`), a section header
`[name]`, or `key=value`. -/
inductive IniLine where
  | skipped
  | header (name : String)
  | entry (key : String) (value : String)
deriving DecidableEq, Repr

/-- The helper `TryParseBool` (`none` is the return value `false`). -/
def TryParseBool (value : String) : Option Bool :=
  let lowered := String.mk (value.data.map Char.toLower)
  if lowered = "true" ∨ lowered = "1" ∨ lowered = "yes" then some true
  else if lowered = "false" ∨ lowered = "0" ∨ lowered = "no" then some false
  else none

namespace Config

/-- `Config::SetFocusSpellDuration`: `std::clamp(value, 0.0f, 3.0f)`. -/
def SetFocusSpellDuration (c : Config) (value : Float32) : Config :=
  { c with focusSpellDuration_ := Float32.clamp value (.finite 0) (.finite 3) }

/-- `Config::SetStarCooldown`: `value < 0.0f ? 0.0f : value`. -/
def SetStarCooldown (c : Config) (value : Float32) : Config :=
  { c with starCooldown_ := if Float32.lt value (.finite 0) then .finite 0 else value }

/-- `Config::SetStoreKey`. -/
def SetStoreKey (c : Config) (key : Nat) : Config := { c with storeKey_ := key }

/-- `Config::SetActivationKey`. -/
def SetActivationKey (c : Config) (index : Nat) (key : Nat) : Config :=
  if index ≥ c.activationKeys_.length then c
  else { c with activationKeys_ := c.activationKeys_.set index key }

/-- `Config::SetShowUsesRemaining`. -/
def SetShowUsesRemaining (c : Config) (value : Bool) : Config :=
  { c with showUsesRemaining_ := value }

/-- `Config::SetBlackSoulGemBoosts`. -/
def SetBlackSoulGemBoosts (c : Config) (value : Bool) : Config :=
  { c with blackSoulGemBoosts_ := value }

/-- `Config::SetNormalGemPenalty`. -/
def SetNormalGemPenalty (c : Config) (value : Bool) : Config :=
  { c with normalGemPenalty_ := value }

/-- `Config::SetAzurasStarBoost`. -/
def SetAzurasStarBoost (c : Config) (value : Bool) : Config :=
  { c with azurasStarBoost_ := value }

/-- `Config::SetFragmentFormId`. -/
def SetFragmentFormId (c : Config) (value : Nat) : Config := { c with fragmentFormId_ := value }

/-- A write `GetTierSettings(tier).cooldown = value` through the mutable accessor. -/
def writeTierCooldown (c : Config) (tier : SpellTier) (value : ℚ) : Config :=
  { c with
    tierSettings_ := fun t =>
      if t = tier then { c.tierSettings_ t with cooldown := value } else c.tierSettings_ t }

/-- A write `GetTierSettings(tier).uses = value` through the mutable accessor. -/
def writeTierUses (c : Config) (tier : SpellTier) (value : Int) : Config :=
  { c with
    tierSettings_ := fun t =>
      if t = tier then { c.tierSettings_ t with uses := value } else c.tierSettings_ t }

/-- The body of the loop of `Load` over the tiers, for the tier `tier`. -/
def loadTierEntry (cv : Conversions) (currentSection key value : String) (c : Config)
    (tier : SpellTier) : Config :=
  if currentSection ≠ GetTierName tier then c
  else if key = "Cooldown" then c.writeTierCooldown tier (cv.stof value)
  else if key = "Uses" then c.writeTierUses tier (cv.stoi value)
  else if key = "FragmentCount" then c.SetFragmentCount tier (cv.stoul value % 4294967296)
  else c

/-- The part of `Load` that handles a `TryParseBool` setting: the setter is
applied only when the value parses. -/
def loadBool (value : String) (c : Config) (set : Config → Bool → Config) : Config :=
  match TryParseBool value with
  | some parsed => set c parsed
  | none => c

/-- The handling of one `key=value` line in section `currentSection` by `Load`. -/
def loadEntry (cv : Conversions) (currentSection key value : String) (c : Config) : Config :=
  if currentSection = "Settings" ∧ key = "StarCooldown" then
    let parsed : Float32 := .finite (cv.stof value)
    { c with starCooldown_ := if Float32.lt parsed (.finite 0) then .finite 0 else parsed }
  else if currentSection = "Input" ∧ key = "StoreKey" then
    { c with storeKey_ := cv.stoul value % 4294967296 }
  else if currentSection = "Activation" ∧ key = "MaxStoredGems" then
    c.SetMaxStoredGems (cv.stoul value % 256)
  else if currentSection = "Activation" ∧ "Slot".data.isPrefixOf key.data ∧
      "Key".data.isSuffixOf key.data then
    let indexText := String.mk ((key.data.drop 4).take (key.data.length - 7))
    let index := cv.stoul indexText
    if index > 0 ∧ index ≤ c.activationKeys_.length then
      { c with activationKeys_ := c.activationKeys_.set (index - 1) (cv.stoul value % 4294967296) }
    else c
  else if currentSection = "Settings" ∧ key = "FiniteUse" then
    loadBool value c SetFiniteUse
  else if currentSection = "Settings" ∧ key = "RequireFilledSoulGem" then
    loadBool value c SetRequireFilledSoulGem
  else if currentSection = "Settings" ∧ key = "AllowAnyGemTier" then
    loadBool value c SetAllowAnyGemTier
  else if currentSection = "Settings" ∧ key = "BlackSoulGemBoosts" then
    loadBool value c SetBlackSoulGemBoosts
  else if currentSection = "Settings" ∧ key = "NormalGemPenalty" then
    loadBool value c SetNormalGemPenalty
  else if currentSection = "Settings" ∧ key = "AzurasStarBoost" then
    loadBool value c SetAzurasStarBoost
  else if currentSection = "Settings" ∧ key = "ShowUsesRemaining" then
    loadBool value c SetShowUsesRemaining
  else
    [SpellTier.Novice, .Apprentice, .Adept, .Expert, .Master].foldl
      (loadTierEntry cv currentSection key value) c

/-- The body of the `while (std::getline(file, line))` loop of `Load`, on the
configuration and the current section. -/
def loadLine (cv : Conversions) (st : Config × String) : IniLine → Config × String
  | .skipped => st
  | .header name => (st.1, name)
  | .entry key value => (loadEntry cv st.2 key value st.1, st.2)

/-- `Config::Load`: `none` is a file that cannot be opened (the defaults are
kept and written out); the rewriting of the file by `Save` does not change the
configuration. -/
def Load (cv : Conversions) (c : Config) : Option (List IniLine) → Config
  | none => c
  | some lines => (lines.foldl (loadLine cv) (c, "")).1

end Config

/-- A mutation of the configuration: `Load` or one of the writers. -/
inductive ConfigOp where
  | load (cv : Conversions) (file : Option (List IniLine))
  | setStoreKey (key : Nat)
  | setActivationKey (index : Nat) (key : Nat)
  | setMaxStoredGems (value : Nat)
  | setFiniteUse (value : Bool)
  | setShowUsesRemaining (value : Bool)
  | setRequireFilledSoulGem (value : Bool)
  | setAllowAnyGemTier (value : Bool)
  | setBlackSoulGemBoosts (value : Bool)
  | setNormalGemPenalty (value : Bool)
  | setAzurasStarBoost (value : Bool)
  | setFocusSpellDuration (value : Float32)
  | setStarCooldown (value : Float32)
  | setFragmentFormId (value : Nat)
  | setFragmentCount (tier : SpellTier) (value : Nat)
  | writeTierCooldown (tier : SpellTier) (value : ℚ)
  | writeTierUses (tier : SpellTier) (value : Int)

/-- Applies a mutation; the `std::uint8_t` parameter of `SetMaxStoredGems` is reduced modulo 256. -/
def ConfigOp.apply (c : Config) : ConfigOp → Config
  | .load cv file => c.Load cv file
  | .setStoreKey key => c.SetStoreKey key
  | .setActivationKey index key => c.SetActivationKey index key
  | .setMaxStoredGems value => c.SetMaxStoredGems (value % 256)
  | .setFiniteUse value => c.SetFiniteUse value
  | .setShowUsesRemaining value => c.SetShowUsesRemaining value
  | .setRequireFilledSoulGem value => c.SetRequireFilledSoulGem value
  | .setAllowAnyGemTier value => c.SetAllowAnyGemTier value
  | .setBlackSoulGemBoosts value => c.SetBlackSoulGemBoosts value
  | .setNormalGemPenalty value => c.SetNormalGemPenalty value
  | .setAzurasStarBoost value => c.SetAzurasStarBoost value
  | .setFocusSpellDuration value => c.SetFocusSpellDuration value
  | .setStarCooldown value => c.SetStarCooldown value
  | .setFragmentFormId value => c.SetFragmentFormId value
  | .setFragmentCount tier value => c.SetFragmentCount tier value
  | .writeTierCooldown tier value => c.writeTierCooldown tier value
  | .writeTierUses tier value => c.writeTierUses tier value

/-- The configuration reached from the constructor's defaults by a sequence of mutations. -/
def reachedConfig (ops : List ConfigOp) : Config := ops.foldl ConfigOp.apply Config.defaults

/-- Conversions that read the few texts used in the examples. -/
def sampleConversions : Conversions :=
  { stof := fun s => if s = "-5" then -5 else if s = "12" then 12 else 0
    stoi := fun s => if s = "0" then 0 else if s = "6" then 6 else if s = "-5" then -5 else 0
    stoul := fun s => if s = "9" then 9 else if s = "4" then 4 else 0 }

/-- The bounds every configuration keeps: the maximum number of stored gems is
within 3..5 and `activationKeys_` has its five entries. -/
def Config.slotsBounded (c : Config) : Prop :=
  3 ≤ c.maxStoredGems_ ∧ c.maxStoredGems_ ≤ 5 ∧ c.activationKeys_.length = 5

/-- A world with a focus session running on slot 0: token 7, the right-hand
cost suppressed from 30. -/
def sampleFocusWorld : World :=
  { emptyWorld Config.defaults with manager := ⟨[], [], some 0, 7, some .kRightHand, 30, true, 100⟩ }

/-! ## The scheduled expiry and the operations on the focus session -/

/-- The task that the expiry thread started by `ActivateStoredGemSlot` posts to
the main loop (lines 165 to 170); `focusId` and `index` are the values the
lambda captured when the activation scheduled it. -/
def focusExpiryTask (w : World) (focusId index : Nat) : World :=
  if w.manager.focusCastId_ = focusId ∧ w.manager.activeFocusSlot_ = some index then
    StopFocusSpellCast w index
  else w

/-- An operation that reads or writes the focus session: the cast part of a
slot activation (lines 148 to 174 of `ActivateStoredGemSlot`), a key release
(`StopFocusSpellCast`), a scheduled expiry, and a cast made by the
external-removal path (`CastStoredSpell` called from `HandleContainerChanged`). -/
inductive FocusStep where
  | activate (index : Nat) (key : GemKey) (stored : StoredSpellData) (spell : SpellItem)
  | stop (index : Nat)
  | expiry (focusId : Nat) (index : Nat)
  | externalCast (spell : SpellItem) (isBlackSoulGem isReusableStar isAzurasStar : Bool)
deriving DecidableEq, Repr

/-- Runs one operation; the activation and the external cast run only with a
player, as in their callers. -/
def FocusStep.run (w : World) : FocusStep → World
  | .activate index key stored spell =>
    match w.player with
    | none => w
    | some player => activateCast w index key stored spell player
  | .stop index => StopFocusSpellCast w index
  | .expiry focusId index => focusExpiryTask w focusId index
  | .externalCast spell isBlackSoulGem isReusableStar isAzurasStar =>
    match w.player with
    | none => w
    | some player => CastStoredSpell w spell player isBlackSoulGem isReusableStar isAzurasStar

/-- How often the operation executes `++focusCastId_` in state `w`: once for a
channeled activation (twice when the focus duration is `<= 0.0f`, because
it then ends the channel at once), once for a `StopFocusSpellCast` of the
active slot and for an expiry that is honoured, never otherwise. -/
def FocusStep.increments (w : World) : FocusStep → Nat
  | .activate _ _ _ spell =>
    if w.player.isSome ∧ spell.castingType = .kConcentration then
      if Float32.le w.config.GetFocusSpellDuration (.finite 0) then 2 else 1
    else 0
  | .stop index => if w.manager.activeFocusSlot_ = some index then 1 else 0
  | .expiry focusId index =>
    if w.manager.focusCastId_ = focusId ∧ w.manager.activeFocusSlot_ = some index then 1 else 0
  | .externalCast _ _ _ _ => 0

/-- Runs the operations in order. -/
def runFocusSteps : World → List FocusStep → World
  | w, [] => w
  | w, step :: steps => runFocusSteps (step.run w) steps

/-- Number of executions of `++focusCastId_` during a run. -/
def tokenIncrements : World → List FocusStep → Nat
  | _, [] => 0
  | w, step :: steps => step.increments w + tokenIncrements (step.run w) steps

/-- A channeled (concentration) Destruction spell of minimum skill 0. -/
def sampleFocusSpell : SpellItem :=
  { formID := 0x12FCD, castingType := .kConcentration, delivery := .kAimed,
    effects := [some { baseEffect := some { magickSkill := .kDestruction, minimumSkillLevel := 0 } }],
    costliestEffect :=
      some { baseEffect := some { magickSkill := .kDestruction, minimumSkillLevel := 0 } } }

/-- An unlimited record holding `sampleFocusSpell`. -/
def sampleFocusRecord : StoredSpellData :=
  { spellId := 0x12FCD, tier := .Novice, usesRemaining := -1, lastUsedGameTime := 0,
    isReusableStar := false, isBlackSoulGem := false }

/-- The channeled activation of slot 0 used in the examples. -/
def sampleFocusActivation : FocusStep :=
  .activate 0 ⟨0xFF000800, 1⟩ sampleFocusRecord sampleFocusSpell

/-! ## The multiplier priority, in the words of the specification -/

/-- The multiplier tier in the priority order the specification states:
(a) the Azura bonus if enabled and the gem is Azura's star; else (b) the
black-soul bonus if enabled and the gem is black-soul; else (c) the normal-gem
penalty if enabled and the gem is neither a star nor black-soul; else no
modifier. The result has the shape of `castModifiers`. -/
def castModifiersByPriority (c : Config) (spell : SpellItem)
    (isBlackSoulGem isReusableStar isAzurasStar : Bool) : ℚ × ℚ × Bool :=
  if c.AzurasStarBoost = true ∧ isAzurasStar = true then (21 / 20, 21 / 20, false)
  else if c.BlackSoulGemBoosts = true ∧ isBlackSoulGem = true then
    (if hasEffectOfSchool (fun s => decide (s = .kConjuration) || decide (s = .kAlteration))
        spell.effects then 11 / 10 else 1,
      if hasEffectOfSchool (fun s => decide (s = .kDestruction)) spell.effects then 11 / 10
      else 0, true)
  else if c.NormalGemPenalty = true ∧ isReusableStar = false ∧ isBlackSoulGem = false then
    (9 / 10, 9 / 10, false)
  else (1, 0, false)

/-- The self-damage calls in a log: the amount of every `RestoreActorValue` call. -/
def selfDamage (events : List GameEvent) : List ℚ :=
  events.filterMap fun e =>
    match e with
    | .restoreHealthDamage amount => some amount
    | _ => none

/-! ## The external-removal path (`HandleContainerChanged`) -/

/-- The fields of `RE::TESContainerChangedEvent` that the handler reads;
`reference` is whether the handle `event.reference` is non-null. -/
structure TESContainerChangedEvent where
  oldContainer : Nat
  newContainer : Nat
  baseObj : Nat
  itemCount : Int
  reference : Bool
  uniqueID : Nat
deriving DecidableEq, Repr

/-- The tier correction of `HandleContainerChanged` (lines 616 to 621): the
spell's tier is derived again and, when it differs from the stored one, the
record is rewritten with it. The pointer `stored` points into the map, so after
the assignment made by `StoreSpell` it reads the rewritten record: the second
component is what `*stored` is from here on. -/
def correctStoredTier (w : World) (key : GemKey) (stored : StoredSpellData) (spell : SpellItem) :
    World × StoredSpellData :=
  match TryGetSpellTier spell with
  | some effectiveTier =>
    if effectiveTier ≠ stored.tier then
      ({ w with
         serialization := w.serialization.StoreSpell key { stored with tier := effectiveTier } },
        { stored with tier := effectiveTier })
    else (w, stored)
  | none => (w, stored)

/-- `SpellGemManager::HandleContainerChanged`; a null `baseGem` passed to
`RemoveItem` is logged as form 0. -/
def HandleContainerChanged (eng : Engine) (w : World) (event : TESContainerChangedEvent) :
    World :=
  match w.player with
  | none => w
  | some player =>
    if event.oldContainer ≠ player.formID ∨ event.newContainer ≠ 0 ∨ event.itemCount ≥ 0 then w
    else if event.reference then w
    else
      let key : GemKey := { baseId := event.baseObj, uniqueId := event.uniqueID }
      match w.serialization.GetStoredSpell key with
      | none => w
      | some stored =>
        match eng.lookupSpell stored.spellId with
        | none => { w with serialization := w.serialization.RemoveStoredSpell key }
        | some spell =>
          let corrected := correctStoredTier w key stored spell
          let stored := corrected.2
          let w :=
            CastStoredSpell corrected.1 spell player stored.isBlackSoulGem stored.isReusableStar
              (IsAzurasStar event.baseObj)
          let newUses :=
            if stored.usesRemaining > 0 then stored.usesRemaining - 1 else stored.usesRemaining
          if newUses = 0 then
            let w := { w with serialization := w.serialization.RemoveStoredSpell key }
            let baseGem := eng.lookupSoulGem event.baseObj
            let w :=
              w.emit (.removeItem (match baseGem with
                | some gem => gem.formID
                | none => 0) 1)
            match baseGem with
            | some gem => GrantFragmentsToPlayer eng w (GetGemTier gem)
            | none => w
          else
            { w with
              serialization :=
                w.serialization.StoreSpell key { stored with usesRemaining := newUses } }

/-- An event reporting that `itemCount` units of the gem `(0xFF000800, 1)` left
the sample player with no destination container and no reference. -/
def sampleRemovalEvent (itemCount : Int) : TESContainerChangedEvent :=
  { oldContainer := 0x14, newContainer := 0, baseObj := 0xFF000800, itemCount := itemCount,
    reference := false, uniqueID := 1 }

/-! ## The settings panel (`MenuUI::Render`) -/

/-- The body of the loop that the "Finite Uses" checkbox of `MenuUI::Render`
runs over a copy of the stored entries. -/
def finiteUseEntry (c : Config) (finiteUse : Bool) (data : StoredSpellData) : StoredSpellData :=
  if data.isReusableStar then { data with usesRemaining := -1 }
  else if !finiteUse then { data with usesRemaining := -1 }
  else if data.usesRemaining < 0 then
    { data with usesRemaining := (c.GetTierSettings data.tier).uses }
  else data

/-- The handler of the "Finite Uses" checkbox of `MenuUI::Render` (lines 46 to
62): the setting is written and every stored entry is rewritten. -/
def toggleFiniteUse (w : World) (finiteUse : Bool) : World :=
  let c := w.config.SetFiniteUse finiteUse
  { w with
    config := c
    serialization :=
      w.serialization.GetStoredSpells.foldl
        (fun s e => s.StoreSpell e.1 (finiteUseEntry c finiteUse e.2)) w.serialization }

/-- The rows of the "Stored Spell Gems" table of `MenuUI::Render` from row
number `slotIndex` on, when no "Remove" button is pressed: each row pairs the
slot index the panel prints (as `slotIndex + 1`) and passes to
`SetActivationKey` with the key of the entry, and the loop stops once
`slotIndex` reaches the maximum. -/
def menuRows (maxStored : Nat) : Nat → List (GemKey × StoredSpellData) → List (Nat × GemKey)
  | _, [] => []
  | slotIndex, (key, _) :: rest =>
    (slotIndex, key) ::
      (if slotIndex + 1 ≥ maxStored then [] else menuRows maxStored (slotIndex + 1) rest)

/-- The table of `MenuUI::Render` right after a refresh of its cache:
`cachedSpells` is the store's entries in the order the store enumerates them. -/
def storedGemRows (w : World) : List (Nat × GemKey) :=
  menuRows w.config.GetMaxStoredGems 0 w.serialization.GetStoredSpells

/-- The slot index the panel shows for `key`, if it has a row. -/
def menuSlotIndex (w : World) (key : GemKey) : Option Nat :=
  ((storedGemRows w).find? fun row => decide (row.2 = key)).map fun row => row.1

/-- The index of `key` in the manager's slot assignment, if it has a slot. -/
def managerSlotIndex (w : World) (key : GemKey) : Option Nat :=
  let slots := (RefreshStoredGemSlots w).manager.storedGemSlots_
  if key ∈ slots then some (slots.indexOf key) else none

/-! ## The invariant of reusable-star records -/

/-- Every record flagged reusable-star has a negative (unlimited) `usesRemaining`. -/
def starsUnlimited (s : Serialization) : Prop :=
  ∀ key record, s.GetStoredSpell key = some record → record.isReusableStar = true →
    record.usesRemaining < 0

/-! ## More sample states -/

/-- A Restoration spell: no effect of the Destruction, Conjuration or Alteration school. -/
def sampleWardSpell : SpellItem :=
  { formID := 0x211F1, castingType := .kFireAndForget, delivery := .kSelf,
    effects := [some { baseEffect := some { magickSkill := .kRestoration, minimumSkillLevel := 0 } }],
    costliestEffect :=
      some { baseEffect := some { magickSkill := .kRestoration, minimumSkillLevel := 0 } } }

/-- An engine that knows the three sample spells, one gem form and the default
fragment item, at timescale 20 and game time `now`. -/
def sampleEngine2 (gem : TESSoulGem) (now : ℚ) : Engine :=
  { lookupSpell := fun id =>
      if id = sampleSpell.formID then some sampleSpell
      else if id = sampleFocusSpell.formID then some sampleFocusSpell
      else if id = sampleWardSpell.formID then some sampleWardSpell
      else none
    lookupSoulGem := fun id => if id = gem.formID then some gem else none
    lookupMisc := fun id => id == 0x00067181
    calendar := some { timescale := 20, currentGameTime := now } }

/-- A world whose store enumerates two records, the one with the larger base
identity first. -/
def sampleTwoGemWorld : World :=
  { serialization :=
      { storedSpells_ :=
          [(⟨0xFF000900, 1⟩, sampleRecord .Adept 6 0), (⟨0xFF000800, 1⟩, sampleFocusRecord)],
        nextUniqueId_ := 2 }
    config := Config.defaults
    manager := SpellGemManager.fresh
    player := some samplePlayer
    events := [] }

/-- A world whose store holds two channeled records, in slots 0 and 1. -/
def sampleTwoFocusWorld : World :=
  { serialization :=
      { storedSpells_ :=
          [(⟨0xFF000800, 1⟩, sampleFocusRecord), (⟨0xFF000800, 2⟩, sampleFocusRecord)],
        nextUniqueId_ := 3 }
    config := Config.defaults
    manager := SpellGemManager.fresh
    player := some samplePlayer
    events := [] }

/-- The intrinsic cost of the player's right-hand channel. -/
def rightHandCost (w : World) : Option ℚ :=
  match w.player with
  | none => none
  | some player => player.rightHand.map fun caster => caster.currentSpellCost

/-- The sample capture into a Common gem holding a Common soul, with a data
handler whose `AddFormToDataHandler` fails. -/
def sampleCaptureUnregistered : CaptureEngine :=
  { sampleCapture (sampleGem .kCommon) .kCommon with dataHandler := some fun _ => false }

/-- The sample capture into a Common gem holding a Common soul, with a
`CreateDuplicateForm` that fails. -/
def sampleCaptureNoDuplicate : CaptureEngine :=
  { sampleCapture (sampleGem .kCommon) .kCommon with createDuplicateForm := fun _ => none }

/-! ## Theorems: the persistent store -/

theorem StoreSpell_nextUniqueId (s : Serialization) (k : GemKey) (d : StoredSpellData) :
    (s.StoreSpell k d).nextUniqueId_ = s.nextUniqueId_ := rfl

theorem RemoveStoredSpell_nextUniqueId (s : Serialization) (k : GemKey) :
    (s.RemoveStoredSpell k).nextUniqueId_ = s.nextUniqueId_ := rfl

theorem runStoreOps_no_allocation (ops : List StoreOp) (s : Serialization)
    (h : countAllocations ops = 0) : (runStoreOps ops s).1 = [] := by
  induction ops generalizing s with
  | nil => rfl
  | cons op ops ih =>
    cases op with
    | allocate => simp [countAllocations] at h
    | store k d => exact ih _ (by simpa [countAllocations] using h)
    | remove k => exact ih _ (by simpa [countAllocations] using h)

/-- Below the 16-bit wrap the ids returned are consecutive, starting at the counter. -/
theorem runStoreOps_ids (ops : List StoreOp) (s : Serialization)
    (h : s.nextUniqueId_ + countAllocations ops ≤ 65536) :
    (runStoreOps ops s).1 = List.range' s.nextUniqueId_ (countAllocations ops) := by
  induction ops generalizing s with
  | nil => rfl
  | cons op ops ih =>
    cases op with
    | allocate =>
      simp only [runStoreOps, countAllocations, Serialization.AllocateUniqueId]
      rw [List.range'_succ]
      congr 1
      by_cases h0 : countAllocations ops = 0
      · rw [h0]
        simpa using runStoreOps_no_allocation ops _ h0
      · have hlt : s.nextUniqueId_ + 1 < 65536 := by
          simp only [countAllocations] at h
          omega
        have := ih { s with nextUniqueId_ := (s.nextUniqueId_ + 1) % 65536 }
          (by simp only [countAllocations] at h
              simp only [Nat.mod_eq_of_lt hlt]
              omega)
        simpa [Nat.mod_eq_of_lt hlt] using this
    | store k d =>
      simp only [runStoreOps, countAllocations]
      exact ih _ (by simpa [countAllocations, StoreSpell_nextUniqueId] using h)
    | remove k =>
      simp only [runStoreOps, countAllocations]
      exact ih _ (by simpa [countAllocations, RemoveStoredSpell_nextUniqueId] using h)

theorem runStoreOps_append (a b : List StoreOp) (s : Serialization) :
    runStoreOps (a ++ b) s =
      ((runStoreOps a s).1 ++ (runStoreOps b (runStoreOps a s).2).1,
        (runStoreOps b (runStoreOps a s).2).2) := by
  induction a generalizing s with
  | nil => simp [runStoreOps]
  | cons op a ih =>
    cases op with
    | allocate => simp [runStoreOps, ih]
    | store k d => simp [runStoreOps, ih]
    | remove k => simp [runStoreOps, ih]

theorem runStoreOps_replicate_allocate (n : Nat) (s : Serialization) :
    (runStoreOps (List.replicate n StoreOp.allocate) s).2 =
      { s with nextUniqueId_ := if n = 0 then s.nextUniqueId_ else (s.nextUniqueId_ + n) % 65536 } := by
  induction n generalizing s with
  | zero => simp [runStoreOps]
  | succ n ih =>
    simp only [List.replicate_succ, runStoreOps, ih, Serialization.AllocateUniqueId]
    by_cases hn : n = 0
    · simp [hn]
    · simp [hn]
      omega

/-- C9 (as amended): in every sequence of store operations without `Load` or
`Revert`, as long as the 16-bit counter does not wrap (counter value plus
number of allocations at most 65536), the ids returned by `AllocateUniqueId`
are consecutive from the counter value, hence each is strictly greater than
every id returned earlier; on a fresh store the first id returned is 1. -/
theorem C9_ids_strictly_increasing_until_wrap (ops : List StoreOp) (s : Serialization)
    (h : s.nextUniqueId_ + countAllocations ops ≤ 65536) :
    (runStoreOps ops s).1 = List.range' s.nextUniqueId_ (countAllocations ops) ∧
      (runStoreOps ops s).1.Pairwise (fun earlier later => earlier < later) ∧
      Serialization.fresh.AllocateUniqueId.1 = 1 ∧
      (s = Serialization.fresh → ∀ id ∈ (runStoreOps ops s).1.head?, id = 1) := by
  have hids := runStoreOps_ids ops s h
  refine ⟨hids, ?_, rfl, ?_⟩
  · rw [hids]
    exact List.pairwise_lt_range' _ _
  · intro hs id hid
    rw [hids, hs] at hid
    cases hc : countAllocations ops with
    | zero => simp [hc] at hid
    | succ n =>
      simp [hc, List.range'_succ, Serialization.fresh] at hid
      exact hid.symm

/-- C9 witness: three allocations with a store in between, on a fresh store. -/
theorem C9_ids_strictly_increasing_until_wrap_witness :
    (runStoreOps
        [.allocate, .store ⟨7, 1⟩ StoredSpellData.zero, .allocate, .allocate]
        Serialization.fresh).1 = List.range' 1 3 ∧
      (runStoreOps
        [.allocate, .store ⟨7, 1⟩ StoredSpellData.zero, .allocate, .allocate]
        Serialization.fresh).1.Pairwise (fun earlier later => earlier < later) ∧
      Serialization.fresh.AllocateUniqueId.1 = 1 ∧
      (Serialization.fresh = Serialization.fresh →
        ∀ id ∈ (runStoreOps
          [.allocate, .store ⟨7, 1⟩ StoredSpellData.zero, .allocate, .allocate]
          Serialization.fresh).1.head?, id = 1) :=
  C9_ids_strictly_increasing_until_wrap
    [.allocate, .store ⟨7, 1⟩ StoredSpellData.zero, .allocate, .allocate]
    Serialization.fresh (by decide)

/-- C9 counterexample: 65536 successive `AllocateUniqueId` calls on a fresh
store do not return strictly increasing ids: the 65535th call returns 65535 and
the 65536th returns 0. -/
theorem C9_counterexample_wrap :
    ((runStoreOps (List.replicate 65534 StoreOp.allocate) Serialization.fresh).2.nextUniqueId_
        = 65535) ∧
      (runStoreOps [StoreOp.allocate, StoreOp.allocate]
        (runStoreOps (List.replicate 65534 StoreOp.allocate) Serialization.fresh).2).1
        = [65535, 0] ∧
      ¬ (runStoreOps (List.replicate 65536 StoreOp.allocate) Serialization.fresh).1.Pairwise
        (fun earlier later => earlier < later) := by
  have hst := runStoreOps_replicate_allocate 65534 Serialization.fresh
  have hnext : (runStoreOps (List.replicate 65534 StoreOp.allocate)
      Serialization.fresh).2.nextUniqueId_ = 65535 := by
    rw [hst]
    simp [Serialization.fresh]
  have htwo : (runStoreOps [StoreOp.allocate, StoreOp.allocate]
      (runStoreOps (List.replicate 65534 StoreOp.allocate) Serialization.fresh).2).1
      = [65535, 0] := by
    have key : ∀ t : Serialization, t.nextUniqueId_ = 65535 →
        (runStoreOps [StoreOp.allocate, StoreOp.allocate] t).1 = [65535, 0] := by
      intro t ht
      simp [runStoreOps, Serialization.AllocateUniqueId, ht]
    exact key _ hnext
  refine ⟨hnext, htwo, ?_⟩
  intro hp
  have hsplit : List.replicate 65536 StoreOp.allocate =
      List.replicate 65534 StoreOp.allocate ++ [StoreOp.allocate, StoreOp.allocate] := by
    rw [show (65536 : Nat) = 65534 + 2 from rfl, List.replicate_add]
    rfl
  rw [hsplit, runStoreOps_append] at hp
  simp only [htwo] at hp
  have h2 := (List.pairwise_append.1 hp).2.1
  simp at h2

/-- C10: from every store state, `Revert` leaves no record (`HasStoredSpell` is
false for every key) and the id counter at 1, so the next `AllocateUniqueId`
returns 1. -/
theorem C10_revert_clears_store (s : Serialization) :
    (∀ key, s.Revert.HasStoredSpell key = false) ∧
      s.Revert.GetStoredSpells = [] ∧
      s.Revert.nextUniqueId_ = 1 ∧
      s.Revert.AllocateUniqueId.1 = 1 := by
  refine ⟨fun key => rfl, rfl, rfl, rfl⟩

/-! ## Theorems: slot assignment -/

theorem keyAscending_of_slotLess {a b : GemKey} (h : slotLess a b = true) : keyAscending a b := by
  unfold slotLess at h
  unfold keyAscending
  by_cases hb : a.baseId = b.baseId
  · right
    simp [hb] at h
    exact ⟨hb, by omega⟩
  · left
    simpa [hb] using h

theorem keyAscending_of_not_slotLess {a b : GemKey} (h : slotLess a b = false) :
    keyAscending b a := by
  unfold slotLess at h
  unfold keyAscending
  by_cases hb : a.baseId = b.baseId
  · right
    simp [hb] at h
    exact ⟨hb.symm, h⟩
  · left
    simp [hb] at h
    omega

theorem keyAscending_trans {a b c : GemKey} (hab : keyAscending a b) (hbc : keyAscending b c) :
    keyAscending a c := by
  unfold keyAscending at *
  omega

theorem keyAscending_antisymm {a b : GemKey} (hab : keyAscending a b) (hba : keyAscending b a) :
    a = b := by
  unfold keyAscending at *
  cases a
  cases b
  simp only [GemKey.mk.injEq] at *
  omega

theorem sortInsert_perm (x : GemKey) (l : List GemKey) : (sortInsert x l).Perm (x :: l) := by
  induction l with
  | nil => exact List.Perm.refl _
  | cons y ys ih =>
    unfold sortInsert
    split
    · exact List.Perm.refl _
    · exact (List.Perm.cons y ih).trans (List.Perm.swap x y ys)

theorem stdSort_perm (l : List GemKey) : (stdSort l).Perm l := by
  induction l with
  | nil => exact List.Perm.refl _
  | cons x xs ih => exact (sortInsert_perm x (stdSort xs)).trans (List.Perm.cons x ih)

theorem sortInsert_sorted (x : GemKey) (l : List GemKey) (h : l.Pairwise keyAscending) :
    (sortInsert x l).Pairwise keyAscending := by
  induction l with
  | nil => simp [sortInsert]
  | cons y ys ih =>
    unfold sortInsert
    cases hxy : slotLess x y with
    | true =>
      simp only [if_true]
      refine List.Pairwise.cons ?_ h
      intro z hz
      rcases List.mem_cons.1 hz with rfl | hz
      · exact keyAscending_of_slotLess hxy
      · exact keyAscending_trans (keyAscending_of_slotLess hxy) (List.rel_of_pairwise_cons h hz)
    | false =>
      simp only [Bool.false_eq_true, if_false]
      refine List.Pairwise.cons ?_ (ih (List.Pairwise.of_cons h))
      intro z hz
      rcases List.mem_cons.1 ((sortInsert_perm x ys).subset hz) with rfl | hz
      · exact keyAscending_of_not_slotLess hxy
      · exact List.rel_of_pairwise_cons h hz

theorem stdSort_sorted (l : List GemKey) : (stdSort l).Pairwise keyAscending := by
  induction l with
  | nil => exact List.Pairwise.nil
  | cons x xs ih => exact sortInsert_sorted x (stdSort xs) ih

/-- An ascending list is determined by its elements. -/
theorem ascending_unique {l₁ l₂ : List GemKey} (hp : l₁.Perm l₂)
    (h₁ : l₁.Pairwise keyAscending) (h₂ : l₂.Pairwise keyAscending) : l₁ = l₂ :=
  @List.eq_of_perm_of_sorted GemKey keyAscending ⟨fun _ _ => keyAscending_antisymm⟩ l₁ l₂ hp h₁ h₂

theorem stdSort_eq_of_perm {l₁ l₂ : List GemKey} (hp : l₁.Perm l₂) : stdSort l₁ = stdSort l₂ :=
  ascending_unique (((stdSort_perm l₁).trans hp).trans (stdSort_perm l₂).symm)
    (stdSort_sorted l₁) (stdSort_sorted l₂)

theorem RefreshStoredGemSlots_slots (w : World) :
    (RefreshStoredGemSlots w).manager.storedGemSlots_ =
      (stdSort (w.serialization.storedSpells_.map fun e => e.1)).take w.config.maxStoredGems_ := by
  simp only [RefreshStoredGemSlots, Serialization.GetStoredSpells, Config.GetMaxStoredGems]
  split
  · rfl
  · rw [List.take_of_length_le (by omega)]

/-- C1: `RefreshStoredGemSlots` sets the slot list to the first `min N m`
of the `N` stored keys sorted ascending by `baseId` and then by `uniqueId`
(whatever ascending arrangement `S` of the stored keys one takes, and one
exists); the list has `min N m` entries, is the same for every enumeration
order of the store, and re-deriving it changes nothing. -/
theorem C1_refresh_slots_sorted_truncated (w : World) :
    (∀ S : List GemKey, S.Perm (w.serialization.GetStoredSpells.map fun e => e.1) →
        S.Pairwise keyAscending →
        (RefreshStoredGemSlots w).manager.storedGemSlots_ =
          S.take (min w.serialization.GetStoredSpells.length w.config.GetMaxStoredGems)) ∧
      (∃ S : List GemKey, S.Perm (w.serialization.GetStoredSpells.map fun e => e.1) ∧
        S.Pairwise keyAscending) ∧
      (RefreshStoredGemSlots w).manager.storedGemSlots_.length =
        min w.serialization.GetStoredSpells.length w.config.GetMaxStoredGems ∧
      (∀ w2 : World, w2.serialization.GetStoredSpells.Perm w.serialization.GetStoredSpells →
        w2.config.GetMaxStoredGems = w.config.GetMaxStoredGems →
        (RefreshStoredGemSlots w2).manager.storedGemSlots_ =
          (RefreshStoredGemSlots w).manager.storedGemSlots_) ∧
      RefreshStoredGemSlots (RefreshStoredGemSlots w) = RefreshStoredGemSlots w := by
  have hlen : (stdSort (w.serialization.storedSpells_.map fun e => e.1)).length =
      w.serialization.storedSpells_.length := by
    rw [(stdSort_perm _).length_eq, List.length_map]
  refine ⟨?_, ⟨_, stdSort_perm _, stdSort_sorted _⟩, ?_, ?_, ?_⟩
  · intro S hS hasc
    have hEq : stdSort (w.serialization.storedSpells_.map fun e => e.1) = S :=
      ascending_unique ((stdSort_perm _).trans hS.symm) (stdSort_sorted _) hasc
    rw [RefreshStoredGemSlots_slots, hEq]
    simp only [Serialization.GetStoredSpells, Config.GetMaxStoredGems]
    have hSlen : S.length = w.serialization.storedSpells_.length := by rw [← hEq, hlen]
    rw [← hSlen]
    rcases Nat.le_total S.length w.config.maxStoredGems_ with h | h
    · rw [Nat.min_eq_left h, List.take_of_length_le h, List.take_length]
    · rw [Nat.min_eq_right h]
  · rw [RefreshStoredGemSlots_slots, List.length_take, hlen]
    simp only [Serialization.GetStoredSpells, Config.GetMaxStoredGems]
    exact Nat.min_comm _ _
  · intro w2 hperm hmax
    simp only [Serialization.GetStoredSpells, Config.GetMaxStoredGems] at hperm hmax
    rw [RefreshStoredGemSlots_slots, RefreshStoredGemSlots_slots, hmax,
      stdSort_eq_of_perm (hperm.map _)]
  · rfl

/-! ## Theorems: frame properties of the map and of casting -/

theorem mapFind_mapAssign_self (m : StoredSpells) (k : GemKey) (d : StoredSpellData) :
    mapFind (mapAssign m k d) k = some d := by
  induction m with
  | nil => simp [mapAssign, mapFind]
  | cons e m ih =>
    obtain ⟨k0, d0⟩ := e
    by_cases h : k0 = k
    · simp [mapAssign, mapFind, h]
    · simp [mapAssign, mapFind, h, ih]

theorem mapFind_mapAssign_ne (m : StoredSpells) (k : GemKey) (d : StoredSpellData)
    (k2 : GemKey) (hne : k2 ≠ k) : mapFind (mapAssign m k d) k2 = mapFind m k2 := by
  induction m with
  | nil => simp [mapAssign, mapFind, Ne.symm hne]
  | cons e m ih =>
    obtain ⟨k0, d0⟩ := e
    by_cases h : k0 = k
    · subst h
      simp [mapAssign, mapFind, Ne.symm hne]
    · by_cases h2 : k0 = k2
      · subst h2
        simp [mapAssign, mapFind, h]
      · simp [mapAssign, mapFind, h, h2, ih]

theorem mapFind_mapErase_self (m : StoredSpells) (k : GemKey) : mapFind (mapErase m k) k = none := by
  induction m with
  | nil => rfl
  | cons e m ih =>
    obtain ⟨k0, d0⟩ := e
    unfold mapErase at ih ⊢
    by_cases h : k0 = k
    · simp [List.filter_cons, h, ih]
    · simp [List.filter_cons, h, mapFind, ih]

theorem mapFind_mapErase_ne (m : StoredSpells) (k k2 : GemKey) (hne : k2 ≠ k) :
    mapFind (mapErase m k) k2 = mapFind m k2 := by
  induction m with
  | nil => rfl
  | cons e m ih =>
    obtain ⟨k0, d0⟩ := e
    unfold mapErase at ih ⊢
    by_cases h : k0 = k
    · subst h
      simp [List.filter_cons, mapFind, Ne.symm hne, ih]
    · by_cases h2 : k0 = k2
      · subst h2
        simp [List.filter_cons, h, mapFind]
      · simp [List.filter_cons, h, mapFind, h2, ih]

theorem rewardGrants_append (a b : List GameEvent) :
    rewardGrants (a ++ b) = rewardGrants a ++ rewardGrants b := by
  simp [rewardGrants, List.filterMap_append]

theorem castsMade_append (a b : List GameEvent) :
    castsMade (a ++ b) = castsMade a ++ castsMade b := by
  simp [castsMade, List.filterMap_append]

theorem itemsRemoved_append (a b : List GameEvent) :
    itemsRemoved (a ++ b) = itemsRemoved a ++ itemsRemoved b := by
  simp [itemsRemoved, List.filterMap_append]

/-- What `CastStoredSpell` leaves alone: the store, the configuration, the
active slot and the token, the presence of the player, and the logs of reward
grants and item removals. -/
theorem CastStoredSpell_frame (w : World) (spell : SpellItem) (p : PlayerCharacter)
    (b s a : Bool) :
    (CastStoredSpell w spell p b s a).serialization = w.serialization ∧
      (CastStoredSpell w spell p b s a).config = w.config ∧
      (CastStoredSpell w spell p b s a).manager.activeFocusSlot_ = w.manager.activeFocusSlot_ ∧
      (CastStoredSpell w spell p b s a).manager.focusCastId_ = w.manager.focusCastId_ ∧
      (w.player.isSome → (CastStoredSpell w spell p b s a).player.isSome) ∧
      rewardGrants (CastStoredSpell w spell p b s a).events = rewardGrants w.events ∧
      itemsRemoved (CastStoredSpell w spell p b s a).events = itemsRemoved w.events := by
  unfold CastStoredSpell
  cases selectCaster p with
  | none => simp
  | some sc =>
    obtain ⟨source, caster⟩ := sc
    generalize castModifiers w.config spell b s a = cm
    obtain ⟨eff, mag, blackBranch⟩ := cm
    simp only []
    split_ifs <;>
      simp [World.emit, rewardGrants_append, itemsRemoved_append, rewardGrants, itemsRemoved]

/-- What `StopFocusSpellCast` leaves alone. -/
theorem StopFocusSpellCast_frame (w : World) (index : Nat) :
    (StopFocusSpellCast w index).serialization = w.serialization ∧
      (StopFocusSpellCast w index).config = w.config ∧
      (w.player.isSome → (StopFocusSpellCast w index).player.isSome) ∧
      rewardGrants (StopFocusSpellCast w index).events = rewardGrants w.events ∧
      itemsRemoved (StopFocusSpellCast w index).events = itemsRemoved w.events := by
  unfold StopFocusSpellCast
  by_cases hslot : w.manager.activeFocusSlot_ = some index
  · cases hp : w.player with
    | none =>
      simp only [hslot, ne_eq, not_true_eq_false, if_false]
      refine ⟨?_, ?_, ?_, ?_, ?_⟩ <;> (split <;> simp_all)
    | some pc =>
      simp only [hslot, ne_eq, not_true_eq_false, if_false]
      refine ⟨?_, ?_, ?_, ?_, ?_⟩ <;>
        (split <;> split_ifs <;>
          simp_all [World.emit, rewardGrants_append, itemsRemoved_append, rewardGrants,
            itemsRemoved])
  · simp [hslot]

/-- What lines 148 to 174 of `ActivateStoredGemSlot` leave alone. -/
theorem activateCast_frame (w : World) (index : Nat) (key : GemKey) (stored : StoredSpellData)
    (spell : SpellItem) (p : PlayerCharacter) :
    (activateCast w index key stored spell p).serialization = w.serialization ∧
      (activateCast w index key stored spell p).config = w.config ∧
      (w.player.isSome → (activateCast w index key stored spell p).player.isSome) ∧
      rewardGrants (activateCast w index key stored spell p).events = rewardGrants w.events ∧
      itemsRemoved (activateCast w index key stored spell p).events = itemsRemoved w.events := by
  unfold activateCast
  by_cases hc : spell.castingType = .kConcentration
  · simp only [hc, decide_True, if_true]
    generalize hw1 : ({ w with manager := { w.manager with
        activeFocusSlot_ := some index
        focusCastId_ := (w.manager.focusCastId_ + 1) % 2 ^ 64 } } : World) = w1
    have h1s : w1.serialization = w.serialization := by rw [← hw1]
    have h1c : w1.config = w.config := by rw [← hw1]
    have h1p : w1.player = w.player := by rw [← hw1]
    have h1e : w1.events = w.events := by rw [← hw1]
    obtain ⟨cs, cc, _, _, cp, cg, ci⟩ :=
      CastStoredSpell_frame w1 spell p stored.isBlackSoulGem stored.isReusableStar
        (IsAzurasStar key.baseId)
    split_ifs
    · obtain ⟨ss, sc, sp, sg, si⟩ :=
        StopFocusSpellCast_frame
          (CastStoredSpell w1 spell p stored.isBlackSoulGem stored.isReusableStar
            (IsAzurasStar key.baseId)) index
      refine ⟨by rw [ss, cs, h1s], by rw [sc, cc, h1c], ?_, by rw [sg, cg, h1e],
        by rw [si, ci, h1e]⟩
      intro hp
      exact sp (cp (by rw [h1p]; exact hp))
    · refine ⟨by simp [World.emit, cs, h1s], by simp [World.emit, cc, h1c], ?_,
        by simp only [World.emit, rewardGrants_append, cg, h1e]; simp [rewardGrants],
        by simp only [World.emit, itemsRemoved_append, ci, h1e]; simp [itemsRemoved]⟩
      intro hp
      simpa [World.emit] using cp (by rw [h1p]; exact hp)
  · simp only [hc, decide_False, Bool.false_eq_true, if_false]
    obtain ⟨cs, cc, _, _, cp, cg, ci⟩ :=
      CastStoredSpell_frame w spell p stored.isBlackSoulGem stored.isReusableStar
        (IsAzurasStar key.baseId)
    exact ⟨cs, cc, cp, cg, ci⟩

/-! ## Theorems: the consume-one-use step -/

theorem GrantFragmentsToPlayer_frame (eng : Engine) (w : World) (tier : SpellTier) :
    (GrantFragmentsToPlayer eng w tier).serialization = w.serialization ∧
      (GrantFragmentsToPlayer eng w tier).config = w.config ∧
      (GrantFragmentsToPlayer eng w tier).manager = w.manager ∧
      (GrantFragmentsToPlayer eng w tier).player = w.player ∧
      itemsRemoved (GrantFragmentsToPlayer eng w tier).events = itemsRemoved w.events := by
  unfold GrantFragmentsToPlayer
  simp only []
  split_ifs
  · simp
  · simp
  · cases hp : w.player <;> simp [World.emit, itemsRemoved_append, itemsRemoved, hp]

/-- The grant made when the fragment item resolves, the count is non-zero and
the player exists: one `AddObjectToContainer` of the configured count of `tier`. -/
theorem GrantFragmentsToPlayer_grants (eng : Engine) (w : World) (tier : SpellTier)
    (hcount : w.config.GetFragmentCount tier ≠ 0)
    (hform : eng.lookupMisc w.config.GetFragmentFormId = true) (hplayer : w.player.isSome) :
    rewardGrants (GrantFragmentsToPlayer eng w tier).events =
      rewardGrants w.events ++
        [(w.config.GetFragmentFormId, toInt32 (w.config.GetFragmentCount tier))] := by
  unfold GrantFragmentsToPlayer
  cases hp : w.player with
  | none => simp [hp] at hplayer
  | some pc => simp [hcount, hform, World.emit, rewardGrants_append, rewardGrants]

/-- C5: with the player and the record's spell resolvable, `ConsumeStoredGemUse`
on key `k` and record `d` leaves the store as follows: for negative uses `k`
maps to `d` unchanged; for uses at least 2 `k` maps to `d` with `usesRemaining`
decreased by exactly 1 and every other field equal; for uses 0 or 1 the key is
absent and exactly one unit of the gem is removed from the player (and none in
the other cases). Records under other keys and the id counter are unchanged. -/
theorem C5_consume_one_use (eng : Engine) (w : World) (baseGem : TESSoulGem) (k : GemKey)
    (d : StoredSpellData) (hplayer : w.player.isSome)
    (hspell : (eng.lookupSpell d.spellId).isSome) :
    (d.usesRemaining < 0 →
        (ConsumeStoredGemUse eng w baseGem k d).serialization.GetStoredSpell k = some d ∧
        itemsRemoved (ConsumeStoredGemUse eng w baseGem k d).events = itemsRemoved w.events) ∧
      (2 ≤ d.usesRemaining →
        (ConsumeStoredGemUse eng w baseGem k d).serialization.GetStoredSpell k =
          some { d with usesRemaining := d.usesRemaining - 1 } ∧
        itemsRemoved (ConsumeStoredGemUse eng w baseGem k d).events = itemsRemoved w.events) ∧
      (d.usesRemaining = 0 ∨ d.usesRemaining = 1 →
        (ConsumeStoredGemUse eng w baseGem k d).serialization.GetStoredSpell k = none ∧
        (ConsumeStoredGemUse eng w baseGem k d).serialization.HasStoredSpell k = false ∧
        itemsRemoved (ConsumeStoredGemUse eng w baseGem k d).events =
          itemsRemoved w.events ++ [(baseGem.formID, 1)]) ∧
      (∀ k2, k2 ≠ k →
        (ConsumeStoredGemUse eng w baseGem k d).serialization.GetStoredSpell k2 =
          w.serialization.GetStoredSpell k2) ∧
      (ConsumeStoredGemUse eng w baseGem k d).serialization.nextUniqueId_ =
        w.serialization.nextUniqueId_ := by
  obtain ⟨p, hp⟩ := Option.isSome_iff_exists.1 hplayer
  obtain ⟨sp, hsp⟩ := Option.isSome_iff_exists.1 hspell
  by_cases hneg : d.usesRemaining < 0
  · have hEq : ConsumeStoredGemUse eng w baseGem k d =
        { w with serialization := w.serialization.StoreSpell k d } := by
      simp [ConsumeStoredGemUse, hneg]
    rw [hEq]
    refine ⟨fun _ => ⟨mapFind_mapAssign_self _ _ _, rfl⟩, fun h => by omega, fun h => by omega,
      fun k2 hk2 => mapFind_mapAssign_ne _ _ _ _ hk2, rfl⟩
  · by_cases hle : d.usesRemaining - 1 ≤ 0
    · have hEq : ConsumeStoredGemUse eng w baseGem k d =
          GrantFragmentsToPlayer eng
            (({ w with serialization := w.serialization.RemoveStoredSpell k } : World).emit
              (.removeItem baseGem.formID 1))
            (GetGemTier baseGem) := by
        simp [ConsumeStoredGemUse, hneg, hp, hsp, hle]
      obtain ⟨gs, _, _, _, gi⟩ := GrantFragmentsToPlayer_frame eng
        (({ w with serialization := w.serialization.RemoveStoredSpell k } : World).emit
          (.removeItem baseGem.formID 1)) (GetGemTier baseGem)
      rw [hEq, gs, gi]
      refine ⟨fun h => absurd h hneg, fun h => by omega, fun _ => ⟨?_, ?_, ?_⟩, ?_, rfl⟩
      · exact mapFind_mapErase_self _ _
      · simp [Serialization.HasStoredSpell, mapContains, World.emit,
          Serialization.RemoveStoredSpell, mapFind_mapErase_self]
      · simp [World.emit, itemsRemoved_append, itemsRemoved]
      · intro k2 hk2
        exact mapFind_mapErase_ne _ _ _ hk2
    · have hEq : ConsumeStoredGemUse eng w baseGem k d =
          { w with serialization :=
              w.serialization.StoreSpell k { d with usesRemaining := d.usesRemaining - 1 } } := by
        simp [ConsumeStoredGemUse, hneg, hp, hsp, hle]
      rw [hEq]
      refine ⟨fun h => absurd h hneg, fun _ => ⟨mapFind_mapAssign_self _ _ _, rfl⟩,
        fun h => by omega, fun k2 hk2 => mapFind_mapAssign_ne _ _ _ _ hk2, rfl⟩

/-- C5 witness: a record with 6 uses in the sample world. -/
theorem C5_consume_one_use_witness :
    (sampleWorld Config.defaults (sampleRecord .Adept 6 0)).player.isSome ∧
      ((sampleEngine (sampleGem .kCommon) 2).lookupSpell
        (sampleRecord .Adept 6 0).spellId).isSome ∧
      (2 ≤ (sampleRecord .Adept 6 0).usesRemaining →
        (ConsumeStoredGemUse (sampleEngine (sampleGem .kCommon) 2)
            (sampleWorld Config.defaults (sampleRecord .Adept 6 0)) (sampleGem .kCommon)
            ⟨0xFF000800, 1⟩ (sampleRecord .Adept 6 0)).serialization.GetStoredSpell
            ⟨0xFF000800, 1⟩ =
          some { sampleRecord .Adept 6 0 with
            usesRemaining := (sampleRecord .Adept 6 0).usesRemaining - 1 } ∧
        itemsRemoved (ConsumeStoredGemUse (sampleEngine (sampleGem .kCommon) 2)
            (sampleWorld Config.defaults (sampleRecord .Adept 6 0)) (sampleGem .kCommon)
            ⟨0xFF000800, 1⟩ (sampleRecord .Adept 6 0)).events =
          itemsRemoved (sampleWorld Config.defaults (sampleRecord .Adept 6 0)).events) :=
  ⟨by decide, by decide,
    (C5_consume_one_use (sampleEngine (sampleGem .kCommon) 2)
      (sampleWorld Config.defaults (sampleRecord .Adept 6 0)) (sampleGem .kCommon)
      ⟨0xFF000800, 1⟩ (sampleRecord .Adept 6 0) (by decide) (by decide)).2.1⟩

/-! ## Theorems: slot activation -/

/-- The path of `ActivateStoredGemSlot` up to the cooldown gate, for a slot
whose record and spell resolve. -/
theorem ActivateStoredGemSlot_at_gate (eng : Engine) (w : World) (index : Nat) (key : GemKey)
    (stored : StoredSpellData) (spell : SpellItem)
    (hslot : (RefreshStoredGemSlots w).manager.storedGemSlots_[index]? = some key)
    (hstored : w.serialization.GetStoredSpell key = some stored)
    (hspell : eng.lookupSpell stored.spellId = some spell) :
    ActivateStoredGemSlot eng w index =
      if stored.lastUsedGameTime > 0 ∧
          Float32.lt (Float32.sub (.finite (gameTimeNow eng)) (.finite stored.lastUsedGameTime))
            (cooldownDays eng w.config stored) then
        (LogMessage (RefreshStoredGemSlots w) "Stored spell gem is on cooldown.", .onCooldown)
      else
        match w.player with
        | none => (RefreshStoredGemSlots w, .noPlayer)
        | some player =>
          match eng.lookupSoulGem key.baseId with
          | none =>
            (activateCast (RefreshStoredGemSlots w) index key stored spell player, .activated)
          | some baseGem =>
            (RefreshStoredGemSlots
              (ConsumeStoredGemUse eng
                (activateCast (RefreshStoredGemSlots w) index key stored spell player) baseGem key
                { stored with lastUsedGameTime := gameTimeNow eng }), .activated) := by
  have hstored2 : (RefreshStoredGemSlots w).serialization.GetStoredSpell key = some stored :=
    hstored
  have hcfg : (RefreshStoredGemSlots w).config = w.config := rfl
  have hpl : (RefreshStoredGemSlots w).player = w.player := rfl
  unfold ActivateStoredGemSlot
  simp only [hslot, hstored2, hspell, hcfg, hpl]

/-- `ActivateStoredGemSlot` never touches the store when the slot's spell does not resolve. -/
theorem ActivateStoredGemSlot_spell_missing (eng : Engine) (w : World) (index : Nat)
    (key : GemKey) (stored : StoredSpellData)
    (hslot : (RefreshStoredGemSlots w).manager.storedGemSlots_[index]? = some key)
    (hstored : w.serialization.GetStoredSpell key = some stored)
    (hspell : eng.lookupSpell stored.spellId = none) :
    ActivateStoredGemSlot eng w index = (RefreshStoredGemSlots w, .spellMissing) := by
  have hstored2 : (RefreshStoredGemSlots w).serialization.GetStoredSpell key = some stored :=
    hstored
  unfold ActivateStoredGemSlot
  simp only [hslot, hstored2, hspell]

/-- C2 (as amended): for a stored non-star record in a valid slot whose
`lastUsedGameTime` is greater than 0, if `now - lastUsedGameTime` is less than
the tier cooldown in game-time units, both as the code computes them in
single precision (the difference rounded, the cooldown as the rounded product
of the rounded quotient `cooldownSeconds / 86400` and the timescale),
`ActivateStoredGemSlot` makes no cast and leaves the store as it was, and it
leaves through the cooldown exit whenever the record's spell resolves. A record
whose `lastUsedGameTime` is not positive never leaves through the cooldown
exit, and neither does one for which the single-precision comparison fails. -/
theorem C2_cooldown_gate_for_used_records (eng : Engine) (w : World) (index : Nat)
    (key : GemKey) (stored : StoredSpellData) (cal : Calendar)
    (hslot : (RefreshStoredGemSlots w).manager.storedGemSlots_[index]? = some key)
    (hstored : w.serialization.GetStoredSpell key = some stored)
    (hstar : stored.isReusableStar = false)
    (hcal : eng.calendar = some cal) :
    (stored.lastUsedGameTime > 0 →
      Float32.lt
        (Float32.sub (.finite cal.currentGameTime) (.finite stored.lastUsedGameTime))
        (Float32.mul
          (Float32.div (.finite (w.config.GetTierSettings stored.tier).cooldown) (.finite 86400))
          (.finite cal.timescale)) = true →
      (ActivateStoredGemSlot eng w index).1.serialization = w.serialization ∧
        castsMade (ActivateStoredGemSlot eng w index).1.events = castsMade w.events ∧
        ((eng.lookupSpell stored.spellId).isSome →
          (ActivateStoredGemSlot eng w index).2 = .onCooldown)) ∧
      (stored.lastUsedGameTime ≤ 0 → (ActivateStoredGemSlot eng w index).2 ≠ .onCooldown) ∧
      (Float32.lt
        (Float32.sub (.finite cal.currentGameTime) (.finite stored.lastUsedGameTime))
        (Float32.mul
          (Float32.div (.finite (w.config.GetTierSettings stored.tier).cooldown) (.finite 86400))
          (.finite cal.timescale)) = false →
        (ActivateStoredGemSlot eng w index).2 ≠ .onCooldown) := by
  have hcd : cooldownDays eng w.config stored =
      Float32.mul
        (Float32.div (.finite (w.config.GetTierSettings stored.tier).cooldown) (.finite 86400))
        (.finite cal.timescale) := by
    simp only [cooldownDays, hstar, hcal]
    norm_num
  have hnow : gameTimeNow eng = cal.currentGameTime := by simp [gameTimeNow, hcal]
  cases hsp : eng.lookupSpell stored.spellId with
  | none =>
    rw [ActivateStoredGemSlot_spell_missing eng w index key stored hslot hstored hsp]
    refine ⟨fun _ _ => ⟨rfl, rfl, fun h => by simp at h⟩, fun _ => by simp, fun _ => by simp⟩
  | some spell =>
    rw [ActivateStoredGemSlot_at_gate eng w index key stored spell hslot hstored hsp, hcd, hnow]
    refine ⟨?_, ?_, ?_⟩
    · intro hpos hlt
      rw [if_pos ⟨hpos, hlt⟩]
      refine ⟨rfl, ?_, fun _ => rfl⟩
      simp [LogMessage, World.emit, castsMade_append, RefreshStoredGemSlots, castsMade]
    · intro hle
      rw [if_neg (fun h => absurd h.1 (not_lt.2 hle))]
      cases w.player with
      | none => simp
      | some player => cases eng.lookupSoulGem key.baseId <;> simp
    · intro hge
      rw [if_neg (fun h => by rw [hge] at h; exact Bool.false_ne_true h.2)]
      cases w.player with
      | none => simp
      | some player => cases eng.lookupSoulGem key.baseId <;> simp

/-- C2 witness: the sample record, last used at game time `2 - 1/1024`,
activated at game time 2 and timescale 20. -/
theorem C2_cooldown_gate_for_used_records_witness :
    ((RefreshStoredGemSlots (sampleWorld Config.defaults
        (sampleRecord .Adept 6 (2 - 1 / 1024)))).manager.storedGemSlots_[0]? =
        some ⟨0xFF000800, 1⟩) ∧
      (sampleRecord .Adept 6 (2 - 1 / 1024)).lastUsedGameTime > 0 ∧
      Float32.lt
        (Float32.sub (.finite 2) (.finite (sampleRecord .Adept 6 (2 - 1 / 1024)).lastUsedGameTime))
        (Float32.mul
          (Float32.div (.finite (Config.defaults.GetTierSettings .Adept).cooldown)
            (.finite 86400))
          (.finite 20)) = true ∧
      (ActivateStoredGemSlot (sampleEngine (sampleGem .kCommon) 2)
        (sampleWorld Config.defaults (sampleRecord .Adept 6 (2 - 1 / 1024))) 0).1.serialization =
        (sampleWorld Config.defaults (sampleRecord .Adept 6 (2 - 1 / 1024))).serialization ∧
      (ActivateStoredGemSlot (sampleEngine (sampleGem .kCommon) 2)
        (sampleWorld Config.defaults (sampleRecord .Adept 6 (2 - 1 / 1024))) 0).2 = .onCooldown := by
  have h := (C2_cooldown_gate_for_used_records (sampleEngine (sampleGem .kCommon) 2)
    (sampleWorld Config.defaults (sampleRecord .Adept 6 (2 - 1 / 1024))) 0 ⟨0xFF000800, 1⟩
    (sampleRecord .Adept 6 (2 - 1 / 1024)) ⟨20, 2⟩ (by decide!) (by decide!) rfl rfl).1
    (by decide!) (by decide!)
  exact ⟨by decide!, by decide!, by decide!, h.1, h.2.2 (by decide!)⟩

/-- C2 counterexample, in two parts. First, a never-activated record
(`lastUsedGameTime = 0`, as capture writes it) in slot 0, at game time
`1/131072` and timescale 20, so `now - lastUsedGameTime` is less than the
Adept cooldown `12 / 86400 * 20`, in exact arithmetic and in single precision:
the activation is not rejected, the spell is cast and a use is consumed. Second, an Expert record (cooldown 20 s) last used
at game time `1/2048`, activated at game time `503899/2^28` and timescale 6:
the elapsed time `372827/2^28` is less than the cooldown `20 / 86400 * 6 =
1/720`, but in single precision the quotient `20 / 86400` rounds to
`7953643/2^35` and the cooldown to `372827/2^28`, which the elapsed time does
not undercut: the activation is not rejected, the spell is cast and a use is
consumed. -/
theorem C2_counterexample_never_used_record :
    (((RefreshStoredGemSlots (sampleWorld Config.defaults
        (sampleRecord .Adept 6 0))).manager.storedGemSlots_[0]? = some ⟨0xFF000800, 1⟩) ∧
      (sampleWorld Config.defaults (sampleRecord .Adept 6 0)).serialization.GetStoredSpell
        ⟨0xFF000800, 1⟩ = some (sampleRecord .Adept 6 0) ∧
      (sampleRecord .Adept 6 0).isReusableStar = false ∧
      (1 / 131072 : ℚ) - (sampleRecord .Adept 6 0).lastUsedGameTime <
        (Config.defaults.GetTierSettings .Adept).cooldown / 86400 * 20 ∧
      Float32.lt
        (Float32.sub (.finite (1 / 131072)) (.finite (sampleRecord .Adept 6 0).lastUsedGameTime))
        (cooldownDays (sampleEngine (sampleGem .kCommon) (1 / 131072)) Config.defaults
          (sampleRecord .Adept 6 0)) = true ∧
      (ActivateStoredGemSlot (sampleEngine (sampleGem .kCommon) (1 / 131072))
        (sampleWorld Config.defaults (sampleRecord .Adept 6 0)) 0).2 = .activated ∧
      castsMade (ActivateStoredGemSlot (sampleEngine (sampleGem .kCommon) (1 / 131072))
        (sampleWorld Config.defaults (sampleRecord .Adept 6 0)) 0).1.events = [0x1C789] ∧
      (ActivateStoredGemSlot (sampleEngine (sampleGem .kCommon) (1 / 131072))
        (sampleWorld Config.defaults (sampleRecord .Adept 6 0)) 0).1.serialization.GetStoredSpell
        ⟨0xFF000800, 1⟩ = some (sampleRecord .Adept 5 (1 / 131072))) ∧
    (((RefreshStoredGemSlots (sampleWorld Config.defaults
        (sampleRecord .Expert 4 (1 / 2048)))).manager.storedGemSlots_[0]? =
        some ⟨0xFF000800, 1⟩) ∧
      (sampleWorld Config.defaults (sampleRecord .Expert 4 (1 / 2048))).serialization.GetStoredSpell
        ⟨0xFF000800, 1⟩ = some (sampleRecord .Expert 4 (1 / 2048)) ∧
      (sampleRecord .Expert 4 (1 / 2048)).isReusableStar = false ∧
      (sampleRecord .Expert 4 (1 / 2048)).lastUsedGameTime > 0 ∧
      (503899 / 2 ^ 28 : ℚ) - (sampleRecord .Expert 4 (1 / 2048)).lastUsedGameTime <
        (Config.defaults.GetTierSettings .Expert).cooldown / 86400 * 6 ∧
      Float32.div (.finite (Config.defaults.GetTierSettings .Expert).cooldown) (.finite 86400) =
        .finite (7953643 / 2 ^ 35) ∧
      cooldownDays (sampleEngineAt (sampleGem .kCommon) 6 (503899 / 2 ^ 28)) Config.defaults
        (sampleRecord .Expert 4 (1 / 2048)) = .finite (372827 / 2 ^ 28) ∧
      Float32.sub (.finite (503899 / 2 ^ 28)) (.finite (1 / 2048)) = .finite (372827 / 2 ^ 28) ∧
      (ActivateStoredGemSlot (sampleEngineAt (sampleGem .kCommon) 6 (503899 / 2 ^ 28))
        (sampleWorld Config.defaults (sampleRecord .Expert 4 (1 / 2048))) 0).2 = .activated ∧
      castsMade (ActivateStoredGemSlot (sampleEngineAt (sampleGem .kCommon) 6 (503899 / 2 ^ 28))
        (sampleWorld Config.defaults (sampleRecord .Expert 4 (1 / 2048))) 0).1.events =
        [0x1C789] ∧
      (ActivateStoredGemSlot (sampleEngineAt (sampleGem .kCommon) 6 (503899 / 2 ^ 28))
        (sampleWorld Config.defaults
          (sampleRecord .Expert 4 (1 / 2048))) 0).1.serialization.GetStoredSpell
        ⟨0xFF000800, 1⟩ = some (sampleRecord .Expert 3 (503899 / 2 ^ 28))) := by
  refine ⟨?_, ?_⟩
  · decide!
  · decide!

/-- C3: whenever `ActivateStoredGemSlot` leaves through the cooldown exit, the
persistent store (all records and the id counter) is exactly as before the
call, the focus-session state (active slot, session token, cost-suppression
flag, and the saved channel, cost and magicka baseline) is unchanged, and so
are the player and the configuration; the only engine call is the notification. -/
theorem C3_cooldown_rejection_mutates_nothing (eng : Engine) (w : World) (index : Nat)
    (h : (ActivateStoredGemSlot eng w index).2 = .onCooldown) :
    (ActivateStoredGemSlot eng w index).1.serialization = w.serialization ∧
      (ActivateStoredGemSlot eng w index).1.manager.activeFocusSlot_ =
        w.manager.activeFocusSlot_ ∧
      (ActivateStoredGemSlot eng w index).1.manager.focusCastId_ = w.manager.focusCastId_ ∧
      (ActivateStoredGemSlot eng w index).1.manager.focusCostActive_ =
        w.manager.focusCostActive_ ∧
      (ActivateStoredGemSlot eng w index).1.manager.focusCasterSource_ =
        w.manager.focusCasterSource_ ∧
      (ActivateStoredGemSlot eng w index).1.manager.focusPreviousCost_ =
        w.manager.focusPreviousCost_ ∧
      (ActivateStoredGemSlot eng w index).1.manager.focusStartMagicka_ =
        w.manager.focusStartMagicka_ ∧
      (ActivateStoredGemSlot eng w index).1.player = w.player ∧
      (ActivateStoredGemSlot eng w index).1.config = w.config ∧
      (ActivateStoredGemSlot eng w index).1.events =
        w.events ++ [.notification "Stored spell gem is on cooldown."] := by
  cases hslot : (RefreshStoredGemSlots w).manager.storedGemSlots_[index]? with
  | none =>
    exfalso
    simp [ActivateStoredGemSlot, hslot] at h
  | some key =>
    cases hstored : w.serialization.GetStoredSpell key with
    | none =>
      exfalso
      have hstored2 : (RefreshStoredGemSlots w).serialization.GetStoredSpell key = none := hstored
      simp [ActivateStoredGemSlot, hslot, hstored2] at h
    | some stored =>
      cases hsp : eng.lookupSpell stored.spellId with
      | none =>
        exfalso
        rw [ActivateStoredGemSlot_spell_missing eng w index key stored hslot hstored hsp] at h
        simp at h
      | some spell =>
        rw [ActivateStoredGemSlot_at_gate eng w index key stored spell hslot hstored hsp] at h ⊢
        by_cases hgate : stored.lastUsedGameTime > 0 ∧
            Float32.lt (Float32.sub (.finite (gameTimeNow eng)) (.finite stored.lastUsedGameTime))
            (cooldownDays eng w.config stored)
        · rw [if_pos hgate]
          simp [LogMessage, World.emit, RefreshStoredGemSlots]
        · exfalso
          rw [if_neg hgate] at h
          cases hp : w.player with
          | none => simp [hp] at h
          | some player =>
            cases hg : eng.lookupSoulGem key.baseId <;> simp [hp, hg] at h

/-- C3 witness: the sample record, last used at game time `2 - 1/1024`, activated at game time 2. -/
theorem C3_cooldown_rejection_mutates_nothing_witness :
    (ActivateStoredGemSlot (sampleEngine (sampleGem .kCommon) 2)
        (sampleWorld Config.defaults (sampleRecord .Adept 6 (2 - 1 / 1024))) 0).2 = .onCooldown ∧
      (ActivateStoredGemSlot (sampleEngine (sampleGem .kCommon) 2)
        (sampleWorld Config.defaults (sampleRecord .Adept 6 (2 - 1 / 1024))) 0).1.serialization =
        (sampleWorld Config.defaults (sampleRecord .Adept 6 (2 - 1 / 1024))).serialization :=
  ⟨by decide!,
    (C3_cooldown_rejection_mutates_nothing (sampleEngine (sampleGem .kCommon) 2)
      (sampleWorld Config.defaults (sampleRecord .Adept 6 (2 - 1 / 1024))) 0 (by decide!)).1⟩

/-- A record with 0 or 1 uses left is deleted by `ConsumeStoredGemUse`, one
unit of the gem is removed and the fragments of the gem's tier are granted. -/
theorem ConsumeStoredGemUse_depleted (eng : Engine) (w : World) (baseGem : TESSoulGem)
    (k : GemKey) (d : StoredSpellData) (hplayer : w.player.isSome)
    (hspell : (eng.lookupSpell d.spellId).isSome) (h0 : 0 ≤ d.usesRemaining)
    (h1 : d.usesRemaining ≤ 1) :
    ConsumeStoredGemUse eng w baseGem k d =
      GrantFragmentsToPlayer eng
        (({ w with serialization := w.serialization.RemoveStoredSpell k } : World).emit
          (.removeItem baseGem.formID 1))
        (GetGemTier baseGem) := by
  obtain ⟨p, hp⟩ := Option.isSome_iff_exists.1 hplayer
  obtain ⟨sp, hsp⟩ := Option.isSome_iff_exists.1 hspell
  have hneg : ¬ d.usesRemaining < 0 := by omega
  have hle : d.usesRemaining - 1 ≤ 0 := by omega
  simp [ConsumeStoredGemUse, hneg, hp, hsp, hle]

/-- C4 (as amended): for a stored record with `usesRemaining = 1` whose slot
activation succeeds (slot in range, spell and gem identities resolve, not on
cooldown, player present, reward item resolvable and the configured count of
the gem's tier non-zero and below 2^31): after `ActivateStoredGemSlot` the
record's key is absent from the store, and exactly one reward grant was made,
whose amount is the configured reward-fragment count of the tier of the gem,
`GetGemTier`; it is the count of the record's stored tier when the two tiers
agree. -/
theorem C4_depletion_grants_gem_tier_fragments (eng : Engine) (w : World) (index : Nat)
    (key : GemKey) (stored : StoredSpellData) (spell : SpellItem) (baseGem : TESSoulGem)
    (hslot : (RefreshStoredGemSlots w).manager.storedGemSlots_[index]? = some key)
    (hstored : w.serialization.GetStoredSpell key = some stored)
    (huses : stored.usesRemaining = 1)
    (hspell : eng.lookupSpell stored.spellId = some spell)
    (hgem : eng.lookupSoulGem key.baseId = some baseGem)
    (hgate : ¬ (stored.lastUsedGameTime > 0 ∧
      Float32.lt (Float32.sub (.finite (gameTimeNow eng)) (.finite stored.lastUsedGameTime))
            (cooldownDays eng w.config stored)))
    (hplayer : w.player.isSome)
    (hform : eng.lookupMisc w.config.GetFragmentFormId = true)
    (hcount : w.config.GetFragmentCount (GetGemTier baseGem) ≠ 0)
    (hrange : w.config.GetFragmentCount (GetGemTier baseGem) < 2147483648) :
    (ActivateStoredGemSlot eng w index).2 = .activated ∧
      (ActivateStoredGemSlot eng w index).1.serialization.GetStoredSpell key = none ∧
      (ActivateStoredGemSlot eng w index).1.serialization.HasStoredSpell key = false ∧
      rewardGrants (ActivateStoredGemSlot eng w index).1.events =
        rewardGrants w.events ++
          [(w.config.GetFragmentFormId, (w.config.GetFragmentCount (GetGemTier baseGem) : Int))] ∧
      (GetGemTier baseGem = stored.tier →
        rewardGrants (ActivateStoredGemSlot eng w index).1.events =
          rewardGrants w.events ++
            [(w.config.GetFragmentFormId, (w.config.GetFragmentCount stored.tier : Int))]) := by
  have hcast : toInt32 (w.config.GetFragmentCount (GetGemTier baseGem)) =
      (w.config.GetFragmentCount (GetGemTier baseGem) : Int) := by
    unfold toInt32
    rw [Nat.mod_eq_of_lt (by omega), if_pos hrange]
  obtain ⟨p, hp⟩ := Option.isSome_iff_exists.1 hplayer
  obtain ⟨as, ac, ap, ag, _⟩ :=
    activateCast_frame (RefreshStoredGemSlots w) index key stored spell p
  have hp1 : (activateCast (RefreshStoredGemSlots w) index key stored spell p).player.isSome :=
    ap hplayer
  have hcons := ConsumeStoredGemUse_depleted eng
    (activateCast (RefreshStoredGemSlots w) index key stored spell p) baseGem key
    { stored with lastUsedGameTime := gameTimeNow eng } hp1 (by simp [hspell])
    (by simp [huses]) (by simp [huses])
  have hrun : ActivateStoredGemSlot eng w index =
      (RefreshStoredGemSlots
        (ConsumeStoredGemUse eng (activateCast (RefreshStoredGemSlots w) index key stored spell p)
          baseGem key { stored with lastUsedGameTime := gameTimeNow eng }), .activated) := by
    rw [ActivateStoredGemSlot_at_gate eng w index key stored spell hslot hstored hspell,
      if_neg hgate]
    simp only [hp, hgem]
  rw [hcons] at hrun
  generalize activateCast (RefreshStoredGemSlots w) index key stored spell p = W1 at *
  have as2 : W1.serialization = w.serialization := as
  have ac2 : W1.config = w.config := ac
  have ag2 : rewardGrants W1.events = rewardGrants w.events := ag
  generalize hW2 : (({ W1 with serialization := W1.serialization.RemoveStoredSpell key } :
    World).emit (.removeItem baseGem.formID 1)) = W2 at *
  have h2s : W2.serialization = w.serialization.RemoveStoredSpell key := by
    rw [← hW2, ← as2]
    rfl
  have h2c : W2.config = w.config := by
    rw [← hW2, ← ac2]
    rfl
  have h2p : W2.player.isSome := by
    rw [← hW2]
    exact hp1
  have h2g : rewardGrants W2.events = rewardGrants w.events := by
    rw [← hW2, ← ag2]
    simp [World.emit, rewardGrants_append, rewardGrants]
  have hg := GrantFragmentsToPlayer_grants eng W2 (GetGemTier baseGem)
    (by rw [h2c]; exact hcount) (by rw [h2c]; exact hform) h2p
  obtain ⟨gs, _⟩ := GrantFragmentsToPlayer_frame eng W2 (GetGemTier baseGem)
  have hgrant : rewardGrants (ActivateStoredGemSlot eng w index).1.events =
      rewardGrants w.events ++
        [(w.config.GetFragmentFormId,
          (w.config.GetFragmentCount (GetGemTier baseGem) : Int))] := by
    rw [hrun]
    show rewardGrants (GrantFragmentsToPlayer eng W2 (GetGemTier baseGem)).events = _
    rw [hg, h2c, h2g, hcast]
  have hser : (ActivateStoredGemSlot eng w index).1.serialization =
      w.serialization.RemoveStoredSpell key := by
    rw [hrun]
    show (GrantFragmentsToPlayer eng W2 (GetGemTier baseGem)).serialization = _
    rw [gs, h2s]
  refine ⟨by rw [hrun], ?_, ?_, hgrant, ?_⟩
  · rw [hser]
    exact mapFind_mapErase_self _ _
  · rw [hser]
    simp [Serialization.HasStoredSpell, mapContains, Serialization.RemoveStoredSpell,
      mapFind_mapErase_self]
  · intro htier
    rw [hgrant, htier]

/-- C4 witness: the sample record with one use left, last used at game time 1,
in a Common gem, activated at game time 2. -/
theorem C4_depletion_grants_gem_tier_fragments_witness :
    (ActivateStoredGemSlot (sampleEngine (sampleGem .kCommon) 2)
        (sampleWorld Config.defaults (sampleRecord .Adept 1 1)) 0).2 = .activated ∧
      (ActivateStoredGemSlot (sampleEngine (sampleGem .kCommon) 2)
        (sampleWorld Config.defaults (sampleRecord .Adept 1 1)) 0).1.serialization.GetStoredSpell
        ⟨0xFF000800, 1⟩ = none ∧
      rewardGrants (ActivateStoredGemSlot (sampleEngine (sampleGem .kCommon) 2)
        (sampleWorld Config.defaults (sampleRecord .Adept 1 1)) 0).1.events =
        rewardGrants (sampleWorld Config.defaults (sampleRecord .Adept 1 1)).events ++
          [((sampleWorld Config.defaults (sampleRecord .Adept 1 1)).config.GetFragmentFormId,
            ((sampleWorld Config.defaults (sampleRecord .Adept 1 1)).config.GetFragmentCount
              (GetGemTier (sampleGem .kCommon)) : Int))] := by
  have h := C4_depletion_grants_gem_tier_fragments (sampleEngine (sampleGem .kCommon) 2)
    (sampleWorld Config.defaults (sampleRecord .Adept 1 1)) 0 ⟨0xFF000800, 1⟩
    (sampleRecord .Adept 1 1) sampleSpell (sampleGem .kCommon) (by decide) (by decide)
    (by decide) (by decide) (by decide) (by decide!) (by decide) (by decide) (by decide)
    (by decide)
  exact ⟨h.1, h.2.1, h.2.2.2.1⟩

/-- C4 counterexample: with "allow any tier" enabled an Adept spell sits in a
Grand gem; the fragment counts are 1 for Adept and 3 for Master. The record has
one use left, was last used at game time 1 and is activated at game time 2
(cooldown elapsed): the activation succeeds, the key is absent afterwards and
one grant is made, of 3 fragments (the gem's tier), not of the 1 fragment
configured for the record's stored tier. -/
theorem C4_counterexample_gem_tier_differs :
    ((RefreshStoredGemSlots (sampleWorld
        ((Config.defaults.SetAllowAnyGemTier true).SetFragmentCount .Master 3)
        (sampleRecord .Adept 1 1))).manager.storedGemSlots_[0]? = some ⟨0xFF000800, 1⟩) ∧
      (sampleWorld ((Config.defaults.SetAllowAnyGemTier true).SetFragmentCount .Master 3)
        (sampleRecord .Adept 1 1)).serialization.GetStoredSpell ⟨0xFF000800, 1⟩ =
        some (sampleRecord .Adept 1 1) ∧
      (sampleRecord .Adept 1 1).usesRemaining = 1 ∧
      ((sampleEngine (sampleGem .kGrand) 2).lookupSpell (sampleRecord .Adept 1 1).spellId).isSome ∧
      ((sampleEngine (sampleGem .kGrand) 2).lookupSoulGem 0xFF000800).isSome ∧
      (sampleEngine (sampleGem .kGrand) 2).lookupMisc
        ((Config.defaults.SetAllowAnyGemTier true).SetFragmentCount .Master 3).GetFragmentFormId
        = true ∧
      ((Config.defaults.SetAllowAnyGemTier true).SetFragmentCount .Master 3).GetFragmentCount
        (sampleRecord .Adept 1 1).tier = 1 ∧
      (ActivateStoredGemSlot (sampleEngine (sampleGem .kGrand) 2)
        (sampleWorld ((Config.defaults.SetAllowAnyGemTier true).SetFragmentCount .Master 3)
          (sampleRecord .Adept 1 1)) 0).2 = .activated ∧
      (ActivateStoredGemSlot (sampleEngine (sampleGem .kGrand) 2)
        (sampleWorld ((Config.defaults.SetAllowAnyGemTier true).SetFragmentCount .Master 3)
          (sampleRecord .Adept 1 1)) 0).1.serialization.HasStoredSpell ⟨0xFF000800, 1⟩ = false ∧
      rewardGrants (ActivateStoredGemSlot (sampleEngine (sampleGem .kGrand) 2)
        (sampleWorld ((Config.defaults.SetAllowAnyGemTier true).SetFragmentCount .Master 3)
          (sampleRecord .Adept 1 1)) 0).1.events = [(0x00067181, 3)] := by
  decide!

/-! ## Theorems: save and load -/

theorem saveEntry_eq_entryFields (e : GemKey × StoredSpellData) :
    Serialization.saveEntry e = entryFields kSerializationVersion e := rfl

/-- One iteration of the load loop on the fields of one entry. -/
theorem loadEntry_entryFields (version : Nat) (resolve : Nat → Option Nat) (m : StoredSpells)
    (e : GemKey × StoredSpellData) (rest : List Field) :
    Serialization.loadEntry version resolve (m, entryFields version e ++ rest) =
      (emplaceAll m (resolveEntry version resolve e).toList, rest) := by
  obtain ⟨k, d⟩ := e
  by_cases h2 : version ≥ 2 <;> by_cases h3 : version ≥ 3 <;>
    cases hs : resolve d.spellId <;> cases hg : resolve k.baseId <;>
    simp [Serialization.loadEntry, entryFields, readU32, readU16, readTier, readI32, readF32,
      readBool, resolveEntry, emplaceAll, h2, h3, hs, hg, GemKey.zero, StoredSpellData.zero]

theorem emplaceAll_append (m : StoredSpells) (a b : List (GemKey × StoredSpellData)) :
    emplaceAll m (a ++ b) = emplaceAll (emplaceAll m a) b := by
  simp [emplaceAll, List.foldl_append]

/-- The load loop on the fields of a list of entries. -/
theorem loadEntries_entryFields (version : Nat) (resolve : Nat → Option Nat)
    (es : List (GemKey × StoredSpellData)) (m : StoredSpells) (rest : List Field) :
    Serialization.loadEntries version resolve es.length
        (m, es.flatMap (entryFields version) ++ rest) =
      (emplaceAll m (es.filterMap (resolveEntry version resolve)), rest) := by
  induction es generalizing m with
  | nil => simp [Serialization.loadEntries, emplaceAll]
  | cons e es ih =>
    simp only [List.length_cons, Serialization.loadEntries, List.flatMap_cons, List.append_assoc]
    rw [loadEntry_entryFields, ih]
    congr 1
    cases hr : resolveEntry version resolve e with
    | none => simp [List.filterMap_cons, hr, emplaceAll]
    | some kd => simp [List.filterMap_cons, hr, emplaceAll]

theorem mapFind_append (a b : StoredSpells) (k : GemKey) :
    mapFind (a ++ b) k = (mapFind a k).orElse fun _ => mapFind b k := by
  induction a with
  | nil => simp [mapFind]
  | cons e a ih =>
    obtain ⟨k0, d0⟩ := e
    by_cases h : k0 = k
    · simp [mapFind, h]
    · simp [mapFind, h, ih]

theorem mapFind_mapEmplace (m : StoredSpells) (k : GemKey) (d : StoredSpellData) (k2 : GemKey) :
    mapFind (mapEmplace m k d) k2 = (mapFind m k2).orElse fun _ => mapFind [(k, d)] k2 := by
  unfold mapEmplace mapContains
  cases hm : mapFind m k with
  | none => simp [mapFind_append]
  | some x =>
    simp only [Option.isSome_some, if_true]
    by_cases h : k = k2
    · subst h
      simp [hm]
    · cases mapFind m k2 <;> simp [mapFind, h]

/-- Lookup after emplacing a list of entries: the first match wins. -/
theorem mapFind_emplaceAll (m : StoredSpells) (l : List (GemKey × StoredSpellData))
    (k : GemKey) : mapFind (emplaceAll m l) k = (mapFind m k).orElse fun _ => mapFind l k := by
  induction l generalizing m with
  | nil => cases hm : mapFind m k <;> simp [emplaceAll, mapFind, hm]
  | cons e l ih =>
    obtain ⟨k0, d0⟩ := e
    have hstep : emplaceAll m ((k0, d0) :: l) = emplaceAll (mapEmplace m k0 d0) l := rfl
    rw [hstep, ih, mapFind_mapEmplace]
    cases mapFind m k with
    | some x => simp
    | none =>
      by_cases h : k0 = k
      · simp [mapFind, h]
      · simp [mapFind, h]

theorem mapFind_eq_none_of_not_mem (m : StoredSpells) (k : GemKey)
    (h : k ∉ m.map fun e => e.1) : mapFind m k = none := by
  induction m with
  | nil => rfl
  | cons e m ih =>
    obtain ⟨k0, d0⟩ := e
    simp only [List.map_cons, List.mem_cons, not_or] at h
    simp [mapFind, Ne.symm h.1, ih h.2]

/-- In a list with pairwise distinct keys, lookup is membership. -/
theorem mapFind_eq_some_iff_mem (m : StoredSpells) (hnd : (m.map fun e => e.1).Nodup)
    (k : GemKey) (d : StoredSpellData) : mapFind m k = some d ↔ (k, d) ∈ m := by
  induction m with
  | nil => simp [mapFind]
  | cons e m ih =>
    obtain ⟨k0, d0⟩ := e
    simp only [List.map_cons, List.nodup_cons] at hnd
    by_cases h : k0 = k
    · subst h
      simp only [mapFind, if_true, Option.some.injEq, List.mem_cons, Prod.mk.injEq, true_and]
      constructor
      · intro hd
        exact Or.inl hd.symm
      · rintro (hd | hmem)
        · exact hd.symm
        · exact absurd (List.mem_map_of_mem (fun e => e.1) hmem) hnd.1
    · simp only [mapFind, h, if_false, List.mem_cons, Prod.mk.injEq]
      rw [ih hnd.2]
      constructor
      · exact Or.inr
      · rintro (⟨hk, _⟩ | hmem)
        · exact absurd hk.symm h
        · exact hmem

/-- Emplacing entries with pairwise distinct keys, none of them present, appends them. -/
theorem emplaceAll_eq_append (m : StoredSpells) (l : List (GemKey × StoredSpellData))
    (hnd : ((m ++ l).map fun e => e.1).Nodup) : emplaceAll m l = m ++ l := by
  induction l generalizing m with
  | nil => simp [emplaceAll]
  | cons e l ih =>
    obtain ⟨k0, d0⟩ := e
    have hstep : emplaceAll m ((k0, d0) :: l) = emplaceAll (mapEmplace m k0 d0) l := rfl
    have hk0 : k0 ∉ m.map fun e => e.1 := by
      intro hmem
      rw [List.map_append, List.nodup_append] at hnd
      exact hnd.2.2 hmem (by simp)
    have hem : mapEmplace m k0 d0 = m ++ [(k0, d0)] := by
      simp [mapEmplace, mapContains, mapFind_eq_none_of_not_mem m k0 hk0]
    rw [hstep, hem, ih _ (by simpa using hnd)]
    simp

theorem loadRecord_other (resolve : Nat → Option Nat) (s : Serialization) (r : Record)
    (h : r.type ≠ kRecordSpells) :
    (Serialization.loadRecord resolve s r).storedSpells_ = s.storedSpells_ := by
  obtain ⟨type, version, data⟩ := r
  have h2 : type ≠ kRecordSpells := h
  simp only [Serialization.loadRecord, h2, if_false]
  split_ifs <;> rfl

theorem foldl_loadRecord_other (resolve : Nat → Option Nat) (rs : List Record)
    (s : Serialization) (h : ∀ r ∈ rs, r.type ≠ kRecordSpells) :
    (rs.foldl (Serialization.loadRecord resolve) s).storedSpells_ = s.storedSpells_ := by
  induction rs generalizing s with
  | nil => rfl
  | cons r rs ih =>
    rw [List.foldl_cons, ih _ (fun x hx => h x (List.mem_cons_of_mem _ hx)),
      loadRecord_other resolve s r (h r (List.mem_cons_self _ _))]

theorem loadRecord_spellsRecord (resolve : Nat → Option Nat) (s : Serialization)
    (version : Nat) (es : List (GemKey × StoredSpellData)) :
    (Serialization.loadRecord resolve s (spellsRecord version es)).storedSpells_ =
      emplaceAll s.storedSpells_ (es.filterMap (resolveEntry version resolve)) := by
  have h := loadEntries_entryFields version resolve es s.storedSpells_ []
  rw [List.append_nil] at h
  have hne : kRecordSpells ≠ kRecordState := by decide
  simp [Serialization.loadRecord, spellsRecord, hne, readU32, h]

/-- The store after loading a stream with one spell record. -/
theorem Load_single_spellsRecord (s : Serialization) (version : Nat)
    (es : List (GemKey × StoredSpellData)) (before after : List Record)
    (resolve : Nat → Option Nat) (openRecord : Nat → Bool)
    (hbefore : ∀ r ∈ before, r.type ≠ kRecordSpells)
    (hafter : ∀ r ∈ after, r.type ≠ kRecordSpells) :
    (s.Load (some { records := before ++ spellsRecord version es :: after,
                    ResolveFormID := resolve, OpenRecord := openRecord })).storedSpells_ =
      emplaceAll [] (es.filterMap (resolveEntry version resolve)) := by
  simp only [Serialization.Load, List.foldl_append, List.foldl_cons]
  rw [foldl_loadRecord_other resolve after _ hafter, loadRecord_spellsRecord,
    foldl_loadRecord_other resolve before _ hbefore]

theorem mem_filterMap_resolveEntry (version : Nat) (resolve : Nat → Option Nat)
    (es : List (GemKey × StoredSpellData)) (k : GemKey) (d : StoredSpellData) :
    (k, d) ∈ es.filterMap (resolveEntry version resolve) ↔
      ∃ e ∈ es, ∃ spell gem, resolve e.2.spellId = some spell ∧ resolve e.1.baseId = some gem ∧
        k = { baseId := gem, uniqueId := e.1.uniqueId } ∧
        d = { e.2 with
              spellId := spell
              isReusableStar := decide (version ≥ 2) && e.2.isReusableStar
              isBlackSoulGem := decide (version ≥ 3) && e.2.isBlackSoulGem } := by
  simp only [List.mem_filterMap]
  constructor
  · rintro ⟨e, he, hr⟩
    refine ⟨e, he, ?_⟩
    unfold resolveEntry at hr
    cases hs : resolve e.2.spellId with
    | none => simp [hs] at hr
    | some spell =>
      cases hg : resolve e.1.baseId with
      | none => simp [hs, hg] at hr
      | some gem =>
        simp only [hs, hg, Option.some.injEq, Prod.mk.injEq] at hr
        exact ⟨spell, gem, rfl, rfl, hr.1.symm, hr.2.symm⟩
  · rintro ⟨e, he, spell, gem, hs, hg, hk, hd⟩
    refine ⟨e, he, ?_⟩
    simp [resolveEntry, hs, hg, hk, hd]

/-- The flags `Load` gives a record it reads from a record of version `version`. -/
theorem loadEntry_flags (version : Nat) (resolve : Nat → Option Nat)
    (st : StoredSpells × List Field)
    (hst : ∀ e ∈ st.1, (version < 2 → e.2.isReusableStar = false) ∧
      (version < 3 → e.2.isBlackSoulGem = false)) :
    ∀ e ∈ (Serialization.loadEntry version resolve st).1,
      (version < 2 → e.2.isReusableStar = false) ∧ (version < 3 → e.2.isBlackSoulGem = false) := by
  unfold Serialization.loadEntry
  simp only []
  generalize readU32 GemKey.zero.baseId st.2 = r1
  obtain ⟨baseId, fs1⟩ := r1
  generalize readU16 GemKey.zero.uniqueId fs1 = r2
  obtain ⟨uniqueId, fs2⟩ := r2
  generalize readU32 StoredSpellData.zero.spellId fs2 = r3
  obtain ⟨spellId, fs3⟩ := r3
  generalize readTier StoredSpellData.zero.tier fs3 = r4
  obtain ⟨tier, fs4⟩ := r4
  generalize readI32 StoredSpellData.zero.usesRemaining fs4 = r5
  obtain ⟨uses, fs5⟩ := r5
  generalize readF32 StoredSpellData.zero.lastUsedGameTime fs5 = r6
  obtain ⟨lastUsed, fs6⟩ := r6
  simp only []
  generalize hr7 : (if version ≥ 2 then readBool StoredSpellData.zero.isReusableStar fs6
    else (false, fs6)) = r7
  obtain ⟨star, fs7⟩ := r7
  simp only []
  generalize hr8 : (if version ≥ 3 then readBool StoredSpellData.zero.isBlackSoulGem fs7
    else (false, fs7)) = r8
  obtain ⟨black, fs8⟩ := r8
  simp only []
  have hstar : version < 2 → star = false := by
    intro hv
    rw [if_neg (by omega)] at hr7
    exact (congrArg Prod.fst hr7).symm
  have hblack : version < 3 → black = false := by
    intro hv
    rw [if_neg (by omega)] at hr8
    exact (congrArg Prod.fst hr8).symm
  cases resolve spellId with
  | none => exact hst
  | some resolvedSpell =>
    cases resolve baseId with
    | none => exact hst
    | some resolvedGem =>
      simp only [mapEmplace]
      split_ifs
      · exact hst
      · intro e he
        rcases List.mem_append.1 he with he | he
        · exact hst e he
        · rw [List.mem_singleton] at he
          subst he
          exact ⟨hstar, hblack⟩

theorem loadEntries_flags (version : Nat) (resolve : Nat → Option Nat) (n : Nat)
    (st : StoredSpells × List Field)
    (hst : ∀ e ∈ st.1, (version < 2 → e.2.isReusableStar = false) ∧
      (version < 3 → e.2.isBlackSoulGem = false)) :
    ∀ e ∈ (Serialization.loadEntries version resolve n st).1,
      (version < 2 → e.2.isReusableStar = false) ∧ (version < 3 → e.2.isBlackSoulGem = false) := by
  induction n generalizing st with
  | zero => exact hst
  | succ n ih => exact ih _ (loadEntry_flags version resolve st hst)

/-- Loading records whose versions are all `version` only produces records
with the flags that version lacks set to false. -/
theorem foldl_loadRecord_flags (version : Nat) (resolve : Nat → Option Nat) (rs : List Record)
    (s : Serialization) (hrs : ∀ r ∈ rs, r.version = version)
    (hs : ∀ e ∈ s.storedSpells_, (version < 2 → e.2.isReusableStar = false) ∧
      (version < 3 → e.2.isBlackSoulGem = false)) :
    ∀ e ∈ (rs.foldl (Serialization.loadRecord resolve) s).storedSpells_,
      (version < 2 → e.2.isReusableStar = false) ∧ (version < 3 → e.2.isBlackSoulGem = false) := by
  induction rs generalizing s with
  | nil => exact hs
  | cons r rs ih =>
    rw [List.foldl_cons]
    refine ih _ (fun x hx => hrs x (List.mem_cons_of_mem _ hx)) ?_
    have hv : r.version = version := hrs r (List.mem_cons_self _ _)
    obtain ⟨type, rversion, data⟩ := r
    simp only at hv
    subst hv
    simp only [Serialization.loadRecord]
    split_ifs
    · exact hs
    · exact loadEntries_flags rversion resolve _ _ hs
    · exact hs

theorem kRecordState_ne_kRecordSpells : kRecordState ≠ kRecordSpells := by decide

theorem resolveEntry_identity (e : GemKey × StoredSpellData) :
    resolveEntry kSerializationVersion some e = some e := by
  obtain ⟨k, d⟩ := e
  simp [resolveEntry, kSerializationVersion]

/-- What `Save` writes when both records open and the count fits 32 bits. -/
theorem Save_records (s : Serialization) (w : SerializationInterface)
    (hstate : w.OpenRecord kRecordState = true) (hspells : w.OpenRecord kRecordSpells = true)
    (hsize : s.storedSpells_.length < 4294967296) :
    s.Save (some w) =
      [{ type := kRecordState, version := kSerializationVersion,
         data := [Field.u16 s.nextUniqueId_] }] ++
        spellsRecord kSerializationVersion s.storedSpells_ :: [] := by
  have hfm : s.storedSpells_.flatMap Serialization.saveEntry =
      s.storedSpells_.flatMap (entryFields kSerializationVersion) := rfl
  simp [Serialization.Save, hstate, hspells, spellsRecord, Nat.mod_eq_of_lt hsize, hfm]

/-- C6: `Save` followed by `Load` is the identity on the store. For every store
`s` (with fewer than 2^32 records, the range of the 32-bit count field) saved
through a channel on which both records open, loading the written version-3
stream with the identity resolver into any store yields the same record under
every key (all six fields equal), the same next-instance-id counter, and the
same set of entries. -/
theorem C6_save_load_roundtrip (s target : Serialization) (w : SerializationInterface)
    (openRecord : Nat → Bool)
    (hstate : w.OpenRecord kRecordState = true) (hspells : w.OpenRecord kRecordSpells = true)
    (hsize : s.storedSpells_.length < 4294967296) :
    (∀ key, (target.Load (some ⟨s.Save (some w), some, openRecord⟩)).GetStoredSpell key = s.GetStoredSpell key) ∧
      (target.Load (some ⟨s.Save (some w), some, openRecord⟩)).nextUniqueId_ = s.nextUniqueId_ ∧
      ((s.GetStoredSpells.map fun e => e.1).Nodup →
        (target.Load (some ⟨s.Save (some w), some, openRecord⟩)).GetStoredSpells.Perm s.GetStoredSpells) := by
  rw [Save_records s w hstate hspells hsize]
  have hstore := Load_single_spellsRecord target kSerializationVersion s.storedSpells_
    [{ type := kRecordState, version := kSerializationVersion,
       data := [Field.u16 s.nextUniqueId_] }] [] some openRecord
    (by intro r hr; rw [List.mem_singleton] at hr; subst hr; exact kRecordState_ne_kRecordSpells)
    (by simp)
  have hid : s.storedSpells_.filterMap (resolveEntry kSerializationVersion some) =
      s.storedSpells_ := by
    rw [List.filterMap_congr (fun e _ => resolveEntry_identity e), List.filterMap_some]
  rw [hid] at hstore
  refine ⟨?_, ?_, ?_⟩
  · intro key
    unfold Serialization.GetStoredSpell
    rw [hstore, mapFind_emplaceAll]
    simp [mapFind]
  · have hne : kRecordSpells ≠ kRecordState := by decide
    simp [Serialization.Load, Serialization.loadRecord, spellsRecord, readU16, hne]
  · intro hnd
    have happ := emplaceAll_eq_append [] s.storedSpells_ (by rw [List.nil_append]; exact hnd)
    rw [happ, List.nil_append] at hstore
    exact List.Perm.of_eq hstore

/-- C6 witness: the three sample entries, saved and loaded into a fresh store. -/
theorem C6_save_load_roundtrip_witness :
    (Serialization.fresh.Load (some
        ⟨Serialization.Save { storedSpells_ := sampleEntries, nextUniqueId_ := 4 }
            (some ⟨[], some, fun _ => true⟩), some, fun _ => true⟩)).nextUniqueId_ = 4 ∧
      ((sampleEntries.map fun e => e.1).Nodup →
        (Serialization.fresh.Load (some
          ⟨Serialization.Save { storedSpells_ := sampleEntries, nextUniqueId_ := 4 }
              (some ⟨[], some, fun _ => true⟩), some, fun _ => true⟩)).GetStoredSpells.Perm
          sampleEntries) :=
  (C6_save_load_roundtrip { storedSpells_ := sampleEntries, nextUniqueId_ := 4 }
    Serialization.fresh ⟨[], some, fun _ => true⟩
    (fun _ => true) rfl rfl (by decide)).2

/-- C8: for a stream whose spell record holds the entries `es` (in any format
version, among other records) and a resolver under which the
resolved keys are pairwise distinct, the store after `Load` holds under key `k`
the record `d` exactly when some entry's spell and gem identities both resolve,
`k` is the resolved gem identity with the entry's unique id and `d` is the
entry with the resolved spell identity (flags the version lacks false). So an
entry that fails to resolve is absent, and the entries after it are read with
the values written: the store is a permutation of the resolved entries. -/
theorem C8_load_keeps_exactly_resolved_records (s : Serialization) (version : Nat)
    (es : List (GemKey × StoredSpellData)) (before after : List Record)
    (resolve : Nat → Option Nat) (openRecord : Nat → Bool)
    (hbefore : ∀ r ∈ before, r.type ≠ kRecordSpells)
    (hafter : ∀ r ∈ after, r.type ≠ kRecordSpells)
    (hdistinct : ((es.filterMap (resolveEntry version resolve)).map fun e => e.1).Nodup) :
    (∀ k d, (s.Load (some ⟨before ++ spellsRecord version es :: after, resolve, openRecord⟩)).GetStoredSpell k = some d ↔
        ∃ e ∈ es, ∃ spell gem, resolve e.2.spellId = some spell ∧
          resolve e.1.baseId = some gem ∧
          k = { baseId := gem, uniqueId := e.1.uniqueId } ∧
          d = { e.2 with
                spellId := spell
                isReusableStar := decide (version ≥ 2) && e.2.isReusableStar
                isBlackSoulGem := decide (version ≥ 3) && e.2.isBlackSoulGem }) ∧
      (s.Load (some ⟨before ++ spellsRecord version es :: after, resolve, openRecord⟩)).GetStoredSpells.Perm
        (es.filterMap (resolveEntry version resolve)) := by
  have hstore := Load_single_spellsRecord s version es before after resolve openRecord
    hbefore hafter
  rw [emplaceAll_eq_append [] _ (by simpa using hdistinct), List.nil_append] at hstore
  unfold Serialization.GetStoredSpell Serialization.GetStoredSpells
  rw [hstore]
  refine ⟨fun k d => ?_, List.Perm.refl _⟩
  rw [mapFind_eq_some_iff_mem _ hdistinct, mem_filterMap_resolveEntry]

/-- C8 witness: the three sample entries in a version-3 record after a state
record, loaded with a resolver that fails on the second entry's spell. -/
theorem C8_load_keeps_exactly_resolved_records_witness :
    ((sampleEntries.filterMap (resolveEntry 3 sampleResolver)).map fun e => e.1).Nodup ∧
      (Serialization.fresh.Load (some
        ⟨[{ type := kRecordState, version := 3, data := [Field.u16 4] }] ++
            spellsRecord 3 sampleEntries :: [], sampleResolver, fun _ => true⟩)).GetStoredSpells.Perm
        (sampleEntries.filterMap (resolveEntry 3 sampleResolver)) :=
  ⟨by decide,
    (C8_load_keeps_exactly_resolved_records Serialization.fresh 3 sampleEntries
      [{ type := kRecordState, version := 3, data := [Field.u16 4] }] [] sampleResolver
      (fun _ => true) (by decide) (by decide) (by decide)).2⟩

theorem resolveEntry_some (version : Nat) (e : GemKey × StoredSpellData) :
    resolveEntry version some e =
      some (e.1, { e.2 with
        isReusableStar := decide (version ≥ 2) && e.2.isReusableStar
        isBlackSoulGem := decide (version ≥ 3) && e.2.isBlackSoulGem }) := by
  obtain ⟨k, d⟩ := e
  simp [resolveEntry]

theorem resolved_keys_identity (version : Nat) (es : List (GemKey × StoredSpellData)) :
    ((es.filterMap (resolveEntry version some)).map fun e => e.1) = es.map fun e => e.1 := by
  induction es with
  | nil => rfl
  | cons e es ih =>
    rw [List.filterMap_cons, resolveEntry_some]
    simp only [List.map_cons, ih]

theorem readU32_rest (old : Nat) (fs : List Field) : (readU32 old fs).2 = fs.drop 1 := by
  rcases fs with _ | ⟨f, r⟩
  · rfl
  · cases f <;> rfl

theorem readU16_rest (old : Nat) (fs : List Field) : (readU16 old fs).2 = fs.drop 1 := by
  rcases fs with _ | ⟨f, r⟩
  · rfl
  · cases f <;> rfl

theorem readTier_rest (old : SpellTier) (fs : List Field) :
    (readTier old fs).2 = fs.drop 1 := by
  rcases fs with _ | ⟨f, r⟩
  · rfl
  · cases f <;> rfl

theorem readI32_rest (old : Int) (fs : List Field) : (readI32 old fs).2 = fs.drop 1 := by
  rcases fs with _ | ⟨f, r⟩
  · rfl
  · cases f <;> rfl

theorem readF32_rest (old : ℚ) (fs : List Field) : (readF32 old fs).2 = fs.drop 1 := by
  rcases fs with _ | ⟨f, r⟩
  · rfl
  · cases f <;> rfl

theorem readBool_rest (old : Bool) (fs : List Field) : (readBool old fs).2 = fs.drop 1 := by
  rcases fs with _ | ⟨f, r⟩
  · rfl
  · cases f <;> rfl

theorem readBool_if_rest (c : Prop) [Decidable c] (old : Bool) (fs : List Field) :
    (if c then readBool old fs else (false, fs)).2 = fs.drop (if c then 1 else 0) := by
  split_ifs
  · exact readBool_rest old fs
  · rfl

/-- The number of fields one iteration of the load loop takes from a record of
the given version, whatever the fields hold. -/
theorem loadEntry_consumes (version : Nat) (resolve : Nat → Option Nat)
    (st : StoredSpells × List Field) :
    (Serialization.loadEntry version resolve st).2 =
      st.2.drop (6 + (if version ≥ 2 then 1 else 0) + (if version ≥ 3 then 1 else 0)) := by
  have h1 := readU32_rest GemKey.zero.baseId st.2
  unfold Serialization.loadEntry
  simp only []
  generalize readU32 GemKey.zero.baseId st.2 = r1 at h1 ⊢
  obtain ⟨baseId, fs1⟩ := r1
  have h2 := readU16_rest GemKey.zero.uniqueId fs1
  generalize readU16 GemKey.zero.uniqueId fs1 = r2 at h2 ⊢
  obtain ⟨uniqueId, fs2⟩ := r2
  have h3 := readU32_rest StoredSpellData.zero.spellId fs2
  generalize readU32 StoredSpellData.zero.spellId fs2 = r3 at h3 ⊢
  obtain ⟨spellId, fs3⟩ := r3
  have h4 := readTier_rest StoredSpellData.zero.tier fs3
  generalize readTier StoredSpellData.zero.tier fs3 = r4 at h4 ⊢
  obtain ⟨tier, fs4⟩ := r4
  have h5 := readI32_rest StoredSpellData.zero.usesRemaining fs4
  generalize readI32 StoredSpellData.zero.usesRemaining fs4 = r5 at h5 ⊢
  obtain ⟨uses, fs5⟩ := r5
  have h6 := readF32_rest StoredSpellData.zero.lastUsedGameTime fs5
  generalize readF32 StoredSpellData.zero.lastUsedGameTime fs5 = r6 at h6 ⊢
  obtain ⟨lastUsed, fs6⟩ := r6
  simp only []
  have h7 := readBool_if_rest (version ≥ 2) StoredSpellData.zero.isReusableStar fs6
  generalize (if version ≥ 2 then readBool StoredSpellData.zero.isReusableStar fs6
    else (false, fs6)) = r7 at h7 ⊢
  obtain ⟨star, fs7⟩ := r7
  simp only []
  have h8 := readBool_if_rest (version ≥ 3) StoredSpellData.zero.isBlackSoulGem fs7
  generalize (if version ≥ 3 then readBool StoredSpellData.zero.isBlackSoulGem fs7
    else (false, fs7)) = r8 at h8 ⊢
  obtain ⟨black, fs8⟩ := r8
  simp only [] at h1 h2 h3 h4 h5 h6 h7 h8 ⊢
  have hall : fs8 =
      st.2.drop (6 + (if version ≥ 2 then 1 else 0) + (if version ≥ 3 then 1 else 0)) := by
    rw [h8, h7, h6, h5, h4, h3, h2, h1]
    simp only [List.drop_drop]
  cases resolve spellId with
  | none => exact hall
  | some resolvedSpell =>
    cases resolve baseId with
    | none => exact hall
    | some resolvedGem => exact hall

/-- C7: every record `Load` produces from a stream of version-1 records has
both flags false, whatever the fields hold, and every record produced from a
stream of version-2 records has `isBlackSoulGem = false`. For a spell record
holding entries with pairwise distinct keys (identities resolving to
themselves), the store loaded from its version-1 form holds exactly the
entries with both flags false, and from its version-2 form exactly the entries
with `isReusableStar` as written and `isBlackSoulGem` false, so every entry,
also after the first, is read with the field values written. No field is
consumed for a flag the version lacks: one iteration of the load loop takes
six fields from a version-1 record, seven from a version-2 record and eight
from a later one, whatever the fields hold, and run on the fields of one entry
of its version followed by `rest` it leaves exactly `rest` unread (a loader
that read a flag the version lacks would take the first field of `rest`). -/
theorem C7_old_versions_default_flags (s : Serialization)
    (es : List (GemKey × StoredSpellData)) (before after : List Record)
    (resolve : Nat → Option Nat) (openRecord : Nat → Bool)
    (hbefore : ∀ r ∈ before, r.type ≠ kRecordSpells)
    (hafter : ∀ r ∈ after, r.type ≠ kRecordSpells)
    (hdistinct : (es.map fun e => e.1).Nodup) :
    (∀ records : List Record, (∀ r ∈ records, r.version = 1) →
        ∀ e ∈ (s.Load (some ⟨records, resolve, openRecord⟩)).GetStoredSpells,
          e.2.isReusableStar = false ∧ e.2.isBlackSoulGem = false) ∧
      (∀ records : List Record, (∀ r ∈ records, r.version = 2) →
        ∀ e ∈ (s.Load (some ⟨records, resolve, openRecord⟩)).GetStoredSpells,
          e.2.isBlackSoulGem = false) ∧
      (∀ k d, (s.Load (some ⟨before ++ spellsRecord 1 es :: after, some,
            openRecord⟩)).GetStoredSpell k = some d ↔
          ∃ e ∈ es, k = e.1 ∧
            d = { e.2 with isReusableStar := false, isBlackSoulGem := false }) ∧
      (∀ k d, (s.Load (some ⟨before ++ spellsRecord 2 es :: after, some,
            openRecord⟩)).GetStoredSpell k = some d ↔
          ∃ e ∈ es, k = e.1 ∧ d = { e.2 with isBlackSoulGem := false }) ∧
      (∀ (version : Nat) (m : StoredSpells) (fs : List Field),
        (Serialization.loadEntry version resolve (m, fs)).2 =
          fs.drop (6 + (if version ≥ 2 then 1 else 0) + (if version ≥ 3 then 1 else 0))) ∧
      (∀ (version : Nat) (m : StoredSpells) (e : GemKey × StoredSpellData) (rest : List Field),
        Serialization.loadEntry version resolve (m, entryFields version e ++ rest) =
          (emplaceAll m (resolveEntry version resolve e).toList, rest)) := by
  have hkeys : ∀ version, ((es.filterMap (resolveEntry version some)).map fun e => e.1) =
      es.map fun e => e.1 := fun version => resolved_keys_identity version es
  have hload : ∀ version, (s.Load (some ⟨before ++ spellsRecord version es :: after, some,
      openRecord⟩)).storedSpells_ = es.filterMap (resolveEntry version some) := by
    intro version
    rw [Load_single_spellsRecord s version es before after some openRecord hbefore hafter,
      emplaceAll_eq_append [] _ (by rw [List.nil_append, hkeys]; exact hdistinct),
      List.nil_append]
  refine ⟨?_, ?_, ?_, ?_, fun version m fs => loadEntry_consumes version resolve (m, fs),
    fun version m e rest => loadEntry_entryFields version resolve m e rest⟩
  · intro records hv e he
    have h := foldl_loadRecord_flags 1 resolve records { s with storedSpells_ := [] } hv
      (by simp) e he
    exact ⟨h.1 (by decide), h.2 (by decide)⟩
  · intro records hv e he
    have h := foldl_loadRecord_flags 2 resolve records { s with storedSpells_ := [] } hv
      (by simp) e he
    exact h.2 (by decide)
  · intro k d
    unfold Serialization.GetStoredSpell
    rw [hload 1, mapFind_eq_some_iff_mem _ (by rw [hkeys]; exact hdistinct),
      mem_filterMap_resolveEntry]
    constructor
    · rintro ⟨e, he, spell, gem, hs, hg, hk, hd⟩
      cases hs
      cases hg
      exact ⟨e, he, hk, by simpa using hd⟩
    · rintro ⟨e, he, hk, hd⟩
      exact ⟨e, he, e.2.spellId, e.1.baseId, rfl, rfl, hk, by simpa using hd⟩
  · intro k d
    unfold Serialization.GetStoredSpell
    rw [hload 2, mapFind_eq_some_iff_mem _ (by rw [hkeys]; exact hdistinct),
      mem_filterMap_resolveEntry]
    constructor
    · rintro ⟨e, he, spell, gem, hs, hg, hk, hd⟩
      cases hs
      cases hg
      exact ⟨e, he, hk, by simpa using hd⟩
    · rintro ⟨e, he, hk, hd⟩
      exact ⟨e, he, e.2.spellId, e.1.baseId, rfl, rfl, hk, by simpa using hd⟩

/-- C7 witness: the three sample entries (the second with `isBlackSoulGem`, the
third with `isReusableStar` set) in a version-1 record after a state record. -/
theorem C7_old_versions_default_flags_witness :
    (sampleEntries.map fun e => e.1).Nodup ∧
      (∀ k d, (Serialization.fresh.Load (some
            ⟨[{ type := kRecordState, version := 1, data := [Field.u16 4] }] ++
              spellsRecord 1 sampleEntries :: [], some, fun _ => true⟩)).GetStoredSpell k
            = some d ↔
          ∃ e ∈ sampleEntries, k = e.1 ∧
            d = { e.2 with isReusableStar := false, isBlackSoulGem := false }) :=
  ⟨by decide,
    (C7_old_versions_default_flags Serialization.fresh sampleEntries
      [{ type := kRecordState, version := 1, data := [Field.u16 4] }] [] sampleResolver
      (fun _ => true) (by decide) (by decide) (by decide)).2.2.1⟩

/-! ## Theorems: store reads and writes, classification -/

/-- C11: after `StoreSpell(k, r)` the key `k` is present and reads back `r`
(whatever was stored at `k` before); after `RemoveStoredSpell(k)` the key is
absent and reads back nothing; in both cases the record under any other key
`k2` and the id counter are unchanged. Keys with equal `baseId` and different
`uniqueId` are distinct keys. -/
theorem C11_store_remove_get (s : Serialization) (r : StoredSpellData) (k k2 : GemKey)
    (hne : k2 ≠ k) :
    (s.StoreSpell k r).HasStoredSpell k = true ∧
      (s.StoreSpell k r).GetStoredSpell k = some r ∧
      (s.RemoveStoredSpell k).HasStoredSpell k = false ∧
      (s.RemoveStoredSpell k).GetStoredSpell k = none ∧
      (s.StoreSpell k r).GetStoredSpell k2 = s.GetStoredSpell k2 ∧
      (s.RemoveStoredSpell k).GetStoredSpell k2 = s.GetStoredSpell k2 ∧
      (s.StoreSpell k r).nextUniqueId_ = s.nextUniqueId_ ∧
      (s.RemoveStoredSpell k).nextUniqueId_ = s.nextUniqueId_ ∧
      (∀ baseId u1 u2 : Nat, u1 ≠ u2 →
        ({ baseId := baseId, uniqueId := u1 } : GemKey) ≠ { baseId := baseId, uniqueId := u2 }) := by
  refine ⟨?_, mapFind_mapAssign_self _ _ _, ?_, mapFind_mapErase_self _ _,
    mapFind_mapAssign_ne _ _ _ _ hne, mapFind_mapErase_ne _ _ _ hne, rfl, rfl, ?_⟩
  · simp [Serialization.HasStoredSpell, Serialization.StoreSpell, mapContains,
      mapFind_mapAssign_self]
  · simp [Serialization.HasStoredSpell, Serialization.RemoveStoredSpell, mapContains,
      mapFind_mapErase_self]
  · intro baseId u1 u2 hu h
    exact hu (congrArg GemKey.uniqueId h)

/-- C11 witness: two keys of the sample entries with different base ids. -/
theorem C11_store_remove_get_witness :
    ((⟨0xFF000801, 2⟩ : GemKey) ≠ ⟨0xFF000800, 1⟩) ∧
      ((Serialization.StoreSpell ⟨sampleEntries, 4⟩ ⟨0xFF000800, 1⟩
          (sampleRecord .Master 3 0)).GetStoredSpell ⟨0xFF000800, 1⟩ =
        some (sampleRecord .Master 3 0)) :=
  ⟨by decide,
    (C11_store_remove_get ⟨sampleEntries, 4⟩ (sampleRecord .Master 3 0) ⟨0xFF000800, 1⟩
      ⟨0xFF000801, 2⟩ (by decide)).2.1⟩

/-- C12: `TryGetSpellTier` fails exactly when the spell's costliest effect is
missing or has no base effect; otherwise, with `s` the minimum skill level of
that base effect, it returns Novice for `s < 25`, Apprentice for
`25 ≤ s < 50`, Adept for `50 ≤ s < 75`, Expert for `75 ≤ s < 100` and Master
for `s ≥ 100`; hence the tier is monotone non-decreasing in `s` (for any second
spell `spell2`). -/
theorem C12_spell_tier_by_minimum_skill (spell spell2 : SpellItem) :
    (TryGetSpellTier spell = none ↔
        (spell.costliestEffect = none ∨
          ∃ e, spell.costliestEffect = some e ∧ e.baseEffect = none)) ∧
      (∀ e b, spell.costliestEffect = some e → e.baseEffect = some b →
        (b.minimumSkillLevel < 25 → TryGetSpellTier spell = some .Novice) ∧
        (25 ≤ b.minimumSkillLevel → b.minimumSkillLevel < 50 →
          TryGetSpellTier spell = some .Apprentice) ∧
        (50 ≤ b.minimumSkillLevel → b.minimumSkillLevel < 75 →
          TryGetSpellTier spell = some .Adept) ∧
        (75 ≤ b.minimumSkillLevel → b.minimumSkillLevel < 100 →
          TryGetSpellTier spell = some .Expert) ∧
        (100 ≤ b.minimumSkillLevel → TryGetSpellTier spell = some .Master)) ∧
      (∀ b b2 t t2, costliestBaseEffect spell = some b → costliestBaseEffect spell2 = some b2 →
        b.minimumSkillLevel ≤ b2.minimumSkillLevel →
        TryGetSpellTier spell = some t → TryGetSpellTier spell2 = some t2 →
        t.toNat ≤ t2.toNat) := by
  refine ⟨?_, ?_, ?_⟩
  · unfold TryGetSpellTier costliestBaseEffect
    cases hc : spell.costliestEffect with
    | none => simp
    | some e =>
      cases hb : e.baseEffect with
      | none => simp [hb]
      | some b => simp [hb]
  · intro e b he hb
    have hcb : costliestBaseEffect spell = some b := by simp [costliestBaseEffect, he, hb]
    refine ⟨?_, ?_, ?_, ?_, ?_⟩
    · intro h
      simp only [TryGetSpellTier, GetSpellTier, hcb]
      rw [if_neg (by omega), if_neg (by omega), if_neg (by omega), if_neg (by omega)]
    · intro h1 h2
      simp only [TryGetSpellTier, GetSpellTier, hcb]
      rw [if_neg (by omega), if_neg (by omega), if_neg (by omega), if_pos (by omega)]
    · intro h1 h2
      simp only [TryGetSpellTier, GetSpellTier, hcb]
      rw [if_neg (by omega), if_neg (by omega), if_pos (by omega)]
    · intro h1 h2
      simp only [TryGetSpellTier, GetSpellTier, hcb]
      rw [if_neg (by omega), if_pos (by omega)]
    · intro h
      simp only [TryGetSpellTier, GetSpellTier, hcb]
      rw [if_pos (by omega)]
  · intro b b2 t t2 hb hb2 hle ht ht2
    simp only [TryGetSpellTier, GetSpellTier, hb] at ht
    simp only [TryGetSpellTier, GetSpellTier, hb2] at ht2
    cases ht
    cases ht2
    split_ifs <;> simp only [SpellTier.toNat] <;> omega

/-- C13: `GetGemTier` returns Master for every gem that can hold an NPC soul,
whatever its capacity; otherwise Petty gives Novice, Lesser Apprentice, Common
Adept, Greater Expert, Grand Master, and no capacity gives Novice; so among
gems that cannot hold an NPC soul the tier is monotone non-decreasing in the
maximum capacity. -/
theorem C13_gem_tier_by_capacity (gem gem2 : TESSoulGem) :
    (gem.canHoldNPCSoul = true → GetGemTier gem = .Master) ∧
      (gem.canHoldNPCSoul = false →
        (gem.maximumCapacity = .kNone → GetGemTier gem = .Novice) ∧
        (gem.maximumCapacity = .kPetty → GetGemTier gem = .Novice) ∧
        (gem.maximumCapacity = .kLesser → GetGemTier gem = .Apprentice) ∧
        (gem.maximumCapacity = .kCommon → GetGemTier gem = .Adept) ∧
        (gem.maximumCapacity = .kGreater → GetGemTier gem = .Expert) ∧
        (gem.maximumCapacity = .kGrand → GetGemTier gem = .Master)) ∧
      (gem.canHoldNPCSoul = false → gem2.canHoldNPCSoul = false →
        gem.maximumCapacity.toNat ≤ gem2.maximumCapacity.toNat →
        (GetGemTier gem).toNat ≤ (GetGemTier gem2).toNat) := by
  refine ⟨?_, ?_, ?_⟩
  · intro h
    simp [GetGemTier, h]
  · intro h
    refine ⟨?_, ?_, ?_, ?_, ?_, ?_⟩ <;> intro hc <;> simp [GetGemTier, h, hc]
  · intro h h2 hle
    simp only [GetGemTier, h, h2, Bool.false_eq_true, if_false]
    cases hc : gem.maximumCapacity <;> cases hc2 : gem2.maximumCapacity <;>
      simp [hc, hc2, SOUL_LEVEL.toNat, SpellTier.toNat] at hle ⊢

/-! ## Theorems: capture -/

/-- The exits of the part of capture after the six checks. -/
theorem storeCaptured_exit (ceng : CaptureEngine) (w : World) (selected : SelectedGem)
    (soulGem : TESSoulGem) (spell : SpellItem) (spellTier : SpellTier) :
    (storeCaptured ceng w selected soulGem spell spellTier).2 = .formCreationFailed ∨
      (storeCaptured ceng w selected soulGem spell spellTier).2 = .alreadyContainsSpell ∨
      (storeCaptured ceng w selected soulGem spell spellTier).2 = .noPlayer ∨
      (storeCaptured ceng w selected soulGem spell spellTier).2 = .stored := by
  unfold storeCaptured
  simp only []
  generalize (if captureReusesKey w soulGem = true then (some soulGem, w)
    else GetOrCreateStoredGemForm ceng w soulGem spell spellTier
      (captureData w soulGem spell spellTier).usesRemaining) = formResult
  obtain ⟨form, w1⟩ := formResult
  cases form with
  | none => exact Or.inl rfl
  | some storedGemForm =>
    simp only []
    generalize (match captureReusesKey w soulGem,
        w.serialization.TryGetStoredSpellByBaseId soulGem.formID with
      | true, some e => (e.1, w1)
      | x, x_1 =>
        match selected.extraList with
        | some extraList =>
          ({ baseId := storedGemForm.formID,
             uniqueId := (GetOrCreateUniqueId w1.serialization storedGemForm extraList).1 },
            { w1 with
              serialization :=
                (GetOrCreateUniqueId w1.serialization storedGemForm extraList).2.2 })
        | none =>
          ({ baseId := storedGemForm.formID, uniqueId := w1.serialization.AllocateUniqueId.1 },
            { w1 with serialization := w1.serialization.AllocateUniqueId.2 })) = keyResult
    obtain ⟨key, w2⟩ := keyResult
    simp only []
    by_cases hc : (!captureReusesKey w soulGem && w2.serialization.HasStoredSpell key) = true
    · rw [if_pos hc]
      exact Or.inr (Or.inl rfl)
    · rw [if_neg hc]
      cases w2.player with
      | none => exact Or.inr (Or.inr (Or.inl rfl))
      | some p => exact Or.inr (Or.inr (Or.inr rfl))

/-- The path of `TryStoreSelectedSpell` up to the soul-strength check, for a
selected soul gem that passed the filled-gem check, an equipped spell and its tier. -/
theorem TryStoreSelectedSpell_at_soul_check (ceng : CaptureEngine) (w : World)
    (selected : SelectedGem) (soulGem : TESSoulGem) (spell : SpellItem) (spellTier : SpellTier)
    (hsel : ceng.selected = some selected) (hgem : selected.soulGem = some soulGem)
    (hfilled : ¬ (captureRequireSoul w soulGem = true ∧ selected.soulLevel = .kNone))
    (hspell : GetRightHandSpell ceng w = some spell)
    (htier : TryGetSpellTier spell = some spellTier) :
    TryStoreSelectedSpell ceng w =
      if captureRequireSoul w soulGem = true ∧ selected.soulLevel ≠ .kNone ∧
          selected.soulLevel.toNat < (requiredSoul spellTier).toNat then
        (LogMessage w
          ("Soul gem must contain at least a " ++ requiredName (requiredSoul spellTier) ++
            " soul."), .soulTooWeak)
      else if captureIsReusableStar w soulGem = false ∧ captureAllowAnyGemTier w.config = false ∧
          GetGemTier soulGem ≠ spellTier then
        (LogMessage w "Soul gem tier must match the spell tier.", .tierMismatch)
      else storeCaptured ceng w selected soulGem spell spellTier := by
  unfold TryStoreSelectedSpell
  simp only [hsel, hgem, hspell, htier]
  have h1 : (captureRequireSoul w soulGem && selected.soulLevel == SOUL_LEVEL.kNone) = false := by
    cases hr : captureRequireSoul w soulGem
    · rfl
    · cases hl : selected.soulLevel <;> simp_all
  rw [h1]
  simp only [Bool.false_eq_true, if_false]
  by_cases hweak : captureRequireSoul w soulGem = true ∧ selected.soulLevel ≠ .kNone ∧
      selected.soulLevel.toNat < (requiredSoul spellTier).toNat
  · rw [if_pos hweak]
    have h2 : (captureRequireSoul w soulGem && selected.soulLevel != SOUL_LEVEL.kNone &&
        decide (selected.soulLevel.toNat < (requiredSoul spellTier).toNat)) = true := by
      simp [hweak.1, hweak.2.1, hweak.2.2]
    rw [h2]
    rfl
  · rw [if_neg hweak]
    have h2 : (captureRequireSoul w soulGem && selected.soulLevel != SOUL_LEVEL.kNone &&
        decide (selected.soulLevel.toNat < (requiredSoul spellTier).toNat)) = false := by
      rw [Bool.eq_false_iff]
      intro h
      simp only [Bool.and_eq_true, bne_iff_ne, ne_eq, decide_eq_true_eq] at h
      exact hweak ⟨h.1.1, h.1.2, h.2⟩
    rw [h2]
    simp only [Bool.false_eq_true, if_false]
    by_cases hmis : captureIsReusableStar w soulGem = false ∧
        captureAllowAnyGemTier w.config = false ∧ GetGemTier soulGem ≠ spellTier
    · rw [if_pos hmis]
      have h3 : (!captureIsReusableStar w soulGem && !captureAllowAnyGemTier w.config &&
          GetGemTier soulGem != spellTier) = true := by
        simp [hmis.1, hmis.2.1, hmis.2.2]
      rw [h3]
      rfl
    · rw [if_neg hmis]
      have h3 : (!captureIsReusableStar w soulGem && !captureAllowAnyGemTier w.config &&
          GetGemTier soulGem != spellTier) = false := by
        rw [Bool.eq_false_iff]
        intro h
        simp only [Bool.and_eq_true, Bool.not_eq_true', bne_iff_ne, ne_eq] at h
        exact hmis ⟨h.1.1, h.1.2, h.2⟩
      rw [h3]
      rfl

theorem captureRequireSoul_iff (w : World) (soulGem : TESSoulGem) :
    captureRequireSoul w soulGem = true ↔
      (w.config.RequireFilledSoulGem = true ∧ captureIsReusableStar w soulGem = false) := by
  unfold captureRequireSoul captureAllowAnyGemTier
  cases captureIsReusableStar w soulGem <;> cases w.config.RequireFilledSoulGem <;>
    cases w.config.AllowAnyGemTier <;> simp

/-- C14 (as amended): for every capture that has passed checks 1 to 5 (a soul
gem is selected, the filled-gem check passed, a spell with a tier is equipped,
the soul-strength check passed), the capture is rejected for tier mismatch if
and only if the gem is not a reusable star, it is not the case that both
"require filled" and "allow any tier" are enabled, and the gem's tier differs
from the spell's tier. When both settings are enabled a mismatch never rejects. -/
theorem C14_tier_mismatch_rejection (ceng : CaptureEngine) (w : World)
    (selected : SelectedGem) (soulGem : TESSoulGem) (spell : SpellItem) (spellTier : SpellTier)
    (hsel : ceng.selected = some selected) (hgem : selected.soulGem = some soulGem)
    (hfilled : ¬ (captureRequireSoul w soulGem = true ∧ selected.soulLevel = .kNone))
    (hspell : GetRightHandSpell ceng w = some spell)
    (htier : TryGetSpellTier spell = some spellTier)
    (hsoul : ¬ (captureRequireSoul w soulGem = true ∧ selected.soulLevel ≠ .kNone ∧
      selected.soulLevel.toNat < (requiredSoul spellTier).toNat)) :
    ((TryStoreSelectedSpell ceng w).2 = .tierMismatch ↔
        (captureIsReusableStar w soulGem = false ∧
          ¬ (w.config.RequireFilledSoulGem = true ∧ w.config.AllowAnyGemTier = true) ∧
          GetGemTier soulGem ≠ spellTier)) ∧
      (w.config.RequireFilledSoulGem = true → w.config.AllowAnyGemTier = true →
        (TryStoreSelectedSpell ceng w).2 ≠ .tierMismatch) := by
  have hallow : captureAllowAnyGemTier w.config = false ↔
      ¬ (w.config.RequireFilledSoulGem = true ∧ w.config.AllowAnyGemTier = true) := by
    unfold captureAllowAnyGemTier
    cases w.config.RequireFilledSoulGem <;> cases w.config.AllowAnyGemTier <;> simp
  have hiff : (TryStoreSelectedSpell ceng w).2 = .tierMismatch ↔
      (captureIsReusableStar w soulGem = false ∧
        ¬ (w.config.RequireFilledSoulGem = true ∧ w.config.AllowAnyGemTier = true) ∧
        GetGemTier soulGem ≠ spellTier) := by
    rw [TryStoreSelectedSpell_at_soul_check ceng w selected soulGem spell spellTier hsel hgem
      hfilled hspell htier, if_neg hsoul]
    by_cases hmis : captureIsReusableStar w soulGem = false ∧
        captureAllowAnyGemTier w.config = false ∧ GetGemTier soulGem ≠ spellTier
    · rw [if_pos hmis]
      exact ⟨fun _ => ⟨hmis.1, hallow.1 hmis.2.1, hmis.2.2⟩, fun _ => rfl⟩
    · rw [if_neg hmis]
      constructor
      · intro h
        rcases storeCaptured_exit ceng w selected soulGem spell spellTier with h1 | h1 | h1 | h1 <;>
          rw [h1] at h <;> cases h
      · intro h
        exact absurd ⟨h.1, hallow.2 h.2.1, h.2.2⟩ hmis
  refine ⟨hiff, fun hrf haa h => ?_⟩
  exact (hiff.1 h).2.1 ⟨hrf, haa⟩

/-- C14 witness: an empty Petty gem and the Adept sample spell, "require
filled" disabled, "allow any tier" disabled. -/
theorem C14_tier_mismatch_rejection_witness :
    (TryStoreSelectedSpell (sampleCapture (sampleGem .kPetty) .kNone)
        (emptyWorld (Config.defaults.SetRequireFilledSoulGem false))).2 = .tierMismatch ↔
      (captureIsReusableStar (emptyWorld (Config.defaults.SetRequireFilledSoulGem false))
          (sampleGem .kPetty) = false ∧
        ¬ ((emptyWorld (Config.defaults.SetRequireFilledSoulGem false)).config.RequireFilledSoulGem
            = true ∧
          (emptyWorld (Config.defaults.SetRequireFilledSoulGem false)).config.AllowAnyGemTier
            = true) ∧
        GetGemTier (sampleGem .kPetty) ≠ SpellTier.Adept) :=
  (C14_tier_mismatch_rejection (sampleCapture (sampleGem .kPetty) .kNone)
    (emptyWorld (Config.defaults.SetRequireFilledSoulGem false))
    ⟨some (sampleGem .kPetty), .kNone, none⟩ (sampleGem .kPetty) sampleSpell .Adept
    rfl rfl (by decide) rfl (by decide) (by decide)).1

/-- C14 counterexample: "allow any tier" is enabled and "require filled" is
disabled; an empty Petty gem (tier Novice) is selected and the Adept sample
spell is equipped. Checks 1 to 5 pass, and the capture is rejected for tier
mismatch although "allow any tier" is enabled. -/
theorem C14_counterexample_allow_any_without_require_filled :
    ((Config.defaults.SetRequireFilledSoulGem false).SetAllowAnyGemTier true).AllowAnyGemTier
        = true ∧
      (sampleCapture (sampleGem .kPetty) .kNone).selected =
        some ⟨some (sampleGem .kPetty), .kNone, none⟩ ∧
      captureRequireSoul
        (emptyWorld ((Config.defaults.SetRequireFilledSoulGem false).SetAllowAnyGemTier true))
        (sampleGem .kPetty) = false ∧
      GetRightHandSpell (sampleCapture (sampleGem .kPetty) .kNone)
        (emptyWorld ((Config.defaults.SetRequireFilledSoulGem false).SetAllowAnyGemTier true)) =
        some sampleSpell ∧
      TryGetSpellTier sampleSpell = some .Adept ∧
      GetGemTier (sampleGem .kPetty) = .Novice ∧
      (TryStoreSelectedSpell (sampleCapture (sampleGem .kPetty) .kNone)
        (emptyWorld ((Config.defaults.SetRequireFilledSoulGem false).SetAllowAnyGemTier true))).2
        = .tierMismatch := by
  decide

/-- C15 (as amended): the required soul level is the strictly ascending map
Novice to Petty, Apprentice to Lesser, Adept to Common, Expert to Greater,
Master to Grand. For a capture that has passed checks 1 to 4,
`TryStoreSelectedSpell` rejects for soul strength if and only if "require
filled gem" is enabled, the gem is not a reusable star, the gem carries a soul
and its soul level is below the level required for the spell's tier, whatever
"allow any tier" is. So with "require filled" disabled no capture is rejected
because of soul strength, and when the check applies a gem carrying a soul
passes it exactly when its soul level is at least the required level. -/
theorem C15_soul_strength_check (ceng : CaptureEngine) (w : World)
    (selected : SelectedGem) (soulGem : TESSoulGem) (spell : SpellItem) (spellTier : SpellTier)
    (hsel : ceng.selected = some selected) (hgem : selected.soulGem = some soulGem)
    (hfilled : ¬ (captureRequireSoul w soulGem = true ∧ selected.soulLevel = .kNone))
    (hspell : GetRightHandSpell ceng w = some spell)
    (htier : TryGetSpellTier spell = some spellTier) :
    (requiredSoul .Novice = .kPetty ∧ requiredSoul .Apprentice = .kLesser ∧
        requiredSoul .Adept = .kCommon ∧ requiredSoul .Expert = .kGreater ∧
        requiredSoul .Master = .kGrand) ∧
      (∀ t1 t2 : SpellTier, t1.toNat < t2.toNat →
        (requiredSoul t1).toNat < (requiredSoul t2).toNat) ∧
      ((TryStoreSelectedSpell ceng w).2 = .soulTooWeak ↔
        (w.config.RequireFilledSoulGem = true ∧ captureIsReusableStar w soulGem = false ∧
          selected.soulLevel ≠ .kNone ∧
          selected.soulLevel.toNat < (requiredSoul spellTier).toNat)) ∧
      (w.config.RequireFilledSoulGem = false → (TryStoreSelectedSpell ceng w).2 ≠ .soulTooWeak) ∧
      (w.config.RequireFilledSoulGem = true → captureIsReusableStar w soulGem = false →
        selected.soulLevel ≠ .kNone →
        ((TryStoreSelectedSpell ceng w).2 ≠ .soulTooWeak ↔
          (requiredSoul spellTier).toNat ≤ selected.soulLevel.toNat)) := by
  have hiff : (TryStoreSelectedSpell ceng w).2 = .soulTooWeak ↔
      (w.config.RequireFilledSoulGem = true ∧ captureIsReusableStar w soulGem = false ∧
        selected.soulLevel ≠ .kNone ∧
        selected.soulLevel.toNat < (requiredSoul spellTier).toNat) := by
    rw [TryStoreSelectedSpell_at_soul_check ceng w selected soulGem spell spellTier hsel hgem
      hfilled hspell htier]
    by_cases hweak : captureRequireSoul w soulGem = true ∧ selected.soulLevel ≠ .kNone ∧
        selected.soulLevel.toNat < (requiredSoul spellTier).toNat
    · rw [if_pos hweak]
      have hr := (captureRequireSoul_iff w soulGem).1 hweak.1
      exact ⟨fun _ => ⟨hr.1, hr.2, hweak.2.1, hweak.2.2⟩, fun _ => rfl⟩
    · rw [if_neg hweak]
      constructor
      · intro h
        exfalso
        by_cases hmis : captureIsReusableStar w soulGem = false ∧
            captureAllowAnyGemTier w.config = false ∧ GetGemTier soulGem ≠ spellTier
        · rw [if_pos hmis] at h
          cases h
        · rw [if_neg hmis] at h
          rcases storeCaptured_exit ceng w selected soulGem spell spellTier with
            h1 | h1 | h1 | h1 <;> rw [h1] at h <;> cases h
      · intro h
        exact absurd ⟨(captureRequireSoul_iff w soulGem).2 ⟨h.1, h.2.1⟩, h.2.2.1, h.2.2.2⟩ hweak
  refine ⟨⟨rfl, rfl, rfl, rfl, rfl⟩, ?_, hiff, ?_, ?_⟩
  · intro t1 t2 h
    cases t1 <;> cases t2 <;> simp [SpellTier.toNat, requiredSoul, SOUL_LEVEL.toNat] at h ⊢
  · intro hrf h
    have := (hiff.1 h).1
    rw [hrf] at this
    cases this
  · intro hrf hstar hsoul
    rw [not_iff_comm, hiff]
    constructor
    · intro h
      exact ⟨hrf, hstar, hsoul, by omega⟩
    · intro h
      have := h.2.2.2
      omega

/-- C15 witness: a Grand gem holding a Petty soul and the Adept sample spell,
default settings ("require filled" enabled, "allow any tier" disabled). -/
theorem C15_soul_strength_check_witness :
    (TryStoreSelectedSpell (sampleCapture (sampleGem .kGrand) .kPetty)
        (emptyWorld Config.defaults)).2 = .soulTooWeak ↔
      ((emptyWorld Config.defaults).config.RequireFilledSoulGem = true ∧
        captureIsReusableStar (emptyWorld Config.defaults) (sampleGem .kGrand) = false ∧
        SOUL_LEVEL.kPetty ≠ .kNone ∧
        SOUL_LEVEL.kPetty.toNat < (requiredSoul .Adept).toNat) :=
  (C15_soul_strength_check (sampleCapture (sampleGem .kGrand) .kPetty)
    (emptyWorld Config.defaults) ⟨some (sampleGem .kGrand), .kPetty, none⟩ (sampleGem .kGrand)
    sampleSpell .Adept rfl rfl (by decide) rfl (by decide)).2.2.1

/-- C15 counterexample: "require filled" and "allow any tier" are both enabled;
a Grand gem holding a Petty soul is selected and the Adept sample spell
(required soul Common) is equipped. Checks 1 to 4 pass and the capture is
rejected because of soul strength although "allow any tier" is enabled. -/
theorem C15_counterexample_allow_any_still_checks_soul :
    (Config.defaults.SetAllowAnyGemTier true).AllowAnyGemTier = true ∧
      (Config.defaults.SetAllowAnyGemTier true).RequireFilledSoulGem = true ∧
      (sampleCapture (sampleGem .kGrand) .kPetty).selected =
        some ⟨some (sampleGem .kGrand), .kPetty, none⟩ ∧
      GetRightHandSpell (sampleCapture (sampleGem .kGrand) .kPetty)
        (emptyWorld (Config.defaults.SetAllowAnyGemTier true)) = some sampleSpell ∧
      TryGetSpellTier sampleSpell = some .Adept ∧
      requiredSoul .Adept = .kCommon ∧
      (TryStoreSelectedSpell (sampleCapture (sampleGem .kGrand) .kPetty)
        (emptyWorld (Config.defaults.SetAllowAnyGemTier true))).2 = .soulTooWeak := by
  decide

theorem mapAssign_keys_of_mem (m : StoredSpells) (k : GemKey) (d : StoredSpellData)
    (h : k ∈ m.map fun e => e.1) : (mapAssign m k d).map (fun e => e.1) = m.map fun e => e.1 := by
  induction m with
  | nil => simp at h
  | cons e m ih =>
    obtain ⟨k0, d0⟩ := e
    by_cases hk : k0 = k
    · simp [mapAssign, hk]
    · have hm : k ∈ m.map fun e => e.1 := by
        rcases List.mem_cons.1 h with h1 | h1
        · exact absurd h1.symm hk
        · exact h1
      simp [mapAssign, hk, ih hm]

/-- The capture path that re-records into the key of an existing reusable-star record. -/
theorem storeCaptured_reuse (ceng : CaptureEngine) (w : World) (selected : SelectedGem)
    (soulGem : TESSoulGem) (spell : SpellItem) (spellTier : SpellTier) (k0 : GemKey)
    (d0 : StoredSpellData) (p : PlayerCharacter)
    (hexisting : w.serialization.TryGetStoredSpellByBaseId soulGem.formID = some (k0, d0))
    (hstar : d0.isReusableStar = true) (hplayer : w.player = some p) :
    storeCaptured ceng w selected soulGem spell spellTier =
      (LogMessage
        (RefreshStoredGemSlots
          { w with serialization :=
              w.serialization.StoreSpell k0 (captureData w soulGem spell spellTier) })
        "Stored spell in soul gem.", .stored) := by
  have hreuse : captureReusesKey w soulGem = true := by
    simp [captureReusesKey, captureIsReusableStar, hexisting, hstar]
  unfold storeCaptured
  simp [hreuse, hexisting, hplayer]

/-- C17: for a gem whose existing stored record (the one found by base
identity) is flagged reusable-star, a successful capture of the equipped spell
writes the new record under the existing key: the keys of the store, hence the
number of records, and the id counter are unchanged, the existing key now
holds the new spell, no gem form is created, and the only engine call is the
final notification (no inventory removal, no addition). -/
theorem C17_star_rerecord_reuses_key (ceng : CaptureEngine) (w : World)
    (selected : SelectedGem) (soulGem : TESSoulGem) (spell : SpellItem) (k0 : GemKey)
    (d0 : StoredSpellData)
    (hsel : ceng.selected = some selected) (hgem : selected.soulGem = some soulGem)
    (hexisting : w.serialization.TryGetStoredSpellByBaseId soulGem.formID = some (k0, d0))
    (hstar : d0.isReusableStar = true)
    (hspell : GetRightHandSpell ceng w = some spell)
    (hexit : (TryStoreSelectedSpell ceng w).2 = .stored) :
    ((TryStoreSelectedSpell ceng w).1.serialization.GetStoredSpells.map fun e => e.1) =
        (w.serialization.GetStoredSpells.map fun e => e.1) ∧
      (TryStoreSelectedSpell ceng w).1.serialization.GetStoredSpells.length =
        w.serialization.GetStoredSpells.length ∧
      (TryStoreSelectedSpell ceng w).1.serialization.nextUniqueId_ =
        w.serialization.nextUniqueId_ ∧
      (∃ d, (TryStoreSelectedSpell ceng w).1.serialization.GetStoredSpell k0 = some d ∧
        d.spellId = spell.formID ∧ d.isReusableStar = true ∧ d.usesRemaining = -1) ∧
      (TryStoreSelectedSpell ceng w).1.manager.storedGemForms_ = w.manager.storedGemForms_ ∧
      itemsRemoved (TryStoreSelectedSpell ceng w).1.events = itemsRemoved w.events ∧
      rewardGrants (TryStoreSelectedSpell ceng w).1.events = rewardGrants w.events ∧
      (TryStoreSelectedSpell ceng w).1.events =
        w.events ++ [.notification "Stored spell in soul gem."] := by
  have hisstar : captureIsReusableStar w soulGem = true := by
    simp [captureIsReusableStar, hexisting, hstar]
  have hreq : captureRequireSoul w soulGem = false := by
    simp [captureRequireSoul, hisstar]
  obtain ⟨p, hp⟩ : ∃ p, w.player = some p := by
    cases hpl : w.player with
    | none => simp [GetRightHandSpell, hpl] at hspell
    | some p => exact ⟨p, rfl⟩
  have hkmem : k0 ∈ w.serialization.storedSpells_.map fun e => e.1 :=
    List.mem_map_of_mem (fun e => e.1) (List.mem_of_find?_eq_some hexisting)
  cases htier : TryGetSpellTier spell with
  | none =>
    exfalso
    unfold TryStoreSelectedSpell at hexit
    simp only [hsel, hgem, hspell, htier] at hexit
    split_ifs at hexit
  | some spellTier =>
    have hrun : TryStoreSelectedSpell ceng w =
        (LogMessage
          (RefreshStoredGemSlots
            { w with serialization :=
                w.serialization.StoreSpell k0 (captureData w soulGem spell spellTier) })
          "Stored spell in soul gem.", .stored) := by
      rw [TryStoreSelectedSpell_at_soul_check ceng w selected soulGem spell spellTier hsel hgem
        (by simp [hreq]) hspell htier, if_neg (by simp [hreq]), if_neg (by simp [hisstar])]
      exact storeCaptured_reuse ceng w selected soulGem spell spellTier k0 d0 p hexisting hstar hp
    rw [hrun]
    have hkeys := mapAssign_keys_of_mem w.serialization.storedSpells_ k0
      (captureData w soulGem spell spellTier) hkmem
    refine ⟨hkeys, ?_, rfl, ⟨captureData w soulGem spell spellTier,
      mapFind_mapAssign_self _ _ _, rfl, hisstar, by simp [captureData, hisstar]⟩, rfl, ?_, ?_, rfl⟩
    · have := congrArg List.length hkeys
      simpa using this
    · simp [LogMessage, World.emit, RefreshStoredGemSlots, itemsRemoved_append, itemsRemoved]
    · simp [LogMessage, World.emit, RefreshStoredGemSlots, rewardGrants_append, rewardGrants]

/-- C17 witness: the stored star form is selected again and the sample spell is captured. -/
theorem C17_star_rerecord_reuses_key_witness :
    (TryStoreSelectedSpell (sampleCapture sampleStarForm .kNone) sampleStarWorld).2 = .stored ∧
      (TryStoreSelectedSpell (sampleCapture sampleStarForm .kNone)
          sampleStarWorld).1.serialization.nextUniqueId_ =
        sampleStarWorld.serialization.nextUniqueId_ ∧
      (TryStoreSelectedSpell (sampleCapture sampleStarForm .kNone) sampleStarWorld).1.events =
        sampleStarWorld.events ++ [.notification "Stored spell in soul gem."] := by
  have h := C17_star_rerecord_reuses_key (sampleCapture sampleStarForm .kNone) sampleStarWorld
    ⟨some sampleStarForm, .kNone, none⟩ sampleStarForm sampleSpell ⟨0xFF000900, 1⟩
    { spellId := 0x2B96C, tier := .Novice, usesRemaining := -1, lastUsedGameTime := 0,
      isReusableStar := true, isBlackSoulGem := false } rfl rfl (by decide) rfl rfl (by decide)
  exact ⟨by decide, h.2.2.1, h.2.2.2.2.2.2.2⟩

/-! ## Theorems: configuration -/

theorem loadTierEntry_other (cv : Conversions) (currentSection key value : String) (c : Config)
    (tier : SpellTier) (h : currentSection ≠ Config.GetTierName tier) :
    Config.loadTierEntry cv currentSection key value c tier = c := by
  simp [Config.loadTierEntry, h]

/-- A `Uses` line in the section of `tier` stores the converted value. -/
theorem Load_tier_uses (cv : Conversions) (c : Config) (tier : SpellTier) (value : String) :
    c.Load cv (some [.header (Config.GetTierName tier), .entry "Uses" value]) =
      c.writeTierUses tier (cv.stoi value) := by
  cases tier <;>
    simp [Config.Load, Config.loadLine, Config.loadEntry, Config.GetTierName,
      Config.loadTierEntry]

/-- A `Cooldown` line in the section of `tier` stores the converted value. -/
theorem Load_tier_cooldown (cv : Conversions) (c : Config) (tier : SpellTier) (value : String) :
    c.Load cv (some [.header (Config.GetTierName tier), .entry "Cooldown" value]) =
      c.writeTierCooldown tier (cv.stof value) := by
  cases tier <;>
    simp [Config.Load, Config.loadLine, Config.loadEntry, Config.GetTierName,
      Config.loadTierEntry]

/-- C18 (as amended): a `Uses` or `Cooldown` entry read by `Config::Load` is
stored as converted, and a write through the mutable `GetTierSettings`
accessor stores the value written; nothing is clamped. So afterwards the
tier's uses is at least 1 exactly when the supplied value is, and its cooldown
at least 0 exactly when the supplied value is; the constructor's defaults
satisfy both for every tier. -/
theorem C18_tier_settings_stored_as_supplied (cv : Conversions) (c : Config) (tier : SpellTier)
    (value : String) (uses : Int) (cooldown : ℚ) :
    ((c.Load cv (some [.header (Config.GetTierName tier), .entry "Uses" value])).GetTierSettings
        tier).uses = cv.stoi value ∧
      ((c.Load cv (some [.header (Config.GetTierName tier),
        .entry "Cooldown" value])).GetTierSettings tier).cooldown = cv.stof value ∧
      ((c.writeTierUses tier uses).GetTierSettings tier).uses = uses ∧
      ((c.writeTierCooldown tier cooldown).GetTierSettings tier).cooldown = cooldown ∧
      (1 ≤ ((c.writeTierUses tier uses).GetTierSettings tier).uses ↔ 1 ≤ uses) ∧
      (0 ≤ ((c.writeTierCooldown tier cooldown).GetTierSettings tier).cooldown ↔ 0 ≤ cooldown) ∧
      (∀ t, 1 ≤ (Config.defaults.GetTierSettings t).uses ∧
        0 ≤ (Config.defaults.GetTierSettings t).cooldown) := by
  have hu : ((c.writeTierUses tier uses).GetTierSettings tier).uses = uses := by
    simp [Config.writeTierUses, Config.GetTierSettings]
  have hc : ((c.writeTierCooldown tier cooldown).GetTierSettings tier).cooldown = cooldown := by
    simp [Config.writeTierCooldown, Config.GetTierSettings]
  refine ⟨?_, ?_, hu, hc, by rw [hu], by rw [hc], ?_⟩
  · rw [Load_tier_uses]
    simp [Config.writeTierUses, Config.GetTierSettings]
  · rw [Load_tier_cooldown]
    simp [Config.writeTierCooldown, Config.GetTierSettings]
  · intro t
    cases t <;> simp [Config.defaults, Config.GetTierSettings]

/-- C18 counterexample: loading `[Adept]` with `Uses=0` and `Cooldown=-5` on the
defaults leaves the Adept tier with 0 uses and a cooldown of -5; a write of 0
uses through the mutable accessor is stored as 0. -/
theorem C18_counterexample_unclamped_values :
    ((Config.defaults.Load sampleConversions
        (some [.header "Adept", .entry "Uses" "0"])).GetTierSettings .Adept).uses = 0 ∧
      ((Config.defaults.Load sampleConversions
        (some [.header "Adept", .entry "Cooldown" "-5"])).GetTierSettings .Adept).cooldown = -5 ∧
      ((Config.defaults.writeTierUses .Adept 0).GetTierSettings .Adept).uses = 0 ∧
      ¬ (1 ≤ ((Config.defaults.Load sampleConversions
        (some [.header "Adept", .entry "Uses" "0"])).GetTierSettings .Adept).uses) ∧
      ¬ (0 ≤ ((Config.defaults.Load sampleConversions
        (some [.header "Adept", .entry "Cooldown" "-5"])).GetTierSettings .Adept).cooldown) := by
  decide!

theorem loadBool_frame (value : String) (c : Config) (set : Config → Bool → Config)
    (hset : ∀ c b, (set c b).maxStoredGems_ = c.maxStoredGems_ ∧
      (set c b).activationKeys_ = c.activationKeys_) :
    (Config.loadBool value c set).maxStoredGems_ = c.maxStoredGems_ ∧
      (Config.loadBool value c set).activationKeys_ = c.activationKeys_ := by
  unfold Config.loadBool
  cases TryParseBool value with
  | none => exact ⟨rfl, rfl⟩
  | some b => exact hset c b

theorem loadTierEntry_frame (cv : Conversions) (currentSection key value : String) (c : Config)
    (tier : SpellTier) :
    (Config.loadTierEntry cv currentSection key value c tier).maxStoredGems_ = c.maxStoredGems_ ∧
      (Config.loadTierEntry cv currentSection key value c tier).activationKeys_ =
        c.activationKeys_ := by
  unfold Config.loadTierEntry
  split_ifs <;> exact ⟨rfl, rfl⟩

theorem foldl_loadTierEntry_frame (cv : Conversions) (currentSection key value : String)
    (tiers : List SpellTier) (c : Config) :
    (tiers.foldl (Config.loadTierEntry cv currentSection key value) c).maxStoredGems_ =
        c.maxStoredGems_ ∧
      (tiers.foldl (Config.loadTierEntry cv currentSection key value) c).activationKeys_ =
        c.activationKeys_ := by
  induction tiers generalizing c with
  | nil => exact ⟨rfl, rfl⟩
  | cons t ts ih =>
    rw [List.foldl_cons]
    obtain ⟨h1, h2⟩ := ih (Config.loadTierEntry cv currentSection key value c t)
    obtain ⟨h3, h4⟩ := loadTierEntry_frame cv currentSection key value c t
    exact ⟨h1.trans h3, h2.trans h4⟩

theorem SetMaxStoredGems_range (c : Config) (value : Nat) :
    3 ≤ (c.SetMaxStoredGems value).maxStoredGems_ ∧
      (c.SetMaxStoredGems value).maxStoredGems_ ≤ 5 ∧
      (c.SetMaxStoredGems value).activationKeys_ = c.activationKeys_ := by
  refine ⟨?_, ?_, rfl⟩ <;>
    (show _ ≤ _
     simp only [Config.SetMaxStoredGems]
     split_ifs <;> omega)

theorem ite_invariant {α : Type} (P : α → Prop) (c : Prop) [Decidable c] (a b : α)
    (ha : P a) (hb : P b) : P (if c then a else b) := by
  split_ifs <;> assumption

/-- One line of the file keeps the maximum within 3..5 and the five key entries. -/
theorem loadEntry_invariant (cv : Conversions) (currentSection key value : String) (c : Config)
    (h : c.slotsBounded) : (Config.loadEntry cv currentSection key value c).slotsBounded := by
  have hb : ∀ set : Config → Bool → Config,
      (∀ c b, (set c b).maxStoredGems_ = c.maxStoredGems_ ∧
        (set c b).activationKeys_ = c.activationKeys_) →
      (Config.loadBool value c set).slotsBounded := by
    intro set hset
    obtain ⟨h1, h2⟩ := loadBool_frame value c set hset
    unfold Config.slotsBounded
    rw [h1, h2]
    exact h
  unfold Config.loadEntry
  refine ite_invariant Config.slotsBounded _ _ _ h ?_
  refine ite_invariant Config.slotsBounded _ _ _ h ?_
  refine ite_invariant Config.slotsBounded _ _ _ ?_ ?_
  · obtain ⟨h1, h2, h3⟩ := SetMaxStoredGems_range c (cv.stoul value % 256)
    exact ⟨h1, h2, by rw [h3]; exact h.2.2⟩
  refine ite_invariant Config.slotsBounded _ _ _ ?_ ?_
  · refine ite_invariant Config.slotsBounded _ _ _ ?_ h
    exact ⟨h.1, h.2.1, by
      show (c.activationKeys_.set _ _).length = 5
      rw [List.length_set]
      exact h.2.2⟩
  refine ite_invariant Config.slotsBounded _ _ _ (hb _ (fun _ _ => ⟨rfl, rfl⟩)) ?_
  refine ite_invariant Config.slotsBounded _ _ _ (hb _ (fun _ _ => ⟨rfl, rfl⟩)) ?_
  refine ite_invariant Config.slotsBounded _ _ _ (hb _ (fun _ _ => ⟨rfl, rfl⟩)) ?_
  refine ite_invariant Config.slotsBounded _ _ _ (hb _ (fun _ _ => ⟨rfl, rfl⟩)) ?_
  refine ite_invariant Config.slotsBounded _ _ _ (hb _ (fun _ _ => ⟨rfl, rfl⟩)) ?_
  refine ite_invariant Config.slotsBounded _ _ _ (hb _ (fun _ _ => ⟨rfl, rfl⟩)) ?_
  refine ite_invariant Config.slotsBounded _ _ _ (hb _ (fun _ _ => ⟨rfl, rfl⟩)) ?_
  obtain ⟨h1, h2⟩ := foldl_loadTierEntry_frame cv currentSection key value
    [SpellTier.Novice, .Apprentice, .Adept, .Expert, .Master] c
  unfold Config.slotsBounded
  rw [h1, h2]
  exact h

theorem foldl_loadLine_invariant (cv : Conversions) (lines : List IniLine)
    (st : Config × String)
    (h : st.1.slotsBounded) : (lines.foldl (Config.loadLine cv) st).1.slotsBounded := by
  induction lines generalizing st with
  | nil => exact h
  | cons line lines ih =>
    rw [List.foldl_cons]
    apply ih
    cases line with
    | skipped => exact h
    | header name => exact h
    | entry key value => exact loadEntry_invariant cv st.2 key value st.1 h

/-- Every mutation keeps the maximum within 3..5 and the five key entries. -/
theorem ConfigOp_apply_invariant (c : Config) (op : ConfigOp)
    (h : c.slotsBounded) : (op.apply c).slotsBounded := by
  cases op with
  | load cv file =>
    cases file with
    | none => exact h
    | some lines => exact foldl_loadLine_invariant cv lines (c, "") h
  | setMaxStoredGems value =>
    obtain ⟨h1, h2, h3⟩ := SetMaxStoredGems_range c (value % 256)
    exact ⟨h1, h2, by rw [show (ConfigOp.apply c (.setMaxStoredGems value)).activationKeys_ =
      (c.SetMaxStoredGems (value % 256)).activationKeys_ from rfl, h3]; exact h.2.2⟩
  | setActivationKey index key =>
    show (Config.SetActivationKey c index key).slotsBounded
    unfold Config.SetActivationKey
    refine ite_invariant Config.slotsBounded _ _ _ h ?_
    exact ⟨h.1, h.2.1, by
      show (c.activationKeys_.set _ _).length = 5
      rw [List.length_set]
      exact h.2.2⟩
  | setStoreKey key => exact h
  | setFiniteUse value => exact h
  | setShowUsesRemaining value => exact h
  | setRequireFilledSoulGem value => exact h
  | setAllowAnyGemTier value => exact h
  | setBlackSoulGemBoosts value => exact h
  | setNormalGemPenalty value => exact h
  | setAzurasStarBoost value => exact h
  | setFocusSpellDuration value => exact h
  | setStarCooldown value => exact h
  | setFragmentFormId value => exact h
  | setFragmentCount tier value => exact h
  | writeTierCooldown tier value => exact h
  | writeTierUses tier value => exact h

theorem foldl_apply_invariant (ops : List ConfigOp) (c : Config)
    (h : c.slotsBounded) : (ops.foldl ConfigOp.apply c).slotsBounded := by
  induction ops generalizing c with
  | nil => exact h
  | cons op ops ih =>
    rw [List.foldl_cons]
    exact ih _ (ConfigOp_apply_invariant c op h)

/-! ## Theorems: single-precision rounding -/

/-- The halving count is the position of the leading bit whenever the bound
is at least the number. -/
theorem Float32_halvings_spec (bound n : Nat) (hb : n ≤ bound) (hn : 0 < n) :
    2 ^ Float32.halvings bound n ≤ n ∧ n < 2 ^ (Float32.halvings bound n + 1) := by
  induction bound generalizing n with
  | zero => omega
  | succ bound ih =>
    unfold Float32.halvings
    by_cases h2 : n < 2
    · rw [if_pos h2]
      have h1 : n = 1 := by omega
      subst h1
      decide
    · rw [if_neg h2]
      obtain ⟨ha, hb2⟩ := ih (n / 2) (by omega) (by omega)
      have e1 : 2 ^ (Float32.halvings bound (n / 2) + 1) =
          2 * 2 ^ Float32.halvings bound (n / 2) := by rw [pow_succ]; omega
      have e2 : 2 ^ (Float32.halvings bound (n / 2) + 1 + 1) =
          2 * 2 ^ (Float32.halvings bound (n / 2) + 1) := by rw [pow_succ]; omega
      rw [e2, e1]
      rw [e1] at hb2
      constructor
      · omega
      · omega

/-- The function `log2` gives the position of the leading bit of a positive number. -/
theorem Float32_log2_spec (n : Nat) (hn : 0 < n) :
    2 ^ Float32.log2 n ≤ n ∧ n < 2 ^ (Float32.log2 n + 1) :=
  Float32_halvings_spec n n (Nat.le_refl n) hn

/-- Rounding on known values: `0.1f`, the tie `2^24 + 1` (to even, down), the
tie `2^24 + 3` (to even, up), the largest finite value, the overflow
threshold `2^128 - 2^103` (a tie, rounded to infinity), the tie `2^-150`
(rounded to zero), `3 * 2^-150` (rounded to the even subnormal `2^-148`), and
the quotient and product of the Adept cooldown at timescale 20. -/
theorem Float32_ofRat_samples :
    Float32.ofRat (1 / 10) = .finite (13421773 / 2 ^ 27) ∧
      Float32.ofRat (-1 / 10) = .finite (-(13421773 / 2 ^ 27)) ∧
      Float32.ofRat 16777217 = .finite 16777216 ∧
      Float32.ofRat 16777219 = .finite 16777220 ∧
      Float32.ofRat (2 ^ 128 - 2 ^ 104) = .finite (2 ^ 128 - 2 ^ 104) ∧
      Float32.ofRat (2 ^ 128 - 2 ^ 103) = .posInf ∧
      Float32.ofRat (1 / 2 ^ 150) = .finite 0 ∧
      Float32.ofRat (3 / 2 ^ 150) = .finite (1 / 2 ^ 148) ∧
      Float32.div (.finite 12) (.finite 86400) = .finite (2386093 / 2 ^ 34) ∧
      Float32.mul (.finite (2386093 / 2 ^ 34)) (.finite 20) = .finite (11930465 / 2 ^ 32) := by
  decide!

/-- The result of `std::clamp(v, 0.0f, 3.0f)` lies in [0, 3] unless `v` is not-a-number. -/
theorem Float32_clamp_range (v : Float32) (h : v ≠ .nan) :
    Float32.le (.finite 0) (Float32.clamp v (.finite 0) (.finite 3)) = true ∧
      Float32.le (Float32.clamp v (.finite 0) (.finite 3)) (.finite 3) = true := by
  cases v with
  | nan => exact absurd rfl h
  | negInf => decide
  | posInf => decide
  | finite q =>
    simp only [Float32.clamp, Float32.lt, decide_eq_true_eq]
    split_ifs with h1 h2
    · decide
    · decide
    · simp only [Float32.le, decide_eq_true_eq]
      exact ⟨not_lt.1 h1, not_lt.1 h2⟩

/-- A value in [0, 3] passes `std::clamp(v, 0.0f, 3.0f)` unchanged. -/
theorem Float32_clamp_of_mem (v : Float32) (h0 : Float32.le (.finite 0) v = true)
    (h3 : Float32.le v (.finite 3) = true) : Float32.clamp v (.finite 0) (.finite 3) = v := by
  cases v with
  | nan => rfl
  | negInf => exact absurd h0 (by decide)
  | posInf => exact absurd h3 (by decide)
  | finite q =>
    simp only [Float32.le, decide_eq_true_eq] at h0 h3
    simp only [Float32.clamp, Float32.lt, decide_eq_true_eq]
    rw [if_neg (not_lt.2 h0), if_neg (not_lt.2 h3)]

/-- Clamping twice is clamping once. -/
theorem Float32_clamp_idem (v : Float32) :
    Float32.clamp (Float32.clamp v (.finite 0) (.finite 3)) (.finite 0) (.finite 3) =
      Float32.clamp v (.finite 0) (.finite 3) := by
  cases v with
  | nan => rfl
  | negInf => decide
  | posInf => decide
  | finite q =>
    have h := Float32_clamp_range (.finite q) (by simp)
    exact Float32_clamp_of_mem _ h.1 h.2

/-- The value `SetStarCooldown` stores for the input `v`. -/
theorem Float32_floor_zero (v : Float32) :
    (v ≠ .nan →
      Float32.le (.finite 0) (if Float32.lt v (.finite 0) then .finite 0 else v) = true) ∧
    (Float32.le (.finite 0) v = true →
      (if Float32.lt v (.finite 0) then Float32.finite 0 else v) = v) ∧
    (if Float32.lt (if Float32.lt v (.finite 0) then .finite 0 else v) (.finite 0)
      then Float32.finite 0 else (if Float32.lt v (.finite 0) then .finite 0 else v)) =
      (if Float32.lt v (.finite 0) then Float32.finite 0 else v) := by
  cases v with
  | nan => exact ⟨fun h => absurd rfl h, fun _ => rfl, rfl⟩
  | negInf => exact ⟨fun _ => by decide, fun h => absurd h (by decide), by decide⟩
  | posInf => exact ⟨fun _ => by decide, fun _ => by decide, by decide⟩
  | finite q =>
    by_cases h1 : q < 0
    · have hl : Float32.lt (.finite q) (.finite 0) = true := by simp [Float32.lt, h1]
      have h0 : Float32.lt (.finite 0) (.finite 0) = false := by simp [Float32.lt]
      refine ⟨fun _ => ?_, fun h => ?_, ?_⟩
      · rw [if_pos hl]
        simp [Float32.le]
      · simp only [Float32.le, decide_eq_true_eq] at h
        exact absurd h1 (not_lt.2 h)
      · simp only [hl, h0, if_true, Bool.false_eq_true, if_false]
    · have hl : Float32.lt (.finite q) (.finite 0) = false := by simp [Float32.lt, h1]
      refine ⟨fun _ => ?_, fun _ => ?_, ?_⟩
      · simp only [hl, Bool.false_eq_true, if_false, Float32.le, decide_eq_true_eq]
        exact not_lt.1 h1
      · simp only [hl, Bool.false_eq_true, if_false]
      · simp only [hl, Bool.false_eq_true, if_false]

/-- C19 (as amended): after `SetMaxStoredGems` the maximum is in 3..5 and
equals the input when that is in 3..5. For every `float` input other than
not-a-number, after `SetFocusSpellDuration` the duration is in [0, 3] and
after `SetStarCooldown` the cooldown is at least 0; an input in [0, 3],
respectively at least 0, is stored as it is. A not-a-number input is stored
unchanged by both setters (every comparison with it is false). Each setter is
idempotent (applied again to the same input, or to the value it stored, it
changes nothing). In every configuration reached from the constructor by
`Load` and the writers the maximum is in 3..5 and there are five
activation-key entries, so the maximum never exceeds them. -/
theorem C19_clamped_settings (c : Config) (n : Nat) (v : Float32) (ops : List ConfigOp) :
    (3 ≤ (c.SetMaxStoredGems n).GetMaxStoredGems ∧ (c.SetMaxStoredGems n).GetMaxStoredGems ≤ 5) ∧
      (3 ≤ n → n ≤ 5 → (c.SetMaxStoredGems n).GetMaxStoredGems = n) ∧
      (v ≠ .nan →
        Float32.le (.finite 0) (c.SetFocusSpellDuration v).GetFocusSpellDuration = true ∧
        Float32.le (c.SetFocusSpellDuration v).GetFocusSpellDuration (.finite 3) = true) ∧
      (Float32.le (.finite 0) v = true → Float32.le v (.finite 3) = true →
        (c.SetFocusSpellDuration v).GetFocusSpellDuration = v) ∧
      (v ≠ .nan → Float32.le (.finite 0) (c.SetStarCooldown v).GetStarCooldown = true) ∧
      (Float32.le (.finite 0) v = true → (c.SetStarCooldown v).GetStarCooldown = v) ∧
      ((c.SetFocusSpellDuration .nan).GetFocusSpellDuration = .nan ∧
        (c.SetStarCooldown .nan).GetStarCooldown = .nan) ∧
      ((c.SetMaxStoredGems n).SetMaxStoredGems n = c.SetMaxStoredGems n ∧
        (c.SetMaxStoredGems n).SetMaxStoredGems (c.SetMaxStoredGems n).GetMaxStoredGems =
          c.SetMaxStoredGems n) ∧
      ((c.SetFocusSpellDuration v).SetFocusSpellDuration v = c.SetFocusSpellDuration v ∧
        (c.SetFocusSpellDuration v).SetFocusSpellDuration
          (c.SetFocusSpellDuration v).GetFocusSpellDuration = c.SetFocusSpellDuration v) ∧
      ((c.SetStarCooldown v).SetStarCooldown v = c.SetStarCooldown v ∧
        (c.SetStarCooldown v).SetStarCooldown (c.SetStarCooldown v).GetStarCooldown =
          c.SetStarCooldown v) ∧
      (3 ≤ (reachedConfig ops).GetMaxStoredGems ∧ (reachedConfig ops).GetMaxStoredGems ≤ 5 ∧
        (reachedConfig ops).activationKeys_.length = 5 ∧
        (reachedConfig ops).GetMaxStoredGems ≤ (reachedConfig ops).activationKeys_.length) := by
  have hreach : 3 ≤ (reachedConfig ops).maxStoredGems_ ∧
      (reachedConfig ops).maxStoredGems_ ≤ 5 ∧ (reachedConfig ops).activationKeys_.length = 5 :=
    foldl_apply_invariant ops Config.defaults ⟨by decide, by decide, rfl⟩
  refine ⟨?_, ?_, ?_, ?_, ?_, ?_, ⟨rfl, rfl⟩, ⟨rfl, ?_⟩, ⟨rfl, ?_⟩, ⟨rfl, ?_⟩, ?_⟩
  · simp only [Config.SetMaxStoredGems, Config.GetMaxStoredGems]
    split_ifs <;> omega
  · intro h1 h2
    simp only [Config.SetMaxStoredGems, Config.GetMaxStoredGems]
    split_ifs <;> omega
  · exact fun h => Float32_clamp_range v h
  · exact fun h0 h3 => Float32_clamp_of_mem v h0 h3
  · exact fun h => (Float32_floor_zero v).1 h
  · exact fun h => (Float32_floor_zero v).2.1 h
  · simp only [Config.SetMaxStoredGems, Config.GetMaxStoredGems]
    congr 1
    split_ifs <;> omega
  · simp only [Config.SetFocusSpellDuration, Config.GetFocusSpellDuration]
    congr 1
    exact Float32_clamp_idem v
  · simp only [Config.SetStarCooldown, Config.GetStarCooldown]
    congr 1
    exact (Float32_floor_zero v).2.2
  · exact ⟨hreach.1, hreach.2.1, hreach.2.2, by
      rw [hreach.2.2]
      exact hreach.2.1⟩

/-- C19 witness: the inputs 4 and 2.0, and a configuration reached by a setter
and a load that both ask for more than five slots. -/
theorem C19_clamped_settings_witness :
    (Config.defaults.SetMaxStoredGems 4).GetMaxStoredGems = 4 ∧
      (Config.defaults.SetFocusSpellDuration (.finite 2)).GetFocusSpellDuration = .finite 2 ∧
      (Config.defaults.SetStarCooldown (.finite 2)).GetStarCooldown = .finite 2 ∧
      (reachedConfig [.setMaxStoredGems 200,
        .load sampleConversions (some [.header "Activation", .entry "MaxStoredGems" "9"])]
        ).GetMaxStoredGems ≤ 5 := by
  obtain ⟨_, h2, _, h4, _, h6, _, _, _, _, h11⟩ :=
    C19_clamped_settings Config.defaults 4 (.finite 2)
      [.setMaxStoredGems 200,
        .load sampleConversions (some [.header "Activation", .entry "MaxStoredGems" "9"])]
  exact ⟨h2 (by decide) (by decide), h4 (by decide!) (by decide!), h6 (by decide!), h11.2.1⟩

/-- C19 counterexample: the input not-a-number. `std::clamp(NaN, 0.0f, 3.0f)`
returns its argument, because neither `NaN < 0.0f` nor `3.0f < NaN` holds, and
so does `NaN < 0.0f ? 0.0f : NaN`: after the setters the focus duration is not
in [0, 3] and the star cooldown is not at least 0. -/
theorem C19_counterexample_not_a_number :
    (Config.defaults.SetFocusSpellDuration .nan).GetFocusSpellDuration = .nan ∧
      Float32.le (.finite 0)
        (Config.defaults.SetFocusSpellDuration .nan).GetFocusSpellDuration = false ∧
      Float32.le (Config.defaults.SetFocusSpellDuration .nan).GetFocusSpellDuration
        (.finite 3) = false ∧
      (Config.defaults.SetStarCooldown .nan).GetStarCooldown = .nan ∧
      Float32.le (.finite 0) (Config.defaults.SetStarCooldown .nan).GetStarCooldown = false :=
  ⟨rfl, rfl, rfl, rfl, rfl⟩

/-! ## Theorems: the focus session -/

/-- C20: `StopFocusSpellCast(i)` leaves the whole state unchanged when `i` is
not the active focus slot; when `i` is the active slot it clears the active
slot, advances the session token by one (modulo 2^64, so by exactly one below
the 64-bit wrap), clears the cost-suppression flag, the saved channel and the
magicka baseline. Calling it twice in a row gives the same state as calling it once. -/
theorem C20_stop_focus (w : World) (i : Nat) :
    (w.manager.activeFocusSlot_ ≠ some i → StopFocusSpellCast w i = w) ∧
      (w.manager.activeFocusSlot_ = some i →
        (StopFocusSpellCast w i).manager.activeFocusSlot_ = none ∧
        (StopFocusSpellCast w i).manager.focusCastId_ = (w.manager.focusCastId_ + 1) % 2 ^ 64 ∧
        (w.manager.focusCastId_ + 1 < 2 ^ 64 →
          (StopFocusSpellCast w i).manager.focusCastId_ = w.manager.focusCastId_ + 1) ∧
        (StopFocusSpellCast w i).manager.focusCostActive_ = false ∧
        (StopFocusSpellCast w i).manager.focusCasterSource_ = none ∧
        (StopFocusSpellCast w i).manager.focusStartMagicka_ = 0 ∧
        (StopFocusSpellCast w i).manager.focusPreviousCost_ = w.manager.focusPreviousCost_) ∧
      StopFocusSpellCast (StopFocusSpellCast w i) i = StopFocusSpellCast w i := by
  have hnoop : ∀ v : World, v.manager.activeFocusSlot_ ≠ some i → StopFocusSpellCast v i = v := by
    intro v hv
    unfold StopFocusSpellCast
    rw [if_pos hv]
  have hactive : w.manager.activeFocusSlot_ = some i →
      (StopFocusSpellCast w i).manager.activeFocusSlot_ = none ∧
      (StopFocusSpellCast w i).manager.focusCastId_ = (w.manager.focusCastId_ + 1) % 2 ^ 64 ∧
      (StopFocusSpellCast w i).manager.focusCostActive_ = false ∧
      (StopFocusSpellCast w i).manager.focusCasterSource_ = none ∧
      (StopFocusSpellCast w i).manager.focusStartMagicka_ = 0 ∧
      (StopFocusSpellCast w i).manager.focusPreviousCost_ = w.manager.focusPreviousCost_ := by
    intro hslot
    cases hp : w.player with
    | none =>
      cases hc : w.manager.focusCostActive_ <;> cases hs : w.manager.focusCasterSource_ <;>
        simp [StopFocusSpellCast, hslot, hp, hc, hs]
    | some pc =>
      cases hr : (pc.GetMagicCaster .kRightHand).isSome <;>
        cases hl : (pc.GetMagicCaster .kLeftHand).isSome <;>
        cases hc : w.manager.focusCostActive_ <;>
        cases hs : w.manager.focusCasterSource_ <;>
        simp [StopFocusSpellCast, hslot, hp, hr, hl, hc, hs, World.emit]
  refine ⟨hnoop w, ?_, ?_⟩
  · intro hslot
    obtain ⟨h1, h2, h3, h4, h5, h6⟩ := hactive hslot
    refine ⟨h1, h2, ?_, h3, h4, h5, h6⟩
    intro hlt
    rw [h2, Nat.mod_eq_of_lt hlt]
  · by_cases hslot : w.manager.activeFocusSlot_ = some i
    · apply hnoop
      rw [(hactive hslot).1]
      simp
    · rw [hnoop w hslot, hnoop w hslot]

theorem C20_stop_focus_witness :
    StopFocusSpellCast sampleFocusWorld 1 = sampleFocusWorld ∧
      (StopFocusSpellCast sampleFocusWorld 0).manager.activeFocusSlot_ = none ∧
      (StopFocusSpellCast sampleFocusWorld 0).manager.focusCastId_ = 8 ∧
      (StopFocusSpellCast sampleFocusWorld 0).manager.focusCostActive_ = false := by
  have hother := (C20_stop_focus sampleFocusWorld 1).1 (by decide)
  obtain ⟨hslot, _, hnext, hflag, _⟩ := (C20_stop_focus sampleFocusWorld 0).2.1 rfl
  exact ⟨hother, hslot, hnext (by decide), hflag⟩

/-! ## Theorems: scheduled expiries and the session token -/

/-- `StopFocusSpellCast` on the active slot: the slot is cleared and the token advances. -/
theorem StopFocusSpellCast_active (w : World) (i : Nat)
    (hslot : w.manager.activeFocusSlot_ = some i) :
    (StopFocusSpellCast w i).manager.activeFocusSlot_ = none ∧
      (StopFocusSpellCast w i).manager.focusCastId_ = (w.manager.focusCastId_ + 1) % 2 ^ 64 := by
  cases hp : w.player with
  | none =>
    cases hc : w.manager.focusCostActive_ <;> cases hs : w.manager.focusCasterSource_ <;>
      simp [StopFocusSpellCast, hslot, hp, hc, hs]
  | some pc =>
    cases hr : (pc.GetMagicCaster .kRightHand).isSome <;>
      cases hl : (pc.GetMagicCaster .kLeftHand).isSome <;>
      cases hc : w.manager.focusCostActive_ <;>
      cases hs : w.manager.focusCasterSource_ <;>
      simp [StopFocusSpellCast, hslot, hp, hr, hl, hc, hs, World.emit]

theorem StopFocusSpellCast_inactive (w : World) (i : Nat)
    (hslot : w.manager.activeFocusSlot_ ≠ some i) : StopFocusSpellCast w i = w := by
  unfold StopFocusSpellCast
  rw [if_pos hslot]

/-- The session fields after lines 148 to 174 of `ActivateStoredGemSlot` for a
channeled spell. -/
theorem activateCast_channeled (w : World) (index : Nat) (key : GemKey)
    (stored : StoredSpellData) (spell : SpellItem) (p : PlayerCharacter)
    (hc : spell.castingType = .kConcentration) :
    (Float32.le w.config.GetFocusSpellDuration (.finite 0) = true →
        (activateCast w index key stored spell p).manager.focusCastId_ =
          (w.manager.focusCastId_ + 2) % 2 ^ 64 ∧
        (activateCast w index key stored spell p).manager.activeFocusSlot_ = none) ∧
      (Float32.le w.config.GetFocusSpellDuration (.finite 0) = false →
        (activateCast w index key stored spell p).manager.focusCastId_ =
          (w.manager.focusCastId_ + 1) % 2 ^ 64 ∧
        (activateCast w index key stored spell p).manager.activeFocusSlot_ = some index ∧
        GameEvent.scheduleFocusExpiry ((w.manager.focusCastId_ + 1) % 2 ^ 64) index
          w.config.GetFocusSpellDuration ∈ (activateCast w index key stored spell p).events) := by
  unfold activateCast
  simp only [hc, decide_True, if_true]
  generalize hw1 : ({ w with manager := { w.manager with
      activeFocusSlot_ := some index
      focusCastId_ := (w.manager.focusCastId_ + 1) % 2 ^ 64 } } : World) = w1
  have h1c : w1.config = w.config := by rw [← hw1]
  have h1a : w1.manager.activeFocusSlot_ = some index := by rw [← hw1]
  have h1t : w1.manager.focusCastId_ = (w.manager.focusCastId_ + 1) % 2 ^ 64 := by rw [← hw1]
  obtain ⟨_, cc, ca, ct, _, _, _⟩ :=
    CastStoredSpell_frame w1 spell p stored.isBlackSoulGem stored.isReusableStar
      (IsAzurasStar key.baseId)
  rw [cc, h1c]
  constructor
  · intro hd
    rw [if_pos hd]
    obtain ⟨sa, st⟩ := StopFocusSpellCast_active
      (CastStoredSpell w1 spell p stored.isBlackSoulGem stored.isReusableStar
        (IsAzurasStar key.baseId)) index (by rw [ca, h1a])
    refine ⟨?_, sa⟩
    rw [st, ct, h1t]
    omega
  · intro hd
    rw [if_neg (by rw [hd]; exact Bool.false_ne_true)]
    refine ⟨?_, ?_, ?_⟩
    · simp only [World.emit, ct, h1t]
    · simp only [World.emit, ca, h1a]
    · simp only [World.emit, h1t]
      exact List.mem_append_right _ (List.mem_singleton.2 rfl)

/-- A cast that is not channeled leaves the session token and the active slot alone. -/
theorem activateCast_not_channeled (w : World) (index : Nat) (key : GemKey)
    (stored : StoredSpellData) (spell : SpellItem) (p : PlayerCharacter)
    (hc : spell.castingType ≠ .kConcentration) :
    (activateCast w index key stored spell p).manager.focusCastId_ = w.manager.focusCastId_ ∧
      (activateCast w index key stored spell p).manager.activeFocusSlot_ =
        w.manager.activeFocusSlot_ := by
  unfold activateCast
  simp only [hc, decide_False, Bool.false_eq_true, if_false]
  obtain ⟨_, _, ca, ct, _, _, _⟩ :=
    CastStoredSpell_frame w spell p stored.isBlackSoulGem stored.isReusableStar
      (IsAzurasStar key.baseId)
  exact ⟨ct, ca⟩

/-- One operation advances the token by its number of increments, modulo 2^64. -/
theorem FocusStep_run_token (w : World) (step : FocusStep)
    (hwf : w.manager.focusCastId_ < 2 ^ 64) :
    (step.run w).manager.focusCastId_ =
      (w.manager.focusCastId_ + step.increments w) % 2 ^ 64 := by
  cases step with
  | activate index key stored spell =>
    cases hp : w.player with
    | none =>
      simp only [FocusStep.run, FocusStep.increments, hp]
      simp
      omega
    | some p =>
      by_cases hc : spell.castingType = .kConcentration
      · obtain ⟨h0, h1⟩ := activateCast_channeled w index key stored spell p hc
        cases hd : Float32.le w.config.GetFocusSpellDuration (.finite 0) with
        | true => simp [FocusStep.run, FocusStep.increments, hp, hc, hd, (h0 hd).1]
        | false => simp [FocusStep.run, FocusStep.increments, hp, hc, hd, (h1 hd).1]
      · simp [FocusStep.run, FocusStep.increments, hp, hc,
          (activateCast_not_channeled w index key stored spell p hc).1]
        omega
  | stop index =>
    by_cases hs : w.manager.activeFocusSlot_ = some index
    · simp [FocusStep.run, FocusStep.increments, hs, (StopFocusSpellCast_active w index hs).2]
    · simp [FocusStep.run, FocusStep.increments, hs, StopFocusSpellCast_inactive w index hs]
      omega
  | expiry focusId index =>
    by_cases hs : w.manager.focusCastId_ = focusId ∧ w.manager.activeFocusSlot_ = some index
    · simp only [FocusStep.run, FocusStep.increments, focusExpiryTask, if_pos hs]
      exact (StopFocusSpellCast_active w index hs.2).2
    · simp only [FocusStep.run, FocusStep.increments, focusExpiryTask, if_neg hs]
      rw [Nat.add_zero, Nat.mod_eq_of_lt hwf]
  | externalCast spell b s a =>
    cases hp : w.player with
    | none =>
      simp [FocusStep.run, FocusStep.increments, hp]
      omega
    | some p =>
      simp [FocusStep.run, FocusStep.increments, hp,
        (CastStoredSpell_frame w spell p b s a).2.2.2.1]
      omega

/-- A run advances the token by its number of increments, modulo 2^64. -/
theorem runFocusSteps_token (steps : List FocusStep) (w : World)
    (hwf : w.manager.focusCastId_ < 2 ^ 64) :
    (runFocusSteps w steps).manager.focusCastId_ =
      (w.manager.focusCastId_ + tokenIncrements w steps) % 2 ^ 64 := by
  induction steps generalizing w with
  | nil =>
    simp [runFocusSteps, tokenIncrements]
    omega
  | cons step steps ih =>
    have hstep := FocusStep_run_token w step hwf
    have hwf2 : (step.run w).manager.focusCastId_ < 2 ^ 64 := by
      rw [hstep]
      exact Nat.mod_lt _ (by norm_num)
    simp only [runFocusSteps, tokenIncrements]
    rw [ih (step.run w) hwf2, hstep, Nat.mod_add_mod, Nat.add_assoc]

/-- An expiry whose captured token is not the current one changes nothing. -/
theorem focusExpiryTask_stale (w : World) (focusId index : Nat)
    (h : w.manager.focusCastId_ ≠ focusId) : focusExpiryTask w focusId index = w := by
  unfold focusExpiryTask
  rw [if_neg (fun hc => h hc.1)]

/-- An operation executes `++focusCastId_` at most twice. -/
theorem FocusStep_increments_le (w : World) (step : FocusStep) : step.increments w ≤ 2 := by
  cases step <;> simp only [FocusStep.increments] <;> first | omega | (split_ifs <;> omega)

/-- A run of `k` operations executes `++focusCastId_` at most `2 * k` times. -/
theorem tokenIncrements_le (steps : List FocusStep) (w : World) :
    tokenIncrements w steps ≤ 2 * steps.length := by
  induction steps generalizing w with
  | nil => simp [tokenIncrements]
  | cons step steps ih =>
    have h1 := FocusStep_increments_le w step
    have h2 := ih (step.run w)
    simp only [tokenIncrements, List.length_cons]
    omega

/-- C21: an expiry carries the token and slot captured when a channeled
activation scheduled it (the activation logs the expiry with the token and
slot it has just set, when the test `duration <= 0.0f` fails). In every state,
an expiry whose captured token differs from the current token leaves the whole
state unchanged. Every channeled activation and every effective
`StopFocusSpellCast` advances the token, by one or two; the token is a 64-bit
counter, so after a run of operations from a state with token `t` the token is
`t` plus the number of increments modulo 2^64. After at least one and fewer
than 2^64 increments the current token differs from `t` and an expiry carrying
`t` changes nothing. A run of `k` operations makes at most `2 * k` increments,
so the bound of 2^64 increments between the scheduling of an expiry and its
arrival is out of reach of any run of fewer than 2^63 operations. -/
theorem C21_stale_expiry_is_void (w : World) (focusId index : Nat) (steps : List FocusStep)
    (key : GemKey) (stored : StoredSpellData) (spell : SpellItem) (p : PlayerCharacter) :
    (w.manager.focusCastId_ ≠ focusId → focusExpiryTask w focusId index = w) ∧
      (w.player = some p → spell.castingType = .kConcentration →
        Float32.le w.config.GetFocusSpellDuration (.finite 0) = false →
        (FocusStep.run w (.activate index key stored spell)).manager.activeFocusSlot_ =
          some index ∧
        GameEvent.scheduleFocusExpiry
          (FocusStep.run w (.activate index key stored spell)).manager.focusCastId_ index
          w.config.GetFocusSpellDuration ∈
            (FocusStep.run w (.activate index key stored spell)).events ∧
        1 ≤ FocusStep.increments w (.activate index key stored spell)) ∧
      (w.manager.activeFocusSlot_ = some index → FocusStep.increments w (.stop index) = 1) ∧
      (w.manager.focusCastId_ < 2 ^ 64 →
        (runFocusSteps w steps).manager.focusCastId_ =
          (w.manager.focusCastId_ + tokenIncrements w steps) % 2 ^ 64 ∧
        (0 < tokenIncrements w steps → tokenIncrements w steps < 2 ^ 64 →
          (runFocusSteps w steps).manager.focusCastId_ ≠ w.manager.focusCastId_ ∧
          focusExpiryTask (runFocusSteps w steps) w.manager.focusCastId_ index =
            runFocusSteps w steps)) ∧
      tokenIncrements w steps ≤ 2 * steps.length := by
  refine ⟨focusExpiryTask_stale w focusId index, ?_, ?_, ?_, tokenIncrements_le steps w⟩
  · intro hp hc hd
    obtain ⟨ht, ha, he⟩ := (activateCast_channeled w index key stored spell p hc).2 hd
    have hrun : FocusStep.run w (.activate index key stored spell) =
        activateCast w index key stored spell p := by
      simp only [FocusStep.run, hp]
    rw [hrun, ht]
    refine ⟨ha, he, ?_⟩
    simp only [FocusStep.increments, hp, hc, Option.isSome_some, and_self, if_true]
    split_ifs <;> omega
  · intro hs
    simp only [FocusStep.increments, hs, if_true]
  · intro hwf
    have ht := runFocusSteps_token steps w hwf
    refine ⟨ht, fun hpos hlt => ?_⟩
    have hne : (runFocusSteps w steps).manager.focusCastId_ ≠ w.manager.focusCastId_ := by
      rw [ht]
      intro heq
      have h2 : (2 : Nat) ^ 64 = 18446744073709551616 := by norm_num
      rw [h2] at heq hwf hlt
      omega
    exact ⟨hne, focusExpiryTask_stale _ _ _ hne⟩

/-- C21 witness: after the channeled sample activation of slot 0 (token 1), a
key release and a second activation supersede it; the expiry carrying token 1
then changes nothing. -/
theorem C21_stale_expiry_is_void_witness :
    (FocusStep.run (emptyWorld Config.defaults) sampleFocusActivation).manager.focusCastId_ = 1 ∧
      tokenIncrements (FocusStep.run (emptyWorld Config.defaults) sampleFocusActivation)
        [.stop 0, sampleFocusActivation] = 2 ∧
      (runFocusSteps (FocusStep.run (emptyWorld Config.defaults) sampleFocusActivation)
        [.stop 0, sampleFocusActivation]).manager.focusCastId_ = 3 ∧
      focusExpiryTask
        (runFocusSteps (FocusStep.run (emptyWorld Config.defaults) sampleFocusActivation)
          [.stop 0, sampleFocusActivation]) 1 0 =
        runFocusSteps (FocusStep.run (emptyWorld Config.defaults) sampleFocusActivation)
          [.stop 0, sampleFocusActivation] := by
  have htok : (FocusStep.run (emptyWorld Config.defaults)
      sampleFocusActivation).manager.focusCastId_ = 1 := by decide!
  have hinc : tokenIncrements (FocusStep.run (emptyWorld Config.defaults) sampleFocusActivation)
      [.stop 0, sampleFocusActivation] = 2 := by decide!
  have h := (C21_stale_expiry_is_void
    (FocusStep.run (emptyWorld Config.defaults) sampleFocusActivation) 1 0
    [.stop 0, sampleFocusActivation] ⟨0xFF000800, 1⟩ sampleFocusRecord sampleFocusSpell
    samplePlayer).2.2.2.1 (by rw [htok]; norm_num)
  refine ⟨htok, hinc, ?_, ?_⟩
  · rw [h.1, htok, hinc]
    norm_num
  · have h2 := (h.2 (by rw [hinc]; norm_num) (by rw [hinc]; norm_num)).2
    rw [htok] at h2
    exact h2

/-! ## Theorems: the casting primitive -/

/-- The cast that `CastStoredSpell` makes carries the multipliers of `castModifiers`. -/
theorem CastStoredSpell_cast_event (w : World) (spell : SpellItem) (p : PlayerCharacter)
    (b s a : Bool) (source : CastingSource) (caster : MagicCaster)
    (hcaster : selectCaster p = some (source, caster)) :
    GameEvent.castSpellImmediate spell.formID source (decide (spell.delivery = .kSelf))
        (castModifiers w.config spell b s a).1 (castModifiers w.config spell b s a).2.1 ∈
      (CastStoredSpell w spell p b s a).events := by
  unfold CastStoredSpell
  rw [hcaster]
  generalize castModifiers w.config spell b s a = cm
  obtain ⟨eff, mag, blackBranch⟩ := cm
  simp only []
  split_ifs <;> simp [World.emit]

/-- C22: for every combination of the gem flags and the three toggles the
multipliers `CastStoredSpell` selects (`castModifiers`, which tests the penalty
before the black-soul bonus) are those of the stated priority (Azura's bonus,
else the black-soul bonus, else the normal-gem penalty, else none): 1.05 and
1.05 for Azura's bonus, 0.9 and 0.9 for the penalty, effectiveness 1 and no
magnitude override without a modifier. The conditions of the penalty and of
the black-soul bonus exclude each other, so at most one branch applies, and
the cast that is made carries the multipliers of the priority. -/
theorem C22_modifier_priority (w : World) (spell : SpellItem) (p : PlayerCharacter)
    (isBlackSoulGem isReusableStar isAzurasStar : Bool) :
    castModifiers w.config spell isBlackSoulGem isReusableStar isAzurasStar =
        castModifiersByPriority w.config spell isBlackSoulGem isReusableStar isAzurasStar ∧
      ¬ ((!isBlackSoulGem && !isReusableStar && w.config.NormalGemPenalty) = true ∧
          (isBlackSoulGem && w.config.BlackSoulGemBoosts) = true) ∧
      (w.config.AzurasStarBoost = true → isAzurasStar = true →
        castModifiers w.config spell isBlackSoulGem isReusableStar isAzurasStar =
          (21 / 20, 21 / 20, false)) ∧
      (¬ (w.config.AzurasStarBoost = true ∧ isAzurasStar = true) →
        ¬ (w.config.BlackSoulGemBoosts = true ∧ isBlackSoulGem = true) →
        w.config.NormalGemPenalty = true → isReusableStar = false → isBlackSoulGem = false →
        castModifiers w.config spell isBlackSoulGem isReusableStar isAzurasStar =
          (9 / 10, 9 / 10, false)) ∧
      (¬ (w.config.AzurasStarBoost = true ∧ isAzurasStar = true) →
        ¬ (w.config.BlackSoulGemBoosts = true ∧ isBlackSoulGem = true) →
        ¬ (w.config.NormalGemPenalty = true ∧ isReusableStar = false ∧
          isBlackSoulGem = false) →
        castModifiers w.config spell isBlackSoulGem isReusableStar isAzurasStar =
          (1, 0, false)) ∧
      (∀ source caster, selectCaster p = some (source, caster) →
        GameEvent.castSpellImmediate spell.formID source (decide (spell.delivery = .kSelf))
            (castModifiersByPriority w.config spell isBlackSoulGem isReusableStar
              isAzurasStar).1
            (castModifiersByPriority w.config spell isBlackSoulGem isReusableStar
              isAzurasStar).2.1 ∈
          (CastStoredSpell w spell p isBlackSoulGem isReusableStar isAzurasStar).events) := by
  have heq : castModifiers w.config spell isBlackSoulGem isReusableStar isAzurasStar =
      castModifiersByPriority w.config spell isBlackSoulGem isReusableStar isAzurasStar := by
    cases isBlackSoulGem <;> cases isReusableStar <;> cases isAzurasStar <;>
      cases h1 : w.config.AzurasStarBoost <;> cases h2 : w.config.BlackSoulGemBoosts <;>
      cases h3 : w.config.NormalGemPenalty <;>
      simp [castModifiers, castModifiersByPriority, h1, h2, h3]
  refine ⟨heq, ?_, ?_, ?_, ?_, ?_⟩
  · cases isBlackSoulGem <;> simp
  · intro h1 h2
    rw [heq]
    simp [castModifiersByPriority, h1, h2]
  · intro h1 h2 h3 h4 h5
    rw [heq]
    simp only [castModifiersByPriority, if_neg h1, if_neg h2]
    rw [if_pos ⟨h3, h4, h5⟩]
  · intro h1 h2 h3
    rw [heq]
    simp only [castModifiersByPriority, if_neg h1, if_neg h2, if_neg h3]
  · intro source caster hcaster
    rw [← heq]
    exact CastStoredSpell_cast_event w spell p _ _ _ source caster hcaster

/-- C22 witness: an ordinary gem under the default settings takes the penalty,
and the sample player casts with it from the right hand. -/
theorem C22_modifier_priority_witness :
    castModifiers (emptyWorld Config.defaults).config sampleSpell false false false =
        (9 / 10, 9 / 10, false) ∧
      GameEvent.castSpellImmediate sampleSpell.formID .kRightHand
          (decide (sampleSpell.delivery = .kSelf))
          (castModifiersByPriority (emptyWorld Config.defaults).config sampleSpell false false
            false).1
          (castModifiersByPriority (emptyWorld Config.defaults).config sampleSpell false false
            false).2.1 ∈
        (CastStoredSpell (emptyWorld Config.defaults) sampleSpell samplePlayer false false
          false).events := by
  obtain ⟨_, _, _, hpen, _, hcast⟩ :=
    C22_modifier_priority (emptyWorld Config.defaults) sampleSpell samplePlayer false false false
  exact ⟨hpen (by decide) (by decide) (by decide) rfl rfl,
    hcast .kRightHand ⟨30⟩ (by decide!)⟩
/-- The loop over the effects finds a school exactly when some non-null effect
has a base effect of that school. -/
theorem hasEffectOfSchool_iff (test : ActorValue → Bool) (effects : List (Option Effect)) :
    hasEffectOfSchool test effects = true ↔
      ∃ eff base, some eff ∈ effects ∧ eff.baseEffect = some base ∧
        test base.magickSkill = true := by
  unfold hasEffectOfSchool
  rw [List.any_eq_true]
  constructor
  · rintro ⟨e, hmem, he⟩
    cases e with
    | none => simp at he
    | some eff =>
      cases hb : eff.baseEffect with
      | none => simp [hb] at he
      | some base =>
        simp only [hb] at he
        exact ⟨eff, base, hmem, hb, he⟩
  · rintro ⟨eff, base, hmem, hb, ht⟩
    exact ⟨some eff, hmem, by simp only [hb]; exact ht⟩

/-- The self-damage that `CastStoredSpell` applies: one call, of 5% of the
maximum health, exactly when the black-soul branch ran for an actor-value owner. -/
theorem CastStoredSpell_selfDamage (w : World) (spell : SpellItem) (p : PlayerCharacter)
    (b s a : Bool) (source : CastingSource) (caster : MagicCaster)
    (hcaster : selectCaster p = some (source, caster)) :
    selfDamage (CastStoredSpell w spell p b s a).events =
      selfDamage w.events ++
        (if (castModifiers w.config spell b s a).2.2 = true ∧ p.actorValueOwner = true then
          [-((p.permanentHealth + p.healthPermanentModifier + p.healthTemporaryModifier) *
            (1 / 20))]
        else []) := by
  unfold CastStoredSpell
  rw [hcaster]
  generalize castModifiers w.config spell b s a = cm
  obtain ⟨eff, mag, blackBranch⟩ := cm
  simp only []
  cases blackBranch <;> cases p.actorValueOwner <;>
    (split_ifs <;> simp_all [World.emit, selfDamage])

/-- C29: whenever the black-soul branch of `CastStoredSpell` applies (boosts
enabled, gem black-soul, Azura's bonus not applicable), for every list of
effects: the magnitude multiplier is 1.1 exactly when some effect is of the
Destruction school (otherwise no override is set), the effectiveness
multiplier is 1.1 exactly when some effect is of the Conjuration or Alteration
school and 1 otherwise, each decided by its own test, and for every spell the
cast (by a player with a casting channel and the actor-value interface)
applies one self-damage of 5% of the caster's maximum health (the sum of the
permanent value and the permanent and temporary modifiers). -/
theorem C29_black_soul_branch (w : World) (spell : SpellItem) (p : PlayerCharacter)
    (isReusableStar isAzurasStar : Bool) (source : CastingSource) (caster : MagicCaster)
    (hboost : w.config.BlackSoulGemBoosts = true)
    (hazura : ¬ (isAzurasStar = true ∧ w.config.AzurasStarBoost = true))
    (hcaster : selectCaster p = some (source, caster))
    (howner : p.actorValueOwner = true) :
    ((castModifiers w.config spell true isReusableStar isAzurasStar).2.1 = 11 / 10 ↔
        ∃ eff base, some eff ∈ spell.effects ∧ eff.baseEffect = some base ∧
          base.magickSkill = .kDestruction) ∧
      ((castModifiers w.config spell true isReusableStar isAzurasStar).2.1 ≠ 11 / 10 →
        (castModifiers w.config spell true isReusableStar isAzurasStar).2.1 = 0) ∧
      ((castModifiers w.config spell true isReusableStar isAzurasStar).1 = 11 / 10 ↔
        ∃ eff base, some eff ∈ spell.effects ∧ eff.baseEffect = some base ∧
          (base.magickSkill = .kConjuration ∨ base.magickSkill = .kAlteration)) ∧
      ((castModifiers w.config spell true isReusableStar isAzurasStar).1 ≠ 11 / 10 →
        (castModifiers w.config spell true isReusableStar isAzurasStar).1 = 1) ∧
      selfDamage (CastStoredSpell w spell p true isReusableStar isAzurasStar).events =
        selfDamage w.events ++
          [-((p.permanentHealth + p.healthPermanentModifier + p.healthTemporaryModifier) *
            (1 / 20))] ∧
      GameEvent.castSpellImmediate spell.formID source (decide (spell.delivery = .kSelf))
          (castModifiers w.config spell true isReusableStar isAzurasStar).1
          (castModifiers w.config spell true isReusableStar isAzurasStar).2.1 ∈
        (CastStoredSpell w spell p true isReusableStar isAzurasStar).events := by
  have hmod : castModifiers w.config spell true isReusableStar isAzurasStar =
      (if hasEffectOfSchool (fun s => decide (s = .kConjuration) || decide (s = .kAlteration))
          spell.effects then 11 / 10 else 1,
        if hasEffectOfSchool (fun s => decide (s = .kDestruction)) spell.effects then 11 / 10
        else 0, true) := by
    have ha : (isAzurasStar && w.config.AzurasStarBoost) = false := by
      cases isAzurasStar <;> cases h : w.config.AzurasStarBoost <;> simp_all
    simp [castModifiers, ha, hboost]
  have hdes := hasEffectOfSchool_iff (fun s => decide (s = .kDestruction)) spell.effects
  have hdur := hasEffectOfSchool_iff
    (fun s => decide (s = .kConjuration) || decide (s = .kAlteration)) spell.effects
  simp only [decide_eq_true_eq, Bool.or_eq_true] at hdes hdur
  have hdmg := CastStoredSpell_selfDamage w spell p true isReusableStar isAzurasStar source
    caster hcaster
  have hcast := CastStoredSpell_cast_event w spell p true isReusableStar isAzurasStar source
    caster hcaster
  rw [hmod] at hdmg hcast ⊢
  refine ⟨?_, ?_, ?_, ?_, ?_, hcast⟩
  · rw [← hdes]
    dsimp only
    split_ifs with h
    · simp [h]
    · simp only [h]
      norm_num
  · dsimp only
    split_ifs with h
    · intro hne
      exact absurd rfl hne
    · intro _
      rfl
  · rw [← hdur]
    dsimp only
    split_ifs with h
    · simp [h]
    · simp only [h]
      norm_num
  · dsimp only
    split_ifs with h
    · intro hne
      exact absurd rfl hne
    · intro _
      rfl
  · rw [hdmg, if_pos ⟨rfl, howner⟩]

/-- C29 witness: a black-soul gem and a Restoration spell, which has none of
the three schools: effectiveness 1, no magnitude override, and a self-damage
of 5 (5% of the sample player's 100 health). -/
theorem C29_black_soul_branch_witness :
    (castModifiers (emptyWorld Config.defaults).config sampleWardSpell true false false).1 = 1 ∧
      (castModifiers (emptyWorld Config.defaults).config sampleWardSpell true false false).2.1 =
        0 ∧
      selfDamage (CastStoredSpell (emptyWorld Config.defaults) sampleWardSpell samplePlayer true
        false false).events = [-5] := by
  obtain ⟨_, hmag, _, heff, hdmg, _⟩ :=
    C29_black_soul_branch (emptyWorld Config.defaults) sampleWardSpell samplePlayer false false
      .kRightHand ⟨30⟩ rfl (by decide) (by decide!) rfl
  refine ⟨heff (by decide!), hmag (by decide!), ?_⟩
  rw [hdmg]
  decide!

/-! ## Theorems: activation and consumption of one use -/

/-- `ConsumeStoredGemUse` on a record with at least two uses stores the record with one use less. -/
theorem ConsumeStoredGemUse_decrement (eng : Engine) (w : World) (baseGem : TESSoulGem)
    (k : GemKey) (d : StoredSpellData) (hplayer : w.player.isSome)
    (hspell : (eng.lookupSpell d.spellId).isSome) (h2 : 2 ≤ d.usesRemaining) :
    ConsumeStoredGemUse eng w baseGem k d =
      { w with serialization :=
          w.serialization.StoreSpell k { d with usesRemaining := d.usesRemaining - 1 } } := by
  obtain ⟨p, hp⟩ := Option.isSome_iff_exists.1 hplayer
  obtain ⟨sp, hsp⟩ := Option.isSome_iff_exists.1 hspell
  have hneg : ¬ d.usesRemaining < 0 := by omega
  have hle : ¬ d.usesRemaining - 1 ≤ 0 := by omega
  simp [ConsumeStoredGemUse, hneg, hp, hsp, hle]

/-- A successful activation of a record with at least two uses: the exit, the
store and the configuration afterwards. -/
theorem ActivateStoredGemSlot_decrement (eng : Engine) (w : World) (index : Nat) (key : GemKey)
    (stored : StoredSpellData) (spell : SpellItem) (baseGem : TESSoulGem)
    (hslot : (RefreshStoredGemSlots w).manager.storedGemSlots_[index]? = some key)
    (hstored : w.serialization.GetStoredSpell key = some stored)
    (huses : 2 ≤ stored.usesRemaining)
    (hspell : eng.lookupSpell stored.spellId = some spell)
    (hgem : eng.lookupSoulGem key.baseId = some baseGem)
    (hgate : ¬ (stored.lastUsedGameTime > 0 ∧
      Float32.lt (Float32.sub (.finite (gameTimeNow eng)) (.finite stored.lastUsedGameTime))
            (cooldownDays eng w.config stored)))
    (hplayer : w.player.isSome) :
    (ActivateStoredGemSlot eng w index).2 = .activated ∧
      (ActivateStoredGemSlot eng w index).1.serialization =
        w.serialization.StoreSpell key
          { stored with
            usesRemaining := stored.usesRemaining - 1
            lastUsedGameTime := gameTimeNow eng } ∧
      (ActivateStoredGemSlot eng w index).1.config = w.config := by
  obtain ⟨p, hp⟩ := Option.isSome_iff_exists.1 hplayer
  obtain ⟨as, ac, ap, _, _⟩ :=
    activateCast_frame (RefreshStoredGemSlots w) index key stored spell p
  have hp1 : (activateCast (RefreshStoredGemSlots w) index key stored spell p).player.isSome :=
    ap hplayer
  have hcons := ConsumeStoredGemUse_decrement eng
    (activateCast (RefreshStoredGemSlots w) index key stored spell p) baseGem key
    { stored with lastUsedGameTime := gameTimeNow eng } hp1 (by simp [hspell]) huses
  have hrun : ActivateStoredGemSlot eng w index =
      (RefreshStoredGemSlots
        (ConsumeStoredGemUse eng
          (activateCast (RefreshStoredGemSlots w) index key stored spell p)
          baseGem key { stored with lastUsedGameTime := gameTimeNow eng }), .activated) := by
    rw [ActivateStoredGemSlot_at_gate eng w index key stored spell hslot hstored hspell,
      if_neg hgate]
    simp only [hp, hgem]
  refine ⟨by rw [hrun], ?_, ?_⟩
  · rw [hrun, hcons]
    show (activateCast (RefreshStoredGemSlots w) index key stored spell p).serialization.StoreSpell
      key _ = _
    rw [as]
    rfl
  · rw [hrun, hcons]
    show (activateCast (RefreshStoredGemSlots w) index key stored spell p).config = _
    rw [ac]
    rfl

/-- The scenario of the Adept record: capture, a first activation at a positive
game time, and a second activation that the cooldown gate rejects. -/
theorem sampleScenario_run (eng1 eng2 : Engine) (cal1 cal2 : Calendar) (gem1 : TESSoulGem)
    (hspell1 : eng1.lookupSpell 0x1C789 = some sampleSpell)
    (hgem1 : eng1.lookupSoulGem 0xFF000900 = some gem1)
    (hcal1 : eng1.calendar = some cal1)
    (hnow1 : 0 < cal1.currentGameTime)
    (hspell2 : eng2.lookupSpell 0x1C789 = some sampleSpell)
    (hcal2 : eng2.calendar = some cal2)
    (hlt : Float32.lt
      (Float32.sub (.finite cal2.currentGameTime) (.finite cal1.currentGameTime))
      (Float32.mul (Float32.div (.finite 12) (.finite 86400)) (.finite cal2.timescale)) = true) :
    (ActivateStoredGemSlot eng1
        (TryStoreSelectedSpell (sampleCapture (sampleGem .kCommon) .kCommon)
          (emptyWorld Config.defaults)).1 0).2 = .activated ∧
      (ActivateStoredGemSlot eng1
        (TryStoreSelectedSpell (sampleCapture (sampleGem .kCommon) .kCommon)
          (emptyWorld Config.defaults)).1 0).1.serialization.GetStoredSpell ⟨0xFF000900, 1⟩ =
        some (sampleRecord .Adept 5 cal1.currentGameTime) ∧
      (ActivateStoredGemSlot eng2
        (ActivateStoredGemSlot eng1
          (TryStoreSelectedSpell (sampleCapture (sampleGem .kCommon) .kCommon)
            (emptyWorld Config.defaults)).1 0).1 0).2 = .onCooldown ∧
      (ActivateStoredGemSlot eng2
        (ActivateStoredGemSlot eng1
          (TryStoreSelectedSpell (sampleCapture (sampleGem .kCommon) .kCommon)
            (emptyWorld Config.defaults)).1 0).1 0).1.serialization.GetStoredSpell
          ⟨0xFF000900, 1⟩ = some (sampleRecord .Adept 5 cal1.currentGameTime) := by
  generalize hw0 : (TryStoreSelectedSpell (sampleCapture (sampleGem .kCommon) .kCommon)
    (emptyWorld Config.defaults)).1 = w0
  have hser0 : w0.serialization = ⟨[(⟨0xFF000900, 1⟩, sampleRecord .Adept 6 0)], 2⟩ := by
    rw [← hw0]
    decide!
  have hcfg0 : w0.config = Config.defaults := by
    rw [← hw0]
    rfl
  have hpl0 : w0.player.isSome := by
    rw [← hw0]
    decide!
  have hslot0 : (RefreshStoredGemSlots w0).manager.storedGemSlots_[0]? =
      some ⟨0xFF000900, 1⟩ := by
    simp only [RefreshStoredGemSlots, hser0, hcfg0]
    decide
  have hstored0 : w0.serialization.GetStoredSpell ⟨0xFF000900, 1⟩ =
      some (sampleRecord .Adept 6 0) := by
    rw [hser0]
    decide!
  have hnow : gameTimeNow eng1 = cal1.currentGameTime := by simp [gameTimeNow, hcal1]
  obtain ⟨hexit1, hser1, hcfg1⟩ := ActivateStoredGemSlot_decrement eng1 w0 0 ⟨0xFF000900, 1⟩
    (sampleRecord .Adept 6 0) sampleSpell gem1 hslot0 hstored0 (by decide) hspell1 hgem1
    (fun h => absurd h.1 (by decide!)) hpl0
  generalize ActivateStoredGemSlot eng1 w0 0 = r1 at hexit1 hser1 hcfg1 ⊢
  obtain ⟨w1, exit1⟩ := r1
  simp only [] at hexit1 hser1 hcfg1 ⊢
  have hrec : ({ sampleRecord .Adept 6 0 with
      usesRemaining := (sampleRecord .Adept 6 0).usesRemaining - 1
      lastUsedGameTime := gameTimeNow eng1 } : StoredSpellData) =
      sampleRecord .Adept 5 cal1.currentGameTime := by
    rw [hnow]
    simp [sampleRecord]
  rw [hrec, hser0] at hser1
  have hser1b : w1.serialization =
      ⟨[(⟨0xFF000900, 1⟩, sampleRecord .Adept 5 cal1.currentGameTime)], 2⟩ := by
    rw [hser1]
    simp [Serialization.StoreSpell, mapAssign]
  have hstored1 : w1.serialization.GetStoredSpell ⟨0xFF000900, 1⟩ =
      some (sampleRecord .Adept 5 cal1.currentGameTime) := by
    rw [hser1b]
    simp [Serialization.GetStoredSpell, mapFind]
  have hslot1 : (RefreshStoredGemSlots w1).manager.storedGemSlots_[0]? =
      some ⟨0xFF000900, 1⟩ := by
    simp only [RefreshStoredGemSlots, hser1b, hcfg1, hcfg0]
    rfl
  have hcd : cooldownDays eng2 w1.config (sampleRecord .Adept 5 cal1.currentGameTime) =
      Float32.mul (Float32.div (.finite 12) (.finite 86400)) (.finite cal2.timescale) := by
    rw [hcfg1, hcfg0]
    simp only [cooldownDays, hcal2, sampleRecord]
    norm_num [Config.defaults, Config.GetTierSettings]
  have hnow2 : gameTimeNow eng2 = cal2.currentGameTime := by simp [gameTimeNow, hcal2]
  have hgate : (sampleRecord .Adept 5 cal1.currentGameTime).lastUsedGameTime > 0 ∧
      Float32.lt (Float32.sub (.finite (gameTimeNow eng2))
        (.finite (sampleRecord .Adept 5 cal1.currentGameTime).lastUsedGameTime))
        (cooldownDays eng2 w1.config (sampleRecord .Adept 5 cal1.currentGameTime)) = true := by
    rw [hcd, hnow2]
    exact ⟨hnow1, hlt⟩
  have hrun2 := ActivateStoredGemSlot_at_gate eng2 w1 0 ⟨0xFF000900, 1⟩
    (sampleRecord .Adept 5 cal1.currentGameTime) sampleSpell hslot1 hstored1 hspell2
  rw [if_pos hgate] at hrun2
  refine ⟨hexit1, hstored1, ?_, ?_⟩
  · rw [hrun2]
  · rw [hrun2]
    exact hstored1
/-- C23 (as amended): for a stored record with `usesRemaining = n ≥ 2` whose
slot activation succeeds at game time `now` (slot in range, spell and gem
identities resolve, not on cooldown, player present), the store afterwards
holds under the same key the same record with `usesRemaining = n - 1` and
`lastUsedGameTime = now`, every other field equal, and every other record and
the id counter unchanged. Scenario, under the constructor's settings (maximum
5, Adept with cooldown 12 s and 6 uses): capturing the Adept sample spell into
a Common gem holding a Common soul creates a record with 6 uses; for every
engine state with a positive game time `now1` the first activation succeeds
and leaves 5 uses with `lastUsedGameTime = now1`; and for every later engine
state with game time `now2` and timescale `t` such that `now2 - now1` is less
than `12 / 86400 * t`, both as the code computes them in single precision, the
second activation is rejected and leaves 5 uses and `lastUsedGameTime = now1`. -/
theorem C23_activation_decrements (eng : Engine) (w : World) (index : Nat) (key : GemKey)
    (stored : StoredSpellData) (spell : SpellItem) (baseGem : TESSoulGem)
    (hslot : (RefreshStoredGemSlots w).manager.storedGemSlots_[index]? = some key)
    (hstored : w.serialization.GetStoredSpell key = some stored)
    (huses : 2 ≤ stored.usesRemaining)
    (hspell : eng.lookupSpell stored.spellId = some spell)
    (hgem : eng.lookupSoulGem key.baseId = some baseGem)
    (hgate : ¬ (stored.lastUsedGameTime > 0 ∧
      Float32.lt (Float32.sub (.finite (gameTimeNow eng)) (.finite stored.lastUsedGameTime))
            (cooldownDays eng w.config stored)))
    (hplayer : w.player.isSome) :
    ((ActivateStoredGemSlot eng w index).2 = .activated ∧
      (ActivateStoredGemSlot eng w index).1.serialization.GetStoredSpell key =
        some { stored with
          usesRemaining := stored.usesRemaining - 1
          lastUsedGameTime := gameTimeNow eng } ∧
      (∀ k2, k2 ≠ key →
        (ActivateStoredGemSlot eng w index).1.serialization.GetStoredSpell k2 =
          w.serialization.GetStoredSpell k2) ∧
      (ActivateStoredGemSlot eng w index).1.serialization.nextUniqueId_ =
        w.serialization.nextUniqueId_) ∧
    (Config.defaults.GetMaxStoredGems = 5 ∧
      Config.defaults.GetTierSettings .Adept = ⟨12, 6⟩ ∧
      TryGetSpellTier sampleSpell = some .Adept ∧
      (TryStoreSelectedSpell (sampleCapture (sampleGem .kCommon) .kCommon)
        (emptyWorld Config.defaults)).2 = .stored ∧
      (TryStoreSelectedSpell (sampleCapture (sampleGem .kCommon) .kCommon)
        (emptyWorld Config.defaults)).1.serialization.GetStoredSpell ⟨0xFF000900, 1⟩ =
        some (sampleRecord .Adept 6 0) ∧
      ∀ (eng1 eng2 : Engine) (cal1 cal2 : Calendar) (gem1 : TESSoulGem),
        eng1.lookupSpell 0x1C789 = some sampleSpell →
        eng1.lookupSoulGem 0xFF000900 = some gem1 →
        eng1.calendar = some cal1 →
        0 < cal1.currentGameTime →
        eng2.lookupSpell 0x1C789 = some sampleSpell →
        eng2.calendar = some cal2 →
        Float32.lt
          (Float32.sub (.finite cal2.currentGameTime) (.finite cal1.currentGameTime))
          (Float32.mul (Float32.div (.finite 12) (.finite 86400)) (.finite cal2.timescale)) =
          true →
        (ActivateStoredGemSlot eng1
          (TryStoreSelectedSpell (sampleCapture (sampleGem .kCommon) .kCommon)
            (emptyWorld Config.defaults)).1 0).2 = .activated ∧
        (ActivateStoredGemSlot eng1
          (TryStoreSelectedSpell (sampleCapture (sampleGem .kCommon) .kCommon)
            (emptyWorld Config.defaults)).1 0).1.serialization.GetStoredSpell ⟨0xFF000900, 1⟩ =
          some (sampleRecord .Adept 5 cal1.currentGameTime) ∧
        (ActivateStoredGemSlot eng2
          (ActivateStoredGemSlot eng1
            (TryStoreSelectedSpell (sampleCapture (sampleGem .kCommon) .kCommon)
              (emptyWorld Config.defaults)).1 0).1 0).2 = .onCooldown ∧
        (ActivateStoredGemSlot eng2
          (ActivateStoredGemSlot eng1
            (TryStoreSelectedSpell (sampleCapture (sampleGem .kCommon) .kCommon)
              (emptyWorld Config.defaults)).1 0).1 0).1.serialization.GetStoredSpell
            ⟨0xFF000900, 1⟩ = some (sampleRecord .Adept 5 cal1.currentGameTime)) := by
  constructor
  · obtain ⟨hexit, hser, _⟩ := ActivateStoredGemSlot_decrement eng w index key stored spell
      baseGem hslot hstored huses hspell hgem hgate hplayer
    refine ⟨hexit, ?_, ?_, ?_⟩
    · rw [hser]
      exact mapFind_mapAssign_self _ _ _
    · intro k2 hk2
      rw [hser]
      exact mapFind_mapAssign_ne _ _ _ _ hk2
    · rw [hser]
      rfl
  · refine ⟨by decide, by decide!, by decide, by decide!, by decide!, ?_⟩
    intro eng1 eng2 cal1 cal2 gem1 hspell1 hgem1 hcal1 hnow1 hspell2 hcal2 hlt
    exact sampleScenario_run eng1 eng2 cal1 cal2 gem1 hspell1 hgem1 hcal1 hnow1 hspell2 hcal2 hlt

/-- C23 witness: the sample record with 6 uses, never used, activated at game
time 2; and the scenario at timescale 20 with activations at game times 2 and
`2 + 1/1024`. -/
theorem C23_activation_decrements_witness :
    ((ActivateStoredGemSlot (sampleEngine (sampleGem .kCommon) 2)
        (sampleWorld Config.defaults (sampleRecord .Adept 6 0)) 0).2 = .activated ∧
      (ActivateStoredGemSlot (sampleEngine (sampleGem .kCommon) 2)
        (sampleWorld Config.defaults (sampleRecord .Adept 6 0)) 0).1.serialization.GetStoredSpell
        ⟨0xFF000800, 1⟩ =
        some { sampleRecord .Adept 6 0 with
          usesRemaining := (sampleRecord .Adept 6 0).usesRemaining - 1
          lastUsedGameTime := gameTimeNow (sampleEngine (sampleGem .kCommon) 2) }) ∧
    ((ActivateStoredGemSlot (sampleEngine ⟨0xFF000900, false, .kCommon⟩ (2 + 1 / 1024))
        (ActivateStoredGemSlot (sampleEngine ⟨0xFF000900, false, .kCommon⟩ 2)
          (TryStoreSelectedSpell (sampleCapture (sampleGem .kCommon) .kCommon)
            (emptyWorld Config.defaults)).1 0).1 0).2 = .onCooldown ∧
      (ActivateStoredGemSlot (sampleEngine ⟨0xFF000900, false, .kCommon⟩ (2 + 1 / 1024))
        (ActivateStoredGemSlot (sampleEngine ⟨0xFF000900, false, .kCommon⟩ 2)
          (TryStoreSelectedSpell (sampleCapture (sampleGem .kCommon) .kCommon)
            (emptyWorld Config.defaults)).1 0).1 0).1.serialization.GetStoredSpell
          ⟨0xFF000900, 1⟩ = some (sampleRecord .Adept 5 2)) := by
  have h := C23_activation_decrements (sampleEngine (sampleGem .kCommon) 2)
    (sampleWorld Config.defaults (sampleRecord .Adept 6 0)) 0 ⟨0xFF000800, 1⟩
    (sampleRecord .Adept 6 0) sampleSpell (sampleGem .kCommon) (by decide) (by decide)
    (by decide) (by decide) (by decide) (by decide!) (by decide)
  have h2 := h.2.2.2.2.2.2 (sampleEngine ⟨0xFF000900, false, .kCommon⟩ 2)
    (sampleEngine ⟨0xFF000900, false, .kCommon⟩ (2 + 1 / 1024)) ⟨20, 2⟩ ⟨20, 2 + 1 / 1024⟩
    ⟨0xFF000900, false, .kCommon⟩ (by decide) (by decide) rfl (by decide!) (by decide) rfl
    (by decide!)
  exact ⟨⟨h.1.1, h.1.2.1⟩, h2.2.2.1, h2.2.2.2⟩

/-- C23 counterexample: the scenario at timescale 9 with the first activation
at game time `5368709/2^32` and the second at twice that. The time elapsed
between them, `5368709/2^32`, is less than the 12 s of the Adept cooldown in
game time, `12 / 86400 * 9 = 1/800`; but the code computes the cooldown in
single precision as `5368709/2^32` (the quotient `12 / 86400` rounds to
`2386093/2^34`), which the elapsed time does not undercut: the second
activation is not rejected, the spell is cast again and 4 uses remain. -/
theorem C23_counterexample_rounded_cooldown :
    (0 : ℚ) < 5368709 / 2 ^ 32 ∧
      (2 * (5368709 / 2 ^ 32) - 5368709 / 2 ^ 32 : ℚ) <
        (Config.defaults.GetTierSettings .Adept).cooldown / 86400 * 9 ∧
      Float32.div (.finite (Config.defaults.GetTierSettings .Adept).cooldown) (.finite 86400) =
        .finite (2386093 / 2 ^ 34) ∧
      cooldownDays (sampleEngineAt ⟨0xFF000900, false, .kCommon⟩ 9 (2 * (5368709 / 2 ^ 32)))
        Config.defaults (sampleRecord .Adept 5 (5368709 / 2 ^ 32)) =
        .finite (5368709 / 2 ^ 32) ∧
      Float32.sub (.finite (2 * (5368709 / 2 ^ 32))) (.finite (5368709 / 2 ^ 32)) =
        .finite (5368709 / 2 ^ 32) ∧
      (ActivateStoredGemSlot (sampleEngineAt ⟨0xFF000900, false, .kCommon⟩ 9 (5368709 / 2 ^ 32))
        (TryStoreSelectedSpell (sampleCapture (sampleGem .kCommon) .kCommon)
          (emptyWorld Config.defaults)).1 0).1.serialization.GetStoredSpell ⟨0xFF000900, 1⟩ =
        some (sampleRecord .Adept 5 (5368709 / 2 ^ 32)) ∧
      (ActivateStoredGemSlot
        (sampleEngineAt ⟨0xFF000900, false, .kCommon⟩ 9 (2 * (5368709 / 2 ^ 32)))
        (ActivateStoredGemSlot
          (sampleEngineAt ⟨0xFF000900, false, .kCommon⟩ 9 (5368709 / 2 ^ 32))
          (TryStoreSelectedSpell (sampleCapture (sampleGem .kCommon) .kCommon)
            (emptyWorld Config.defaults)).1 0).1 0).2 = .activated ∧
      castsMade (ActivateStoredGemSlot
        (sampleEngineAt ⟨0xFF000900, false, .kCommon⟩ 9 (2 * (5368709 / 2 ^ 32)))
        (ActivateStoredGemSlot
          (sampleEngineAt ⟨0xFF000900, false, .kCommon⟩ 9 (5368709 / 2 ^ 32))
          (TryStoreSelectedSpell (sampleCapture (sampleGem .kCommon) .kCommon)
            (emptyWorld Config.defaults)).1 0).1 0).1.events = [0x1C789, 0x1C789] ∧
      (ActivateStoredGemSlot
        (sampleEngineAt ⟨0xFF000900, false, .kCommon⟩ 9 (2 * (5368709 / 2 ^ 32)))
        (ActivateStoredGemSlot
          (sampleEngineAt ⟨0xFF000900, false, .kCommon⟩ 9 (5368709 / 2 ^ 32))
          (TryStoreSelectedSpell (sampleCapture (sampleGem .kCommon) .kCommon)
            (emptyWorld Config.defaults)).1 0).1 0).1.serialization.GetStoredSpell
          ⟨0xFF000900, 1⟩ = some (sampleRecord .Adept 4 (2 * (5368709 / 2 ^ 32))) := by
  decide!

/-! ## Theorems: the external-removal path -/

theorem GrantFragmentsToPlayer_castsMade (eng : Engine) (w : World) (tier : SpellTier) :
    castsMade (GrantFragmentsToPlayer eng w tier).events = castsMade w.events := by
  unfold GrantFragmentsToPlayer
  simp only []
  split_ifs
  · rfl
  · rfl
  · cases hp : w.player <;> simp [World.emit, castsMade_append, castsMade, hp]

/-- `CastStoredSpell` makes exactly one cast, of the given spell, when a channel exists. -/
theorem CastStoredSpell_castsMade (w : World) (spell : SpellItem) (p : PlayerCharacter)
    (b s a : Bool) (hcaster : (selectCaster p).isSome) :
    castsMade (CastStoredSpell w spell p b s a).events = castsMade w.events ++ [spell.formID] := by
  obtain ⟨sc, hsc⟩ := Option.isSome_iff_exists.1 hcaster
  obtain ⟨source, caster⟩ := sc
  unfold CastStoredSpell
  rw [hsc]
  generalize castModifiers w.config spell b s a = cm
  obtain ⟨eff, mag, blackBranch⟩ := cm
  simp only []
  split_ifs <;> simp [World.emit, castsMade_append, castsMade]

/-- What the tier correction of `HandleContainerChanged` changes: only the
tier of the record under `key`. -/
theorem correctStoredTier_frame (w : World) (key : GemKey) (stored : StoredSpellData)
    (spell : SpellItem) (hstored : w.serialization.GetStoredSpell key = some stored) :
    (correctStoredTier w key stored spell).2 =
        { stored with tier := (correctStoredTier w key stored spell).2.tier } ∧
      (correctStoredTier w key stored spell).1.serialization.GetStoredSpell key =
        some (correctStoredTier w key stored spell).2 ∧
      (∀ k2, k2 ≠ key →
        (correctStoredTier w key stored spell).1.serialization.GetStoredSpell k2 =
          w.serialization.GetStoredSpell k2) ∧
      (correctStoredTier w key stored spell).1.serialization.nextUniqueId_ =
        w.serialization.nextUniqueId_ ∧
      (correctStoredTier w key stored spell).1.config = w.config ∧
      (correctStoredTier w key stored spell).1.manager = w.manager ∧
      (correctStoredTier w key stored spell).1.player = w.player ∧
      (correctStoredTier w key stored spell).1.events = w.events := by
  unfold correctStoredTier
  cases TryGetSpellTier spell with
  | none => exact ⟨rfl, hstored, fun _ _ => rfl, rfl, rfl, rfl, rfl, rfl⟩
  | some t =>
    simp only []
    split_ifs with h
    · exact ⟨rfl, mapFind_mapAssign_self _ _ _, fun k2 hk2 => mapFind_mapAssign_ne _ _ _ _ hk2,
        rfl, rfl, rfl, rfl, rfl⟩
    · exact ⟨rfl, hstored, fun _ _ => rfl, rfl, rfl, rfl, rfl, rfl⟩

/-- The path of `HandleContainerChanged` for an event that passes its checks
and names a stored record whose spell resolves. -/
theorem HandleContainerChanged_resolved (eng : Engine) (w : World)
    (event : TESContainerChangedEvent) (player : PlayerCharacter) (stored : StoredSpellData)
    (spell : SpellItem) (hplayer : w.player = some player)
    (hold : event.oldContainer = player.formID) (hnew : event.newContainer = 0)
    (hcount : event.itemCount < 0) (href : event.reference = false)
    (hstored : w.serialization.GetStoredSpell ⟨event.baseObj, event.uniqueID⟩ = some stored)
    (hspell : eng.lookupSpell stored.spellId = some spell) :
    HandleContainerChanged eng w event =
      if (if stored.usesRemaining > 0 then stored.usesRemaining - 1 else stored.usesRemaining) =
          0 then
        match eng.lookupSoulGem event.baseObj with
        | some gem =>
          GrantFragmentsToPlayer eng
            (({ CastStoredSpell (correctStoredTier w ⟨event.baseObj, event.uniqueID⟩ stored spell).1
                  spell player stored.isBlackSoulGem stored.isReusableStar
                  (IsAzurasStar event.baseObj) with
                serialization :=
                  (CastStoredSpell
                    (correctStoredTier w ⟨event.baseObj, event.uniqueID⟩ stored spell).1 spell
                    player stored.isBlackSoulGem stored.isReusableStar
                    (IsAzurasStar event.baseObj)).serialization.RemoveStoredSpell
                    ⟨event.baseObj, event.uniqueID⟩ } : World).emit (.removeItem gem.formID 1))
            (GetGemTier gem)
        | none =>
          ({ CastStoredSpell (correctStoredTier w ⟨event.baseObj, event.uniqueID⟩ stored spell).1
                spell player stored.isBlackSoulGem stored.isReusableStar
                (IsAzurasStar event.baseObj) with
              serialization :=
                (CastStoredSpell
                  (correctStoredTier w ⟨event.baseObj, event.uniqueID⟩ stored spell).1 spell
                  player stored.isBlackSoulGem stored.isReusableStar
                  (IsAzurasStar event.baseObj)).serialization.RemoveStoredSpell
                  ⟨event.baseObj, event.uniqueID⟩ } : World).emit (.removeItem 0 1)
      else
        { CastStoredSpell (correctStoredTier w ⟨event.baseObj, event.uniqueID⟩ stored spell).1
            spell player stored.isBlackSoulGem stored.isReusableStar
            (IsAzurasStar event.baseObj) with
          serialization :=
            (CastStoredSpell (correctStoredTier w ⟨event.baseObj, event.uniqueID⟩ stored spell).1
              spell player stored.isBlackSoulGem stored.isReusableStar
              (IsAzurasStar event.baseObj)).serialization.StoreSpell
              ⟨event.baseObj, event.uniqueID⟩
              { (correctStoredTier w ⟨event.baseObj, event.uniqueID⟩ stored spell).2 with
                usesRemaining :=
                  if stored.usesRemaining > 0 then stored.usesRemaining - 1
                  else stored.usesRemaining } } := by
  have hfields := (correctStoredTier_frame w ⟨event.baseObj, event.uniqueID⟩ stored spell
    hstored).1
  have hu : (correctStoredTier w ⟨event.baseObj, event.uniqueID⟩ stored spell).2.usesRemaining =
      stored.usesRemaining := by rw [hfields]
  have hb : (correctStoredTier w ⟨event.baseObj, event.uniqueID⟩ stored spell).2.isBlackSoulGem =
      stored.isBlackSoulGem := by rw [hfields]
  have hs : (correctStoredTier w ⟨event.baseObj, event.uniqueID⟩ stored spell).2.isReusableStar =
      stored.isReusableStar := by rw [hfields]
  have hgate : ¬ (event.oldContainer ≠ player.formID ∨ event.newContainer ≠ 0 ∨
      event.itemCount ≥ 0) := by
    rintro (h | h | h)
    · exact h hold
    · exact h hnew
    · omega
  unfold HandleContainerChanged
  simp only [hplayer, if_neg hgate, href, Bool.false_eq_true, if_false, hstored, hspell, hu, hb,
    hs]
  generalize (if stored.usesRemaining > 0 then stored.usesRemaining - 1
    else stored.usesRemaining) = newUses
  by_cases h0 : newUses = 0
  · rw [if_pos h0, if_pos h0]
    cases eng.lookupSoulGem event.baseObj <;> rfl
  · rw [if_neg h0, if_neg h0]

/-- The result of `HandleContainerChanged` for an event that passes its checks
and names a stored record whose spell resolves: the record under the key, the
other records, the id counter, the casts and the item removals. -/
theorem HandleContainerChanged_outcome (eng : Engine) (w : World)
    (event : TESContainerChangedEvent) (player : PlayerCharacter) (stored : StoredSpellData)
    (spell : SpellItem) (hplayer : w.player = some player)
    (hold : event.oldContainer = player.formID) (hnew : event.newContainer = 0)
    (hcount : event.itemCount < 0) (href : event.reference = false)
    (hstored : w.serialization.GetStoredSpell ⟨event.baseObj, event.uniqueID⟩ = some stored)
    (hspell : eng.lookupSpell stored.spellId = some spell) :
    (HandleContainerChanged eng w event).serialization.GetStoredSpell
        ⟨event.baseObj, event.uniqueID⟩ =
        (if stored.usesRemaining = 0 ∨ stored.usesRemaining = 1 then none
         else some { (correctStoredTier w ⟨event.baseObj, event.uniqueID⟩ stored spell).2 with
           usesRemaining :=
             if stored.usesRemaining > 0 then stored.usesRemaining - 1
             else stored.usesRemaining }) ∧
      (∀ k2, k2 ≠ ⟨event.baseObj, event.uniqueID⟩ →
        (HandleContainerChanged eng w event).serialization.GetStoredSpell k2 =
          w.serialization.GetStoredSpell k2) ∧
      (HandleContainerChanged eng w event).serialization.nextUniqueId_ =
        w.serialization.nextUniqueId_ ∧
      ((selectCaster player).isSome →
        castsMade (HandleContainerChanged eng w event).events =
          castsMade w.events ++ [spell.formID]) ∧
      (¬ (stored.usesRemaining = 0 ∨ stored.usesRemaining = 1) →
        itemsRemoved (HandleContainerChanged eng w event).events = itemsRemoved w.events) := by
  obtain ⟨_, _, cother, cid, _, _, _, cev⟩ :=
    correctStoredTier_frame w ⟨event.baseObj, event.uniqueID⟩ stored spell hstored
  obtain ⟨fs, _, _, _, _, _, fi⟩ := CastStoredSpell_frame
    (correctStoredTier w ⟨event.baseObj, event.uniqueID⟩ stored spell).1 spell player
    stored.isBlackSoulGem stored.isReusableStar (IsAzurasStar event.baseObj)
  have fc := CastStoredSpell_castsMade
    (correctStoredTier w ⟨event.baseObj, event.uniqueID⟩ stored spell).1 spell player
    stored.isBlackSoulGem stored.isReusableStar (IsAzurasStar event.baseObj)
  rw [HandleContainerChanged_resolved eng w event player stored spell hplayer hold hnew hcount
    href hstored hspell]
  by_cases h0 : (if stored.usesRemaining > 0 then stored.usesRemaining - 1
      else stored.usesRemaining) = 0
  · have h01 : stored.usesRemaining = 0 ∨ stored.usesRemaining = 1 := by
      split_ifs at h0 <;> omega
    rw [if_pos h0, if_pos h01]
    cases eng.lookupSoulGem event.baseObj with
    | none =>
      refine ⟨mapFind_mapErase_self _ _, ?_, ?_, ?_, fun h => absurd h01 h⟩
      · intro k2 hk2
        show mapFind (mapErase _ _) k2 = _
        rw [mapFind_mapErase_ne _ _ _ hk2]
        show Serialization.GetStoredSpell _ k2 = _
        rw [fs]
        exact cother k2 hk2
      · show (Serialization.RemoveStoredSpell _ _).nextUniqueId_ = _
        rw [RemoveStoredSpell_nextUniqueId, fs]
        exact cid
      · intro hc
        simp only [World.emit, castsMade_append, fc hc, cev]
        simp [castsMade]
    | some gem =>
      obtain ⟨gs, _, _, _, _⟩ := GrantFragmentsToPlayer_frame eng
        (({ CastStoredSpell (correctStoredTier w ⟨event.baseObj, event.uniqueID⟩ stored spell).1
              spell player stored.isBlackSoulGem stored.isReusableStar
              (IsAzurasStar event.baseObj) with
            serialization :=
              (CastStoredSpell
                (correctStoredTier w ⟨event.baseObj, event.uniqueID⟩ stored spell).1 spell
                player stored.isBlackSoulGem stored.isReusableStar
                (IsAzurasStar event.baseObj)).serialization.RemoveStoredSpell
                ⟨event.baseObj, event.uniqueID⟩ } : World).emit (.removeItem gem.formID 1))
        (GetGemTier gem)
      simp only []
      rw [gs, GrantFragmentsToPlayer_castsMade]
      refine ⟨mapFind_mapErase_self _ _, ?_, ?_, ?_, fun h => absurd h01 h⟩
      · intro k2 hk2
        show mapFind (mapErase _ _) k2 = _
        rw [mapFind_mapErase_ne _ _ _ hk2]
        show Serialization.GetStoredSpell _ k2 = _
        rw [fs]
        exact cother k2 hk2
      · show (Serialization.RemoveStoredSpell _ _).nextUniqueId_ = _
        rw [RemoveStoredSpell_nextUniqueId, fs]
        exact cid
      · intro hc
        simp only [World.emit, castsMade_append, fc hc, cev]
        simp [castsMade]
  · have h01 : ¬ (stored.usesRemaining = 0 ∨ stored.usesRemaining = 1) := by
      intro h
      apply h0
      rcases h with h | h <;> simp [h]
    rw [if_neg h0, if_neg h01]
    refine ⟨mapFind_mapAssign_self _ _ _, ?_, ?_, ?_, fun _ => ?_⟩
    · intro k2 hk2
      show mapFind (mapAssign _ _ _) k2 = _
      rw [mapFind_mapAssign_ne _ _ _ _ hk2]
      show Serialization.GetStoredSpell _ k2 = _
      rw [fs]
      exact cother k2 hk2
    · show (Serialization.StoreSpell _ _ _).nextUniqueId_ = _
      rw [StoreSpell_nextUniqueId, fs]
      exact cid
    · intro hc
      show castsMade (CastStoredSpell _ _ _ _ _ _).events = _
      rw [fc hc, cev]
    · show itemsRemoved (CastStoredSpell _ _ _ _ _ _).events = _
      rw [fi, cev]

/-- An event that fails one of the handler's checks changes nothing. -/
theorem HandleContainerChanged_ignored (eng : Engine) (w : World)
    (event : TESContainerChangedEvent)
    (h : ∀ player, w.player = some player →
      event.oldContainer ≠ player.formID ∨ event.newContainer ≠ 0 ∨ event.itemCount ≥ 0 ∨
        event.reference = true) :
    HandleContainerChanged eng w event = w := by
  unfold HandleContainerChanged
  cases hp : w.player with
  | none => rfl
  | some player =>
    simp only []
    rcases h player hp with h1 | h1 | h1 | h1
    · rw [if_pos (Or.inl h1)]
    · rw [if_pos (Or.inr (Or.inl h1))]
    · rw [if_pos (Or.inr (Or.inr h1))]
    · by_cases hg : event.oldContainer ≠ player.formID ∨ event.newContainer ≠ 0 ∨
          event.itemCount ≥ 0
      · rw [if_pos hg]
      · rw [if_neg hg, if_pos h1]

/-- The record under `k` after `ConsumeStoredGemUse`, by the number of uses. -/
theorem ConsumeStoredGemUse_lookup (eng : Engine) (w : World) (baseGem : TESSoulGem)
    (k : GemKey) (d : StoredSpellData) (hplayer : w.player.isSome)
    (hspell : (eng.lookupSpell d.spellId).isSome) :
    (ConsumeStoredGemUse eng w baseGem k d).serialization.GetStoredSpell k =
      if d.usesRemaining = 0 ∨ d.usesRemaining = 1 then none
      else some { d with
        usesRemaining := if d.usesRemaining > 0 then d.usesRemaining - 1 else d.usesRemaining } := by
  by_cases hneg : d.usesRemaining < 0
  · have hEq : ConsumeStoredGemUse eng w baseGem k d =
        { w with serialization := w.serialization.StoreSpell k d } := by
      simp [ConsumeStoredGemUse, hneg]
    rw [hEq, if_neg (by omega), if_neg (by omega)]
    exact mapFind_mapAssign_self _ _ _
  · by_cases h2 : 2 ≤ d.usesRemaining
    · rw [ConsumeStoredGemUse_decrement eng w baseGem k d hplayer hspell h2, if_neg (by omega),
        if_pos (by omega)]
      exact mapFind_mapAssign_self _ _ _
    · rw [ConsumeStoredGemUse_depleted eng w baseGem k d hplayer hspell (by omega) (by omega),
        if_pos (by omega), (GrantFragmentsToPlayer_frame eng _ _).1]
      exact mapFind_mapErase_self _ _

/-- C24: for every stored record (every `usesRemaining`) whose spell resolves,
named by an event that passes the handler's checks, the external-removal path
has the effect on the record's uses that `ConsumeStoredGemUse` has on the same
record: the key is absent afterwards in the same cases (uses 0 or 1) and
otherwise the stored `usesRemaining` is the same value (one less for at least
2, unchanged when negative). The external path leaves `lastUsedGameTime` as it
is and does not test it: the cast is made whatever its value and the game time are. -/
theorem C24_external_path_consumes_alike (eng : Engine) (w : World)
    (event : TESContainerChangedEvent) (player : PlayerCharacter) (stored : StoredSpellData)
    (spell : SpellItem) (baseGem : TESSoulGem) (hplayer : w.player = some player)
    (hold : event.oldContainer = player.formID) (hnew : event.newContainer = 0)
    (hcount : event.itemCount < 0) (href : event.reference = false)
    (hstored : w.serialization.GetStoredSpell ⟨event.baseObj, event.uniqueID⟩ = some stored)
    (hspell : eng.lookupSpell stored.spellId = some spell) :
    ((HandleContainerChanged eng w event).serialization.GetStoredSpell
        ⟨event.baseObj, event.uniqueID⟩).map StoredSpellData.usesRemaining =
        ((ConsumeStoredGemUse eng w baseGem ⟨event.baseObj, event.uniqueID⟩
          stored).serialization.GetStoredSpell
          ⟨event.baseObj, event.uniqueID⟩).map StoredSpellData.usesRemaining ∧
      ((HandleContainerChanged eng w event).serialization.GetStoredSpell
          ⟨event.baseObj, event.uniqueID⟩ = none ↔
        (ConsumeStoredGemUse eng w baseGem ⟨event.baseObj, event.uniqueID⟩
          stored).serialization.GetStoredSpell ⟨event.baseObj, event.uniqueID⟩ = none) ∧
      ((HandleContainerChanged eng w event).serialization.GetStoredSpell
          ⟨event.baseObj, event.uniqueID⟩ = none ↔
        (stored.usesRemaining = 0 ∨ stored.usesRemaining = 1)) ∧
      (∀ r, (HandleContainerChanged eng w event).serialization.GetStoredSpell
          ⟨event.baseObj, event.uniqueID⟩ = some r →
        r.lastUsedGameTime = stored.lastUsedGameTime ∧
        r.usesRemaining =
          if 2 ≤ stored.usesRemaining then stored.usesRemaining - 1 else stored.usesRemaining) ∧
      ((selectCaster player).isSome →
        castsMade (HandleContainerChanged eng w event).events =
          castsMade w.events ++ [spell.formID]) := by
  obtain ⟨hH, _, _, hcast, _⟩ := HandleContainerChanged_outcome eng w event player stored spell
    hplayer hold hnew hcount href hstored hspell
  have hC := ConsumeStoredGemUse_lookup eng w baseGem ⟨event.baseObj, event.uniqueID⟩ stored
    (by rw [hplayer]; rfl) (by rw [hspell]; rfl)
  have hfields := (correctStoredTier_frame w ⟨event.baseObj, event.uniqueID⟩ stored spell
    hstored).1
  rw [hH, hC]
  by_cases h01 : stored.usesRemaining = 0 ∨ stored.usesRemaining = 1
  · rw [if_pos h01, if_pos h01]
    refine ⟨rfl, Iff.rfl, ⟨fun _ => h01, fun _ => rfl⟩, ?_, hcast⟩
    intro r hr
    cases hr
  · rw [if_neg h01, if_neg h01]
    refine ⟨rfl, ⟨fun h => (by cases h), fun h => (by cases h)⟩,
      ⟨fun h => (by cases h), fun h => absurd h h01⟩, ?_, hcast⟩
    intro r hr
    cases hr
    refine ⟨by rw [hfields], ?_⟩
    show (if stored.usesRemaining > 0 then stored.usesRemaining - 1 else stored.usesRemaining) = _
    split_ifs <;> omega

/-- C24 witness: one unit of the sample gem, holding a record with 6 uses,
leaves the sample player. -/
theorem C24_external_path_consumes_alike_witness :
    ((HandleContainerChanged (sampleEngine (sampleGem .kCommon) 2)
        (sampleWorld Config.defaults (sampleRecord .Adept 6 1))
        (sampleRemovalEvent (-1))).serialization.GetStoredSpell
        ⟨0xFF000800, 1⟩).map StoredSpellData.usesRemaining = some 5 ∧
      ((ConsumeStoredGemUse (sampleEngine (sampleGem .kCommon) 2)
        (sampleWorld Config.defaults (sampleRecord .Adept 6 1)) (sampleGem .kCommon)
        ⟨0xFF000800, 1⟩ (sampleRecord .Adept 6 1)).serialization.GetStoredSpell
        ⟨0xFF000800, 1⟩).map StoredSpellData.usesRemaining = some 5 := by
  have h := (C24_external_path_consumes_alike (sampleEngine (sampleGem .kCommon) 2)
    (sampleWorld Config.defaults (sampleRecord .Adept 6 1)) (sampleRemovalEvent (-1))
    samplePlayer (sampleRecord .Adept 6 1) sampleSpell (sampleGem .kCommon) rfl rfl rfl
    (by decide) rfl (by decide) (by decide)).1
  have hc : ((ConsumeStoredGemUse (sampleEngine (sampleGem .kCommon) 2)
      (sampleWorld Config.defaults (sampleRecord .Adept 6 1)) (sampleGem .kCommon)
      ⟨0xFF000800, 1⟩ (sampleRecord .Adept 6 1)).serialization.GetStoredSpell
      ⟨0xFF000800, 1⟩).map StoredSpellData.usesRemaining = some 5 := by decide!
  exact ⟨h.trans hc, hc⟩


/-- C27 (as amended): for every container-change event with a negative item
count in which the item leaves the player (old container is the player) with
no destination container and no reference, and whose (base identity, unique
id) names a stored record with a resolvable spell, `HandleContainerChanged`
acts as an external activation: the spell is cast (one cast, when a casting
channel exists), and the record is deleted when it has 0 or 1 uses, holds one
use less when it has at least 2, and keeps its negative (unlimited) uses
otherwise. Every event that has a destination container, a reference, an old
container other than the player, or an item count that is not negative leaves
the whole state unchanged. -/
theorem C27_external_removal (eng : Engine) (w : World) (event : TESContainerChangedEvent)
    (player : PlayerCharacter) (stored : StoredSpellData) (spell : SpellItem)
    (w2 : World) (event2 : TESContainerChangedEvent)
    (hplayer : w.player = some player)
    (hold : event.oldContainer = player.formID) (hnew : event.newContainer = 0)
    (hcount : event.itemCount < 0) (href : event.reference = false)
    (hstored : w.serialization.GetStoredSpell ⟨event.baseObj, event.uniqueID⟩ = some stored)
    (hspell : eng.lookupSpell stored.spellId = some spell) :
    ((selectCaster player).isSome →
        castsMade (HandleContainerChanged eng w event).events =
          castsMade w.events ++ [spell.formID]) ∧
      (stored.usesRemaining = 0 ∨ stored.usesRemaining = 1 →
        (HandleContainerChanged eng w event).serialization.GetStoredSpell
          ⟨event.baseObj, event.uniqueID⟩ = none) ∧
      (2 ≤ stored.usesRemaining →
        ∃ r, (HandleContainerChanged eng w event).serialization.GetStoredSpell
            ⟨event.baseObj, event.uniqueID⟩ = some r ∧
          r.usesRemaining = stored.usesRemaining - 1) ∧
      (stored.usesRemaining < 0 →
        ∃ r, (HandleContainerChanged eng w event).serialization.GetStoredSpell
            ⟨event.baseObj, event.uniqueID⟩ = some r ∧
          r.usesRemaining = stored.usesRemaining) ∧
      ((∀ p2, w2.player = some p2 →
          event2.oldContainer ≠ p2.formID ∨ event2.newContainer ≠ 0 ∨ event2.itemCount ≥ 0 ∨
            event2.reference = true) →
        HandleContainerChanged eng w2 event2 = w2) := by
  obtain ⟨hH, _, _, hcast, _⟩ := HandleContainerChanged_outcome eng w event player stored spell
    hplayer hold hnew hcount href hstored hspell
  refine ⟨hcast, ?_, ?_, ?_, HandleContainerChanged_ignored eng w2 event2⟩
  · intro h01
    rw [hH, if_pos h01]
  · intro h2
    rw [hH, if_neg (by omega)]
    exact ⟨_, rfl, if_pos (by omega)⟩
  · intro hneg
    rw [hH, if_neg (by omega)]
    exact ⟨_, rfl, if_neg (by omega)⟩

/-- C27 witness: an event with item count -1 for the sample gem, whose record has 6 uses. -/
theorem C27_external_removal_witness :
    castsMade (HandleContainerChanged (sampleEngine (sampleGem .kCommon) 2)
        (sampleWorld Config.defaults (sampleRecord .Adept 6 1))
        (sampleRemovalEvent (-1))).events = [sampleSpell.formID] ∧
      ∃ r, (HandleContainerChanged (sampleEngine (sampleGem .kCommon) 2)
          (sampleWorld Config.defaults (sampleRecord .Adept 6 1))
          (sampleRemovalEvent (-1))).serialization.GetStoredSpell ⟨0xFF000800, 1⟩ = some r ∧
        r.usesRemaining = (sampleRecord .Adept 6 1).usesRemaining - 1 := by
  obtain ⟨hcast, _, hdec, _, _⟩ := C27_external_removal (sampleEngine (sampleGem .kCommon) 2)
    (sampleWorld Config.defaults (sampleRecord .Adept 6 1)) (sampleRemovalEvent (-1))
    samplePlayer (sampleRecord .Adept 6 1) sampleSpell
    (sampleWorld Config.defaults (sampleRecord .Adept 6 1)) (sampleRemovalEvent 1)
    rfl rfl rfl (by decide) rfl (by decide) (by decide)
  exact ⟨hcast (by decide), hdec (by decide)⟩

/-- C27 counterexample: one unit (item count 1) of the sample gem leaves the
sample player with no destination container and no reference; the key names a
stored record with 6 uses whose spell resolves. The handler returns at its
first check: no cast is made and the record keeps its 6 uses. -/
theorem C27_counterexample_positive_item_count :
    (sampleRemovalEvent 1).itemCount = 1 ∧
      (sampleWorld Config.defaults (sampleRecord .Adept 6 1)).player = some samplePlayer ∧
      (sampleRemovalEvent 1).oldContainer = samplePlayer.formID ∧
      (sampleRemovalEvent 1).newContainer = 0 ∧
      (sampleRemovalEvent 1).reference = false ∧
      (sampleWorld Config.defaults (sampleRecord .Adept 6 1)).serialization.GetStoredSpell
        ⟨(sampleRemovalEvent 1).baseObj, (sampleRemovalEvent 1).uniqueID⟩ =
        some (sampleRecord .Adept 6 1) ∧
      ((sampleEngine (sampleGem .kCommon) 2).lookupSpell
        (sampleRecord .Adept 6 1).spellId).isSome ∧
      castsMade (HandleContainerChanged (sampleEngine (sampleGem .kCommon) 2)
        (sampleWorld Config.defaults (sampleRecord .Adept 6 1))
        (sampleRemovalEvent 1)).events = [] ∧
      (HandleContainerChanged (sampleEngine (sampleGem .kCommon) 2)
        (sampleWorld Config.defaults (sampleRecord .Adept 6 1))
        (sampleRemovalEvent 1)).serialization.GetStoredSpell ⟨0xFF000800, 1⟩ =
        some (sampleRecord .Adept 6 1) := by
  decide!
/-! ## Theorems: failures while creating the stored-gem form -/

/-- `GetOrCreateStoredGemForm` leaves the store and the player alone and makes
no inventory call; it yields no form exactly when the cache has no entry and
the duplication fails, and then it changes nothing. -/
theorem GetOrCreateStoredGemForm_frame (ceng : CaptureEngine) (w : World) (baseGem : TESSoulGem)
    (spell : SpellItem) (tier : SpellTier) (uses : Int) :
    (GetOrCreateStoredGemForm ceng w baseGem spell tier uses).2.serialization =
        w.serialization ∧
      (GetOrCreateStoredGemForm ceng w baseGem spell tier uses).2.player = w.player ∧
      (GetOrCreateStoredGemForm ceng w baseGem spell tier uses).2.config = w.config ∧
      itemsRemoved (GetOrCreateStoredGemForm ceng w baseGem spell tier uses).2.events =
        itemsRemoved w.events ∧
      rewardGrants (GetOrCreateStoredGemForm ceng w baseGem spell tier uses).2.events =
        rewardGrants w.events ∧
      ((GetOrCreateStoredGemForm ceng w baseGem spell tier uses).1 = none →
        (GetOrCreateStoredGemForm ceng w baseGem spell tier uses).2 = w) := by
  unfold GetOrCreateStoredGemForm
  simp only []
  split
  · simp
  · split
    · simp
    · split <;>
        simp [World.emit, itemsRemoved_append, rewardGrants_append, itemsRemoved, rewardGrants]

/-- When the cache has no entry and the duplication fails, no form is yielded. -/
theorem GetOrCreateStoredGemForm_duplication_fails (ceng : CaptureEngine) (w : World)
    (baseGem : TESSoulGem) (spell : SpellItem) (tier : SpellTier) (uses : Int)
    (hcache : w.manager.storedGemForms_.find? (fun e => decide (e.1 =
      ({ baseId := baseGem.formID, spellId := spell.formID, tier := tier,
         usesRemaining := uses } : StoredGemFormKey))) = none)
    (hdup : ceng.createDuplicateForm baseGem = none) :
    GetOrCreateStoredGemForm ceng w baseGem spell tier uses = (none, w) := by
  unfold GetOrCreateStoredGemForm
  simp only [hcache, hdup]

/-- When the cache has no entry and the duplication succeeds, the new form is
yielded and cached whatever the registration returns. -/
theorem GetOrCreateStoredGemForm_duplicated (ceng : CaptureEngine) (w : World)
    (baseGem : TESSoulGem) (spell : SpellItem) (tier : SpellTier) (uses : Int)
    (storedGem : TESSoulGem)
    (hcache : w.manager.storedGemForms_.find? (fun e => decide (e.1 =
      ({ baseId := baseGem.formID, spellId := spell.formID, tier := tier,
         usesRemaining := uses } : StoredGemFormKey))) = none)
    (hdup : ceng.createDuplicateForm baseGem = some storedGem) :
    (GetOrCreateStoredGemForm ceng w baseGem spell tier uses).1 = some storedGem ∧
      (GetOrCreateStoredGemForm ceng w baseGem spell tier uses).2.manager.storedGemForms_ =
        w.manager.storedGemForms_ ++
          [({ baseId := baseGem.formID, spellId := spell.formID, tier := tier,
              usesRemaining := uses }, storedGem)] ∧
      (∀ addForm, ceng.dataHandler = some addForm →
        GameEvent.addFormToDataHandler storedGem.formID (addForm storedGem) ∈
          (GetOrCreateStoredGemForm ceng w baseGem spell tier uses).2.events) := by
  unfold GetOrCreateStoredGemForm
  simp only [hcache, hdup]
  cases ceng.dataHandler <;> simp [World.emit]

/-- The store after the part of capture that follows the checks: unchanged up
to the id counter, or with the captured record written under one key; and an
abort for want of a form changes nothing but the notification. -/
theorem storeCaptured_store (ceng : CaptureEngine) (w : World) (selected : SelectedGem)
    (soulGem : TESSoulGem) (spell : SpellItem) (spellTier : SpellTier) :
    ((storeCaptured ceng w selected soulGem spell spellTier).1.serialization.storedSpells_ =
        w.serialization.storedSpells_ ∨
      ∃ key, (storeCaptured ceng w selected soulGem spell spellTier).1.serialization.storedSpells_ =
        mapAssign w.serialization.storedSpells_ key (captureData w soulGem spell spellTier)) ∧
      ((storeCaptured ceng w selected soulGem spell spellTier).2 = .formCreationFailed →
        (storeCaptured ceng w selected soulGem spell spellTier).1 =
          LogMessage w "Failed to create stored spell gem form.") := by
  have hform : ((if captureReusesKey w soulGem = true then (some soulGem, w)
      else GetOrCreateStoredGemForm ceng w soulGem spell spellTier
        (captureData w soulGem spell spellTier).usesRemaining).2.serialization =
        w.serialization) ∧
      ((if captureReusesKey w soulGem = true then (some soulGem, w)
      else GetOrCreateStoredGemForm ceng w soulGem spell spellTier
        (captureData w soulGem spell spellTier).usesRemaining).1 = none →
        (if captureReusesKey w soulGem = true then (some soulGem, w)
      else GetOrCreateStoredGemForm ceng w soulGem spell spellTier
        (captureData w soulGem spell spellTier).usesRemaining).2 = w) := by
    by_cases hr : captureReusesKey w soulGem = true
    · rw [if_pos hr]
      exact ⟨rfl, fun h => by cases h⟩
    · rw [if_neg hr]
      obtain ⟨h1, _, _, _, _, h6⟩ := GetOrCreateStoredGemForm_frame ceng w soulGem spell spellTier
        (captureData w soulGem spell spellTier).usesRemaining
      exact ⟨h1, h6⟩
  unfold storeCaptured
  simp only []
  generalize (if captureReusesKey w soulGem = true then (some soulGem, w)
    else GetOrCreateStoredGemForm ceng w soulGem spell spellTier
      (captureData w soulGem spell spellTier).usesRemaining) = formResult at hform
  obtain ⟨form, w1⟩ := formResult
  obtain ⟨hser, hnone⟩ := hform
  simp only [] at hser hnone
  cases form with
  | none =>
    refine ⟨Or.inl ?_, fun _ => ?_⟩
    · show w1.serialization.storedSpells_ = _
      rw [hser]
    · show LogMessage w1 _ = _
      rw [hnone rfl]
  | some storedGemForm =>
    simp only []
    generalize hk : (match captureReusesKey w soulGem,
        w.serialization.TryGetStoredSpellByBaseId soulGem.formID with
      | true, some e => (e.1, w1)
      | x, x_1 =>
        match selected.extraList with
        | some extraList =>
          ({ baseId := storedGemForm.formID,
             uniqueId := (GetOrCreateUniqueId w1.serialization storedGemForm extraList).1 },
            { w1 with
              serialization :=
                (GetOrCreateUniqueId w1.serialization storedGemForm extraList).2.2 })
        | none =>
          ({ baseId := storedGemForm.formID, uniqueId := w1.serialization.AllocateUniqueId.1 },
            { w1 with serialization := w1.serialization.AllocateUniqueId.2 })) = keyResult
    have hkey : keyResult.2.serialization.storedSpells_ = w.serialization.storedSpells_ := by
      rw [← hk, ← hser]
      split
      · rfl
      · cases selected.extraList with
        | none => rfl
        | some extraList =>
          simp only [GetOrCreateUniqueId]
          cases extraList.uniqueData <;> rfl
    clear hk
    obtain ⟨key, w2⟩ := keyResult
    simp only [] at hkey ⊢
    by_cases hc : (!captureReusesKey w soulGem && w2.serialization.HasStoredSpell key) = true
    · rw [if_pos hc]
      exact ⟨Or.inl hkey, fun h => by cases h⟩
    · rw [if_neg hc]
      cases hp : w2.player with
      | none => exact ⟨Or.inl hkey, fun h => by cases h⟩
      | some p =>
        refine ⟨Or.inr ⟨key, ?_⟩, fun h => by cases h⟩
        simp only [LogMessage, World.emit, RefreshStoredGemSlots, Serialization.StoreSpell]
        split_ifs <;> simp only [hkey]


/-- `TryStoreSelectedSpell` either leaves at one of its checks with a
notification only, or runs the part after the checks. -/
theorem TryStoreSelectedSpell_cases (ceng : CaptureEngine) (w : World) :
    (∃ msg exit, TryStoreSelectedSpell ceng w = (LogMessage w msg, exit) ∧
        exit ≠ .formCreationFailed ∧ exit ≠ .stored) ∨
      ∃ selected soulGem spell spellTier,
        TryStoreSelectedSpell ceng w = storeCaptured ceng w selected soulGem spell spellTier := by
  unfold TryStoreSelectedSpell
  cases ceng.selected with
  | none => exact Or.inl ⟨_, _, rfl, by decide, by decide⟩
  | some selected =>
    simp only []
    cases selected.soulGem with
    | none => exact Or.inl ⟨_, _, rfl, by decide, by decide⟩
    | some soulGem =>
      simp only []
      by_cases h1 : (captureRequireSoul w soulGem && selected.soulLevel == .kNone) = true
      · rw [if_pos h1]
        exact Or.inl ⟨_, _, rfl, by decide, by decide⟩
      · rw [if_neg h1]
        cases GetRightHandSpell ceng w with
        | none => exact Or.inl ⟨_, _, rfl, by decide, by decide⟩
        | some spell =>
          simp only []
          cases TryGetSpellTier spell with
          | none => exact Or.inl ⟨_, _, rfl, by decide, by decide⟩
          | some spellTier =>
            simp only []
            by_cases h2 : (captureRequireSoul w soulGem && selected.soulLevel != .kNone &&
                decide (selected.soulLevel.toNat < (requiredSoul spellTier).toNat)) = true
            · rw [if_pos h2]
              exact Or.inl ⟨_, _, rfl, by decide, by decide⟩
            · rw [if_neg h2]
              by_cases h3 : (!captureIsReusableStar w soulGem &&
                  !captureAllowAnyGemTier w.config && GetGemTier soulGem != spellTier) = true
              · rw [if_pos h3]
                exact Or.inl ⟨_, _, rfl, by decide, by decide⟩
              · rw [if_neg h3]
                exact Or.inr ⟨selected, soulGem, spell, spellTier, rfl⟩

/-- A capture that aborts for want of a stored-gem form changes nothing but the
notification it shows. -/
theorem TryStoreSelectedSpell_formCreationFailed (ceng : CaptureEngine) (w : World)
    (h : (TryStoreSelectedSpell ceng w).2 = .formCreationFailed) :
    (TryStoreSelectedSpell ceng w).1 = LogMessage w "Failed to create stored spell gem form." := by
  rcases TryStoreSelectedSpell_cases ceng w with ⟨msg, exit, heq, hne, _⟩ | ⟨sel, gem, sp, t, heq⟩
  · rw [heq] at h
    exact absurd h hne
  · rw [heq] at h ⊢
    exact (storeCaptured_store ceng w sel gem sp t).2 h

/-- C25 (as amended): if the cache holds no form for the combination and
duplicating the gem definition fails, `GetOrCreateStoredGemForm` yields no
form and changes nothing, and `TryStoreSelectedSpell` (having passed its
checks, for a gem that is not re-recorded in place) aborts with the
notification "Failed to create stored spell gem form."; whenever capture
aborts in this way the store, the id counter, the player and the inventory are
unchanged (no gem removed, no stored gem added, no record written). A failed
registration with the data handler is only logged: the duplicated form is
yielded and cached all the same. -/
theorem C25_duplication_failure_aborts (ceng : CaptureEngine) (w : World)
    (selected : SelectedGem) (soulGem : TESSoulGem) (spell : SpellItem) (spellTier : SpellTier)
    (ceng2 : CaptureEngine) (w2 : World) (storedGem : TESSoulGem) (addForm : TESSoulGem → Bool)
    (hreuse : captureReusesKey w soulGem = false)
    (hcache : w.manager.storedGemForms_.find? (fun e => decide (e.1 =
      ({ baseId := soulGem.formID, spellId := spell.formID, tier := spellTier,
         usesRemaining := (captureData w soulGem spell spellTier).usesRemaining } :
        StoredGemFormKey))) = none)
    (hdup : ceng.createDuplicateForm soulGem = none) :
    GetOrCreateStoredGemForm ceng w soulGem spell spellTier
        (captureData w soulGem spell spellTier).usesRemaining = (none, w) ∧
      storeCaptured ceng w selected soulGem spell spellTier =
        (LogMessage w "Failed to create stored spell gem form.", .formCreationFailed) ∧
      (TryStoreSelectedSpell ceng w = storeCaptured ceng w selected soulGem spell spellTier →
        TryStoreSelectedSpell ceng w =
          (LogMessage w "Failed to create stored spell gem form.", .formCreationFailed)) ∧
      ((TryStoreSelectedSpell ceng2 w2).2 = .formCreationFailed →
        (TryStoreSelectedSpell ceng2 w2).1.serialization = w2.serialization ∧
        (TryStoreSelectedSpell ceng2 w2).1.player = w2.player ∧
        (TryStoreSelectedSpell ceng2 w2).1.manager = w2.manager ∧
        itemsRemoved (TryStoreSelectedSpell ceng2 w2).1.events = itemsRemoved w2.events ∧
        rewardGrants (TryStoreSelectedSpell ceng2 w2).1.events = rewardGrants w2.events) ∧
      (ceng2.createDuplicateForm soulGem = some storedGem →
        ceng2.dataHandler = some addForm → addForm storedGem = false →
        (GetOrCreateStoredGemForm ceng2 w soulGem spell spellTier
          (captureData w soulGem spell spellTier).usesRemaining).1 = some storedGem ∧
        GameEvent.addFormToDataHandler storedGem.formID false ∈
          (GetOrCreateStoredGemForm ceng2 w soulGem spell spellTier
            (captureData w soulGem spell spellTier).usesRemaining).2.events) := by
  have hform := GetOrCreateStoredGemForm_duplication_fails ceng w soulGem spell spellTier
    (captureData w soulGem spell spellTier).usesRemaining hcache hdup
  have hstore : storeCaptured ceng w selected soulGem spell spellTier =
      (LogMessage w "Failed to create stored spell gem form.", .formCreationFailed) := by
    unfold storeCaptured
    simp only [hreuse, Bool.false_eq_true, if_false, hform]
  refine ⟨hform, hstore, fun h => h.trans hstore, ?_, ?_⟩
  · intro hexit
    rw [TryStoreSelectedSpell_formCreationFailed ceng2 w2 hexit]
    refine ⟨rfl, rfl, rfl, ?_, ?_⟩
    · simp [LogMessage, World.emit, itemsRemoved_append, itemsRemoved]
    · simp [LogMessage, World.emit, rewardGrants_append, rewardGrants]
  · intro hd hh hf
    obtain ⟨h1, _, h3⟩ := GetOrCreateStoredGemForm_duplicated ceng2 w soulGem spell spellTier
      (captureData w soulGem spell spellTier).usesRemaining storedGem hcache hd
    refine ⟨h1, ?_⟩
    have := h3 addForm hh
    rw [hf] at this
    exact this

/-- C25 witness: the sample capture with a failing `CreateDuplicateForm`. -/
theorem C25_duplication_failure_aborts_witness :
    TryStoreSelectedSpell sampleCaptureNoDuplicate (emptyWorld Config.defaults) =
        (LogMessage (emptyWorld Config.defaults) "Failed to create stored spell gem form.",
          .formCreationFailed) ∧
      (TryStoreSelectedSpell sampleCaptureNoDuplicate
        (emptyWorld Config.defaults)).1.serialization = (emptyWorld Config.defaults).serialization ∧
      itemsRemoved (TryStoreSelectedSpell sampleCaptureNoDuplicate
        (emptyWorld Config.defaults)).1.events = [] := by
  obtain ⟨_, _, hrun, hframe, _⟩ := C25_duplication_failure_aborts sampleCaptureNoDuplicate
    (emptyWorld Config.defaults) ⟨some (sampleGem .kCommon), .kCommon, none⟩ (sampleGem .kCommon)
    sampleSpell .Adept sampleCaptureNoDuplicate (emptyWorld Config.defaults) (sampleGem .kCommon)
    (fun _ => false) (by decide) (by decide) rfl
  have hexit : (TryStoreSelectedSpell sampleCaptureNoDuplicate
      (emptyWorld Config.defaults)).2 = .formCreationFailed := by decide
  obtain ⟨hs, _, _, hi, _⟩ := hframe hexit
  exact ⟨hrun rfl, hs, hi⟩

/-- C25 counterexample: the sample capture with a data handler whose
`AddFormToDataHandler` fails. The failed registration is logged, yet the
duplicated form `0xFF000900` is yielded and the capture completes: the
selected gem is removed, the stored gem is added and the record is written. -/
theorem C25_counterexample_registration_failure :
    GameEvent.addFormToDataHandler 0xFF000900 false ∈
        (TryStoreSelectedSpell sampleCaptureUnregistered (emptyWorld Config.defaults)).1.events ∧
      (GetOrCreateStoredGemForm sampleCaptureUnregistered (emptyWorld Config.defaults)
        (sampleGem .kCommon) sampleSpell .Adept 6).1 =
        some ⟨0xFF000900, false, .kCommon⟩ ∧
      (TryStoreSelectedSpell sampleCaptureUnregistered (emptyWorld Config.defaults)).2 = .stored ∧
      (TryStoreSelectedSpell sampleCaptureUnregistered
        (emptyWorld Config.defaults)).1.serialization.GetStoredSpell ⟨0xFF000900, 1⟩ =
        some (sampleRecord .Adept 6 0) ∧
      (TryStoreSelectedSpell sampleCaptureUnregistered
        (emptyWorld Config.defaults)).1.serialization.nextUniqueId_ = 2 ∧
      itemsRemoved (TryStoreSelectedSpell sampleCaptureUnregistered
        (emptyWorld Config.defaults)).1.events = [(0xFF000800, 1)] ∧
      rewardGrants (TryStoreSelectedSpell sampleCaptureUnregistered
        (emptyWorld Config.defaults)).1.events = [(0xFF000900, 1)] := by
  decide!

/-! ## Theorems: reusable-star records stay unlimited -/

theorem starsUnlimited_StoreSpell (s : Serialization) (k : GemKey) (d : StoredSpellData)
    (h : starsUnlimited s) (hd : d.isReusableStar = true → d.usesRemaining < 0) :
    starsUnlimited (s.StoreSpell k d) := by
  intro key record hrec hstar
  by_cases hk : key = k
  · subst hk
    have : (s.StoreSpell key d).GetStoredSpell key = some d := mapFind_mapAssign_self _ _ _
    rw [this] at hrec
    cases hrec
    exact hd hstar
  · have : (s.StoreSpell k d).GetStoredSpell key = s.GetStoredSpell key :=
      mapFind_mapAssign_ne _ _ _ _ hk
    rw [this] at hrec
    exact h key record hrec hstar

theorem starsUnlimited_RemoveStoredSpell (s : Serialization) (k : GemKey)
    (h : starsUnlimited s) : starsUnlimited (s.RemoveStoredSpell k) := by
  intro key record hrec hstar
  by_cases hk : key = k
  · subst hk
    have : (s.RemoveStoredSpell key).GetStoredSpell key = none := mapFind_mapErase_self _ _
    rw [this] at hrec
    cases hrec
  · have : (s.RemoveStoredSpell k).GetStoredSpell key = s.GetStoredSpell key :=
      mapFind_mapErase_ne _ _ _ hk
    rw [this] at hrec
    exact h key record hrec hstar

theorem starsUnlimited_of_storedSpells (s t : Serialization)
    (heq : t.storedSpells_ = s.storedSpells_) (h : starsUnlimited s) : starsUnlimited t := by
  intro key record hrec hstar
  apply h key record _ hstar
  unfold Serialization.GetStoredSpell at hrec ⊢
  rw [← heq]
  exact hrec

/-- All that `ConsumeStoredGemUse` can do to the state. -/
theorem ConsumeStoredGemUse_effect (eng : Engine) (w : World) (baseGem : TESSoulGem)
    (k : GemKey) (d : StoredSpellData) :
    (d.usesRemaining < 0 →
        ConsumeStoredGemUse eng w baseGem k d =
          { w with serialization := w.serialization.StoreSpell k d }) ∧
      (0 ≤ d.usesRemaining →
        ConsumeStoredGemUse eng w baseGem k d = w ∨
        (ConsumeStoredGemUse eng w baseGem k d).serialization =
          w.serialization.RemoveStoredSpell k ∨
        ConsumeStoredGemUse eng w baseGem k d =
          { w with serialization :=
              w.serialization.StoreSpell k { d with usesRemaining := d.usesRemaining - 1 } }) := by
  constructor
  · intro hneg
    simp [ConsumeStoredGemUse, hneg]
  · intro h0
    rcases Option.eq_none_or_eq_some w.player with hp | ⟨p, hp⟩
    · left
      simp [ConsumeStoredGemUse, hp, not_lt.2 h0]
    · rcases Option.eq_none_or_eq_some (eng.lookupSpell d.spellId) with hsp | ⟨sp, hsp⟩
      · left
        simp [ConsumeStoredGemUse, hp, hsp, not_lt.2 h0]
      · by_cases h2 : 2 ≤ d.usesRemaining
        · right
          right
          exact ConsumeStoredGemUse_decrement eng w baseGem k d (by rw [hp]; rfl)
            (by rw [hsp]; rfl) h2
        · right
          left
          rw [ConsumeStoredGemUse_depleted eng w baseGem k d (by rw [hp]; rfl)
            (by rw [hsp]; rfl) h0 (by omega), (GrantFragmentsToPlayer_frame eng _ _).1]
          rfl

/-- All that `ActivateStoredGemSlot` can do to the store and the inventory:
nothing, or the consume-one-use step on the record of the slot. -/
theorem ActivateStoredGemSlot_effect (eng : Engine) (w : World) (index : Nat) :
    ((ActivateStoredGemSlot eng w index).1.serialization = w.serialization ∧
        itemsRemoved (ActivateStoredGemSlot eng w index).1.events = itemsRemoved w.events) ∨
      ∃ key stored baseGem W,
        (RefreshStoredGemSlots w).manager.storedGemSlots_[index]? = some key ∧
        w.serialization.GetStoredSpell key = some stored ∧
        W.serialization = w.serialization ∧
        itemsRemoved W.events = itemsRemoved w.events ∧
        (ActivateStoredGemSlot eng w index).1.serialization =
          (ConsumeStoredGemUse eng W baseGem key
            { stored with lastUsedGameTime := gameTimeNow eng }).serialization ∧
        (ActivateStoredGemSlot eng w index).1.events =
          (ConsumeStoredGemUse eng W baseGem key
            { stored with lastUsedGameTime := gameTimeNow eng }).events := by
  cases hslot : (RefreshStoredGemSlots w).manager.storedGemSlots_[index]? with
  | none =>
    left
    unfold ActivateStoredGemSlot
    simp only [hslot]
    exact ⟨rfl, rfl⟩
  | some key =>
    cases hst : w.serialization.GetStoredSpell key with
    | none =>
      left
      have hst2 : (RefreshStoredGemSlots w).serialization.GetStoredSpell key = none := hst
      unfold ActivateStoredGemSlot
      simp only [hslot, hst2]
      exact ⟨rfl, rfl⟩
    | some stored =>
      cases hsp : eng.lookupSpell stored.spellId with
      | none =>
        left
        rw [ActivateStoredGemSlot_spell_missing eng w index key stored hslot hst hsp]
        exact ⟨rfl, rfl⟩
      | some spell =>
        rw [ActivateStoredGemSlot_at_gate eng w index key stored spell hslot hst hsp]
        by_cases hgate : stored.lastUsedGameTime > 0 ∧
            Float32.lt (Float32.sub (.finite (gameTimeNow eng)) (.finite stored.lastUsedGameTime))
            (cooldownDays eng w.config stored)
        · left
          rw [if_pos hgate]
          refine ⟨rfl, ?_⟩
          simp [LogMessage, World.emit, RefreshStoredGemSlots, itemsRemoved_append, itemsRemoved]
        · rw [if_neg hgate]
          cases hp : w.player with
          | none =>
            left
            exact ⟨rfl, rfl⟩
          | some p =>
            obtain ⟨as, _, _, _, ai⟩ :=
              activateCast_frame (RefreshStoredGemSlots w) index key stored spell p
            cases hg : eng.lookupSoulGem key.baseId with
            | none =>
              left
              exact ⟨as, ai⟩
            | some baseGem =>
              right
              exact ⟨key, stored, baseGem,
                activateCast (RefreshStoredGemSlots w) index key stored spell p, rfl, hst, as,
                ai, rfl, rfl⟩

/-- All that `HandleContainerChanged` can do: nothing, drop a record whose
spell does not resolve, or run the external activation. -/
theorem HandleContainerChanged_effect (eng : Engine) (w : World)
    (event : TESContainerChangedEvent) :
    HandleContainerChanged eng w event = w ∨
      (∃ stored, w.serialization.GetStoredSpell ⟨event.baseObj, event.uniqueID⟩ = some stored ∧
        eng.lookupSpell stored.spellId = none ∧
        HandleContainerChanged eng w event =
          { w with serialization :=
              w.serialization.RemoveStoredSpell ⟨event.baseObj, event.uniqueID⟩ }) ∨
      ∃ player stored spell, w.player = some player ∧ event.oldContainer = player.formID ∧
        event.newContainer = 0 ∧ event.itemCount < 0 ∧ event.reference = false ∧
        w.serialization.GetStoredSpell ⟨event.baseObj, event.uniqueID⟩ = some stored ∧
        eng.lookupSpell stored.spellId = some spell := by
  rcases Option.eq_none_or_eq_some w.player with hp | ⟨player, hp⟩
  · left
    exact HandleContainerChanged_ignored eng w event (fun p2 h2 => by rw [hp] at h2; cases h2)
  · by_cases hg : event.oldContainer ≠ player.formID ∨ event.newContainer ≠ 0 ∨
        event.itemCount ≥ 0 ∨ event.reference = true
    · left
      apply HandleContainerChanged_ignored eng w event
      intro p2 h2
      rw [hp] at h2
      cases h2
      exact hg
    · have hold : event.oldContainer = player.formID := by
        by_contra h
        exact hg (Or.inl h)
      have hnew : event.newContainer = 0 := by
        by_contra h
        exact hg (Or.inr (Or.inl h))
      have hcount : event.itemCount < 0 := by
        by_contra h
        exact hg (Or.inr (Or.inr (Or.inl (not_lt.1 h))))
      have href : event.reference = false := by
        cases hr : event.reference
        · rfl
        · exact absurd (Or.inr (Or.inr (Or.inr hr))) hg
      have hgate : ¬ (event.oldContainer ≠ player.formID ∨ event.newContainer ≠ 0 ∨
          event.itemCount ≥ 0) := by
        rintro (h | h | h)
        · exact h hold
        · exact h hnew
        · omega
      rcases Option.eq_none_or_eq_some
        (w.serialization.GetStoredSpell ⟨event.baseObj, event.uniqueID⟩) with hst | ⟨stored, hst⟩
      · left
        unfold HandleContainerChanged
        simp only [hp, if_neg hgate, href, Bool.false_eq_true, if_false, hst]
      · rcases Option.eq_none_or_eq_some (eng.lookupSpell stored.spellId) with hsp | ⟨spell, hsp⟩
        · right
          left
          refine ⟨stored, hst, hsp, ?_⟩
          unfold HandleContainerChanged
          simp only [hp, if_neg hgate, href, Bool.false_eq_true, if_false, hst, hsp]
        · right
          right
          exact ⟨player, stored, spell, hp, hold, hnew, hcount, href, hst, hsp⟩

theorem correctStoredTier_stars (w : World) (key : GemKey) (stored : StoredSpellData)
    (spell : SpellItem) (h : starsUnlimited w.serialization)
    (hstored : w.serialization.GetStoredSpell key = some stored) :
    starsUnlimited (correctStoredTier w key stored spell).1.serialization := by
  unfold correctStoredTier
  cases TryGetSpellTier spell with
  | none => exact h
  | some t =>
    simp only []
    split_ifs
    · exact starsUnlimited_StoreSpell _ _ _ h (fun hs => h key stored hstored hs)
    · exact h

/-- The external-removal path keeps reusable-star records unlimited. -/
theorem HandleContainerChanged_stars (eng : Engine) (w : World)
    (event : TESContainerChangedEvent) (h : starsUnlimited w.serialization) :
    starsUnlimited (HandleContainerChanged eng w event).serialization := by
  rcases HandleContainerChanged_effect eng w event with heq | ⟨stored, _, _, heq⟩ |
    ⟨player, stored, spell, hp, hold, hnew, hcount, href, hst, hsp⟩
  · rw [heq]
    exact h
  · rw [heq]
    exact starsUnlimited_RemoveStoredSpell _ _ h
  · have hc := correctStoredTier_stars w ⟨event.baseObj, event.uniqueID⟩ stored spell h hst
    have hfields := (correctStoredTier_frame w ⟨event.baseObj, event.uniqueID⟩ stored spell
      hst).1
    obtain ⟨fs, _⟩ := CastStoredSpell_frame
      (correctStoredTier w ⟨event.baseObj, event.uniqueID⟩ stored spell).1 spell player
      stored.isBlackSoulGem stored.isReusableStar (IsAzurasStar event.baseObj)
    rw [HandleContainerChanged_resolved eng w event player stored spell hp hold hnew hcount href
      hst hsp]
    by_cases h0 : (if stored.usesRemaining > 0 then stored.usesRemaining - 1
        else stored.usesRemaining) = 0
    · rw [if_pos h0]
      cases eng.lookupSoulGem event.baseObj with
      | none =>
        show starsUnlimited (Serialization.RemoveStoredSpell _ _)
        rw [fs]
        exact starsUnlimited_RemoveStoredSpell _ _ hc
      | some gem =>
        simp only []
        rw [(GrantFragmentsToPlayer_frame eng _ _).1]
        show starsUnlimited (Serialization.RemoveStoredSpell _ _)
        rw [fs]
        exact starsUnlimited_RemoveStoredSpell _ _ hc
    · rw [if_neg h0]
      show starsUnlimited (Serialization.StoreSpell _ _ _)
      rw [fs]
      apply starsUnlimited_StoreSpell _ _ _ hc
      intro hs
      have hs2 : stored.isReusableStar = true := by
        rw [hfields] at hs
        exact hs
      have hneg := h _ stored hst hs2
      show (if stored.usesRemaining > 0 then stored.usesRemaining - 1
        else stored.usesRemaining) < 0
      rw [if_neg (by omega)]
      exact hneg

/-- Slot activation keeps reusable-star records unlimited. -/
theorem ActivateStoredGemSlot_stars (eng : Engine) (w : World) (index : Nat)
    (h : starsUnlimited w.serialization) :
    starsUnlimited (ActivateStoredGemSlot eng w index).1.serialization := by
  rcases ActivateStoredGemSlot_effect eng w index with ⟨hs, _⟩ |
    ⟨key, stored, baseGem, W, _, hst, hW, _, hs, _⟩
  · rw [hs]
    exact h
  · rw [hs]
    have hWinv : starsUnlimited W.serialization := by
      rw [hW]
      exact h
    obtain ⟨hneg, hpos⟩ := ConsumeStoredGemUse_effect eng W baseGem key
      { stored with lastUsedGameTime := gameTimeNow eng }
    by_cases hu : stored.usesRemaining < 0
    · rw [hneg hu]
      exact starsUnlimited_StoreSpell _ _ _ hWinv (fun _ => hu)
    · rcases hpos (not_lt.1 hu) with heq | heq | heq
      · rw [heq]
        exact hWinv
      · rw [heq]
        exact starsUnlimited_RemoveStoredSpell _ _ hWinv
      · rw [heq]
        apply starsUnlimited_StoreSpell _ _ _ hWinv
        intro hs2
        exact absurd (h key stored hst hs2) hu

/-- Capture keeps reusable-star records unlimited: the record it writes for a
reusable star has -1 uses. -/
theorem TryStoreSelectedSpell_stars (ceng : CaptureEngine) (w : World)
    (h : starsUnlimited w.serialization) :
    starsUnlimited (TryStoreSelectedSpell ceng w).1.serialization := by
  rcases TryStoreSelectedSpell_cases ceng w with ⟨msg, exit, heq, _, _⟩ | ⟨sel, gem, sp, t, heq⟩
  · rw [heq]
    exact h
  · rw [heq]
    rcases (storeCaptured_store ceng w sel gem sp t).1 with hs | ⟨key, hs⟩
    · exact starsUnlimited_of_storedSpells _ _ hs h
    · apply starsUnlimited_of_storedSpells (w.serialization.StoreSpell key
        (captureData w gem sp t)) _ hs
      apply starsUnlimited_StoreSpell _ _ _ h
      intro hstar
      have hstar2 : captureIsReusableStar w gem = true := hstar
      simp [captureData, hstar2]

theorem finiteUseEntry_star (c : Config) (finiteUse : Bool) (d : StoredSpellData) :
    (finiteUseEntry c finiteUse d).isReusableStar = d.isReusableStar ∧
      ((finiteUseEntry c finiteUse d).isReusableStar = true →
        (finiteUseEntry c finiteUse d).usesRemaining < 0) := by
  unfold finiteUseEntry
  split_ifs with h1 h2 h3
  · exact ⟨rfl, fun _ => show (-1 : Int) < 0 by decide⟩
  · exact ⟨rfl, fun _ => show (-1 : Int) < 0 by decide⟩
  · exact ⟨rfl, fun hs => absurd hs h1⟩
  · exact ⟨rfl, fun hs => absurd hs h1⟩

theorem foldl_StoreSpell_stars (l : List (GemKey × StoredSpellData))
    (f : StoredSpellData → StoredSpellData)
    (hf : ∀ d, (f d).isReusableStar = true → (f d).usesRemaining < 0) (s : Serialization)
    (h : starsUnlimited s) :
    starsUnlimited (l.foldl (fun s e => s.StoreSpell e.1 (f e.2)) s) := by
  induction l generalizing s with
  | nil => exact h
  | cons e l ih =>
    rw [List.foldl_cons]
    exact ih _ (starsUnlimited_StoreSpell _ _ _ h (hf e.2))

/-- C26 (as amended): the invariant "every record flagged reusable-star has
negative `usesRemaining`" is established by capture (the record written for a
reusable star has -1 uses) and preserved by capture, by slot activation, by
the external-removal handler and by the "Finite Uses" toggle of the settings
panel. Hence, for a store that satisfies it and a reusable-star record under
`key`: no slot activation deletes the record or changes its uses, and the
activation of its slot removes no item from the player; an external-removal
event leaves the record in place with its uses whenever it names another key
or the record's spell resolves, and an event naming `key` never removes an
item from the player. -/
theorem C26_stars_stay_unlimited (w : World) (ceng : CaptureEngine) (eng : Engine) (index : Nat)
    (event : TESContainerChangedEvent) (finiteUse : Bool) (soulGem : TESSoulGem)
    (spell : SpellItem) (spellTier : SpellTier) (key : GemKey) (record : StoredSpellData)
    (hinv : starsUnlimited w.serialization)
    (hrec : w.serialization.GetStoredSpell key = some record)
    (hstar : record.isReusableStar = true) :
    ((captureData w soulGem spell spellTier).isReusableStar = true →
        (captureData w soulGem spell spellTier).usesRemaining = -1) ∧
      starsUnlimited (TryStoreSelectedSpell ceng w).1.serialization ∧
      starsUnlimited (ActivateStoredGemSlot eng w index).1.serialization ∧
      starsUnlimited (HandleContainerChanged eng w event).serialization ∧
      starsUnlimited (toggleFiniteUse w finiteUse).serialization ∧
      (∃ r, (ActivateStoredGemSlot eng w index).1.serialization.GetStoredSpell key = some r ∧
        r.isReusableStar = true ∧ r.usesRemaining = record.usesRemaining) ∧
      ((RefreshStoredGemSlots w).manager.storedGemSlots_[index]? = some key →
        itemsRemoved (ActivateStoredGemSlot eng w index).1.events = itemsRemoved w.events) ∧
      ((⟨event.baseObj, event.uniqueID⟩ : GemKey) ≠ key ∨
          (eng.lookupSpell record.spellId).isSome →
        ∃ r, (HandleContainerChanged eng w event).serialization.GetStoredSpell key = some r ∧
          r.isReusableStar = true ∧ r.usesRemaining = record.usesRemaining) ∧
      ((⟨event.baseObj, event.uniqueID⟩ : GemKey) = key →
        itemsRemoved (HandleContainerChanged eng w event).events = itemsRemoved w.events) := by
  have hneg : record.usesRemaining < 0 := hinv key record hrec hstar
  refine ⟨?_, TryStoreSelectedSpell_stars ceng w hinv, ActivateStoredGemSlot_stars eng w index hinv,
    HandleContainerChanged_stars eng w event hinv, ?_, ?_, ?_, ?_, ?_⟩
  · intro hs
    have hs2 : captureIsReusableStar w soulGem = true := hs
    simp [captureData, hs2]
  · exact foldl_StoreSpell_stars _ _ (fun d => (finiteUseEntry_star _ _ d).2) _ hinv
  · rcases ActivateStoredGemSlot_effect eng w index with ⟨hs, _⟩ |
      ⟨key0, stored0, baseGem, W, _, hst, hW, _, hs, _⟩
    · rw [hs]
      exact ⟨record, hrec, hstar, rfl⟩
    · rw [hs]
      obtain ⟨hn, hp⟩ := ConsumeStoredGemUse_effect eng W baseGem key0
        { stored0 with lastUsedGameTime := gameTimeNow eng }
      by_cases hk : key = key0
      · subst hk
        rw [hrec] at hst
        cases hst
        rw [hn hneg]
        exact ⟨_, mapFind_mapAssign_self _ _ _, hstar, rfl⟩
      · have hother : W.serialization.GetStoredSpell key = some record := by
          rw [hW]
          exact hrec
        by_cases hu : stored0.usesRemaining < 0
        · rw [hn hu]
          refine ⟨record, ?_, hstar, rfl⟩
          show mapFind (mapAssign _ _ _) key = _
          rw [mapFind_mapAssign_ne _ _ _ _ hk]
          exact hother
        · rcases hp (not_lt.1 hu) with heq | heq | heq
          · rw [heq]
            exact ⟨record, hother, hstar, rfl⟩
          · rw [heq]
            refine ⟨record, ?_, hstar, rfl⟩
            show mapFind (mapErase _ _) key = _
            rw [mapFind_mapErase_ne _ _ _ hk]
            exact hother
          · rw [heq]
            refine ⟨record, ?_, hstar, rfl⟩
            show mapFind (mapAssign _ _ _) key = _
            rw [mapFind_mapAssign_ne _ _ _ _ hk]
            exact hother
  · intro hslot
    rcases ActivateStoredGemSlot_effect eng w index with ⟨_, hi⟩ |
      ⟨key0, stored0, baseGem, W, hslot0, hst, _, hWi, _, he⟩
    · exact hi
    · rw [hslot] at hslot0
      cases hslot0
      rw [hrec] at hst
      cases hst
      rw [he, (ConsumeStoredGemUse_effect eng W baseGem key
        { record with lastUsedGameTime := gameTimeNow eng }).1 hneg]
      exact hWi
  · intro hcase
    rcases HandleContainerChanged_effect eng w event with heq | ⟨stored, hst, hsp, heq⟩ |
      ⟨player, stored, spell2, hp, hold, hnew, hcount, href, hst, hsp⟩
    · rw [heq]
      exact ⟨record, hrec, hstar, rfl⟩
    · rw [heq]
      by_cases hk : (⟨event.baseObj, event.uniqueID⟩ : GemKey) = key
      · exfalso
        rw [hk, hrec] at hst
        cases hst
        rcases hcase with h | h
        · exact h hk
        · rw [hsp] at h
          cases h
      · refine ⟨record, ?_, hstar, rfl⟩
        show mapFind (mapErase _ _) key = _
        rw [mapFind_mapErase_ne _ _ _ (fun h => hk h.symm)]
        exact hrec
    · obtain ⟨hH, hothers, _⟩ := HandleContainerChanged_outcome eng w event player stored spell2
        hp hold hnew hcount href hst hsp
      by_cases hk : (⟨event.baseObj, event.uniqueID⟩ : GemKey) = key
      · rw [hk] at hH hst
        rw [hrec] at hst
        cases hst
        rw [hH, if_neg (by omega)]
        have hfields := (correctStoredTier_frame w key record spell2 hrec).1
        refine ⟨_, rfl, ?_, ?_⟩
        · show (correctStoredTier w key record spell2).2.isReusableStar = true
          rw [hfields]
          exact hstar
        · show (if record.usesRemaining > 0 then record.usesRemaining - 1
            else record.usesRemaining) = record.usesRemaining
          rw [if_neg (by omega)]
      · rw [hothers key (fun h => hk h.symm)]
        exact ⟨record, hrec, hstar, rfl⟩
  · intro hk
    rcases HandleContainerChanged_effect eng w event with heq | ⟨stored, hst, hsp, heq⟩ |
      ⟨player, stored, spell2, hp, hold, hnew, hcount, href, hst, hsp⟩
    · rw [heq]
    · rw [heq]
    · obtain ⟨_, _, _, _, hitems⟩ := HandleContainerChanged_outcome eng w event player stored
        spell2 hp hold hnew hcount href hst hsp
      rw [hk, hrec] at hst
      cases hst
      exact hitems (by omega)

/-- C26 witness: a reusable-star record holding the sample spell, last used at
game time 1, is activated in slot 0 at game time 2: it stays in the store with
its unlimited uses and no item is removed. -/
theorem C26_stars_stay_unlimited_witness :
    starsUnlimited (ActivateStoredGemSlot (sampleEngine (sampleGem .kCommon) 2)
        (sampleWorld Config.defaults ⟨0x1C789, .Adept, -1, 1, true, false⟩)
        0).1.serialization ∧
      (∃ r, (ActivateStoredGemSlot (sampleEngine (sampleGem .kCommon) 2)
          (sampleWorld Config.defaults ⟨0x1C789, .Adept, -1, 1, true, false⟩)
          0).1.serialization.GetStoredSpell ⟨0xFF000800, 1⟩ = some r ∧
        r.isReusableStar = true ∧
        r.usesRemaining = (⟨0x1C789, .Adept, -1, 1, true, false⟩ : StoredSpellData).usesRemaining) ∧
      itemsRemoved (ActivateStoredGemSlot (sampleEngine (sampleGem .kCommon) 2)
        (sampleWorld Config.defaults ⟨0x1C789, .Adept, -1, 1, true, false⟩) 0).1.events =
        itemsRemoved (sampleWorld Config.defaults ⟨0x1C789, .Adept, -1, 1, true, false⟩).events ∧
      (ActivateStoredGemSlot (sampleEngine (sampleGem .kCommon) 2)
        (sampleWorld Config.defaults ⟨0x1C789, .Adept, -1, 1, true, false⟩) 0).2 = .activated := by
  have hinv : starsUnlimited
      (sampleWorld Config.defaults ⟨0x1C789, .Adept, -1, 1, true, false⟩).serialization := by
    intro key record hrec hstar
    have hrec2 : (if (⟨0xFF000800, 1⟩ : GemKey) = key then
        some (⟨0x1C789, .Adept, -1, 1, true, false⟩ : StoredSpellData) else none) =
        some record := hrec
    split_ifs at hrec2
    cases hrec2
    decide
  obtain ⟨_, _, hact, _, _, hkeep, hitems, _⟩ := C26_stars_stay_unlimited
    (sampleWorld Config.defaults ⟨0x1C789, .Adept, -1, 1, true, false⟩)
    (sampleCapture (sampleGem .kCommon) .kCommon) (sampleEngine (sampleGem .kCommon) 2) 0
    (sampleRemovalEvent (-1)) true (sampleGem .kCommon) sampleSpell .Adept ⟨0xFF000800, 1⟩
    ⟨0x1C789, .Adept, -1, 1, true, false⟩ hinv (by decide) rfl
  exact ⟨hact, hkeep, hitems (by decide), by decide!⟩

/-- C26 counterexample: the sample world holds a reusable-star record with
unlimited uses whose spell `0x2B96C` the engine does not resolve. An event
reporting that one unit of that star left the player passes the handler's
checks, and the handler deletes the record. -/
theorem C26_counterexample_unresolved_star_deleted :
    sampleStarWorld.serialization.GetStoredSpell ⟨0xFF000900, 1⟩ =
        some ⟨0x2B96C, .Novice, -1, 0, true, false⟩ ∧
      (sampleEngine sampleStarForm 2).lookupSpell 0x2B96C = none ∧
      sampleStarWorld.player = some samplePlayer ∧
      (HandleContainerChanged (sampleEngine sampleStarForm 2) sampleStarWorld
        ⟨samplePlayer.formID, 0, 0xFF000900, -1, false, 1⟩).serialization.GetStoredSpell
        ⟨0xFF000900, 1⟩ = none ∧
      (HandleContainerChanged (sampleEngine sampleStarForm 2) sampleStarWorld
        ⟨samplePlayer.formID, 0, 0xFF000900, -1, false, 1⟩).serialization.HasStoredSpell
        ⟨0xFF000900, 1⟩ = false := by
  decide!
/-! ## Theorems: the suppressed casting cost -/

/-- A cast that is not channeled leaves the cost of the channel it used as it was. -/
theorem CastStoredSpell_restores_cost (w : World) (spell : SpellItem) (p : PlayerCharacter)
    (b s a : Bool) (source : CastingSource) (caster : MagicCaster)
    (hcaster : selectCaster p = some (source, caster))
    (hc : spell.castingType ≠ .kConcentration) :
    (CastStoredSpell w spell p b s a).player =
      some ((p.setSpellCost source 0).setSpellCost source caster.currentSpellCost) := by
  unfold CastStoredSpell
  rw [hcaster]
  generalize castModifiers w.config spell b s a = cm
  obtain ⟨eff, mag, blackBranch⟩ := cm
  simp only [hc, if_false]

/-- C28, the code at the failing input: the sample player's right-hand cost is
30 and the store holds two channeled records, in slots 0 and 1. Activating
slot 0 suppresses the cost and saves 30; ending that session alone would
restore 30. Activating slot 1 while the session of slot 0 is still active
saves the suppressed cost 0 over the 30, so when `StopFocusSpellCast` then ends
the session the cost is "restored" to 0: the value before suppression began,
30, is lost. -/
theorem C28_nested_channel_loses_cost :
    rightHandCost sampleTwoFocusWorld = some 30 ∧
      (ActivateStoredGemSlot (sampleEngine2 (sampleGem .kCommon) 2) sampleTwoFocusWorld 0).2 =
        .activated ∧
      rightHandCost (ActivateStoredGemSlot (sampleEngine2 (sampleGem .kCommon) 2)
        sampleTwoFocusWorld 0).1 = some 0 ∧
      (ActivateStoredGemSlot (sampleEngine2 (sampleGem .kCommon) 2)
        sampleTwoFocusWorld 0).1.manager.focusPreviousCost_ = 30 ∧
      (ActivateStoredGemSlot (sampleEngine2 (sampleGem .kCommon) 2)
        sampleTwoFocusWorld 0).1.manager.activeFocusSlot_ = some 0 ∧
      rightHandCost (StopFocusSpellCast (ActivateStoredGemSlot
        (sampleEngine2 (sampleGem .kCommon) 2) sampleTwoFocusWorld 0).1 0) = some 30 ∧
      (ActivateStoredGemSlot (sampleEngine2 (sampleGem .kCommon) 2)
        (ActivateStoredGemSlot (sampleEngine2 (sampleGem .kCommon) 2)
          sampleTwoFocusWorld 0).1 1).2 = .activated ∧
      (ActivateStoredGemSlot (sampleEngine2 (sampleGem .kCommon) 2)
        (ActivateStoredGemSlot (sampleEngine2 (sampleGem .kCommon) 2)
          sampleTwoFocusWorld 0).1 1).1.manager.activeFocusSlot_ = some 1 ∧
      (ActivateStoredGemSlot (sampleEngine2 (sampleGem .kCommon) 2)
        (ActivateStoredGemSlot (sampleEngine2 (sampleGem .kCommon) 2)
          sampleTwoFocusWorld 0).1 1).1.manager.focusPreviousCost_ = 0 ∧
      rightHandCost (StopFocusSpellCast (ActivateStoredGemSlot
        (sampleEngine2 (sampleGem .kCommon) 2)
        (ActivateStoredGemSlot (sampleEngine2 (sampleGem .kCommon) 2)
          sampleTwoFocusWorld 0).1 1).1 1) = some 0 ∧
      (StopFocusSpellCast (ActivateStoredGemSlot (sampleEngine2 (sampleGem .kCommon) 2)
        (ActivateStoredGemSlot (sampleEngine2 (sampleGem .kCommon) 2)
          sampleTwoFocusWorld 0).1 1).1 1).manager.focusCostActive_ = false ∧
      (StopFocusSpellCast (ActivateStoredGemSlot (sampleEngine2 (sampleGem .kCommon) 2)
        (ActivateStoredGemSlot (sampleEngine2 (sampleGem .kCommon) 2)
          sampleTwoFocusWorld 0).1 1).1 1).manager.activeFocusSlot_ = none := by
  decide!

/-! ## Theorems: the slot numbers of the settings panel -/

/-- C30, the code at the failing input: the store enumerates the record of gem
`(0xFF000900, 1)` before that of `(0xFF000800, 1)`. The panel numbers its rows
in that order, so it shows `(0xFF000900, 1)` as slot 1 (index 0) and binds the
key entered in that row to slot index 0; the manager's slot assignment is
sorted, so slot index 0 is `(0xFF000800, 1)` and `(0xFF000900, 1)` has index 1.
Activating slot index 0 casts the spell of `(0xFF000800, 1)`, not the one the
panel shows in its first row. -/
theorem C30_menu_slot_differs_from_manager_slot :
    sampleTwoGemWorld.serialization.GetStoredSpells.map (fun e => e.1) =
        [⟨0xFF000900, 1⟩, ⟨0xFF000800, 1⟩] ∧
      storedGemRows sampleTwoGemWorld = [(0, ⟨0xFF000900, 1⟩), (1, ⟨0xFF000800, 1⟩)] ∧
      (RefreshStoredGemSlots sampleTwoGemWorld).manager.storedGemSlots_ =
        [⟨0xFF000800, 1⟩, ⟨0xFF000900, 1⟩] ∧
      menuSlotIndex sampleTwoGemWorld ⟨0xFF000900, 1⟩ = some 0 ∧
      managerSlotIndex sampleTwoGemWorld ⟨0xFF000900, 1⟩ = some 1 ∧
      menuSlotIndex sampleTwoGemWorld ⟨0xFF000800, 1⟩ = some 1 ∧
      managerSlotIndex sampleTwoGemWorld ⟨0xFF000800, 1⟩ = some 0 ∧
      castsMade (ActivateStoredGemSlot (sampleEngine2 (sampleGem .kCommon) 2)
        sampleTwoGemWorld 0).1.events = [sampleFocusSpell.formID] := by
  decide!

/-- The panel and the manager agree when the store enumerates its keys in
ascending order and within the maximum: the rows are then the slots with their indices. -/
theorem menuRows_keys (maxStored : Nat) (start : Nat) (entries : List (GemKey × StoredSpellData))
    (h : start + entries.length ≤ maxStored) :
    (menuRows maxStored start entries).map (fun row => row.2) = entries.map fun e => e.1 := by
  induction entries generalizing start with
  | nil => rfl
  | cons e rest ih =>
    obtain ⟨key, data⟩ := e
    simp only [menuRows, List.map_cons, List.length_cons] at h ⊢
    congr 1
    by_cases hlast : start + 1 ≥ maxStored
    · rw [if_pos hlast]
      have : rest = [] := by
        apply List.eq_nil_of_length_eq_zero
        omega
      rw [this]
      rfl
    · rw [if_neg hlast]
      exact ih (start + 1) (by omega)

end SpellGems
